import Mathlib

/-!
Shallow embedding of the rotation-representation core of the `huginn` math
library (`src/types/basis.rs`, `src/types/quaternion.rs`,
`src/types/vectors/vector3.rs`, `src/utils.rs`).

Real-valued floating-point code is embedded over `ℝ` (exact arithmetic, the
idealization the spec's formulas are written in).  The parts of the spec that
are specifically about IEEE-754 `NaN`/`Inf` propagation are embedded a second
time over an explicit IEEE-like value domain `FVal` (exact rationals plus
`inf`, `-inf`, `nan`) in which division by zero and `0 * inf` behave as in
IEEE-754 arithmetic.

Source conventions kept: a `Basis` stores three ROW vectors `x y z`;
`get_column i` reads columns; multiplication is ordinary row-times-column
matrix multiplication (`Basis::t_dot_*`).  Out-parameter functions
(`get_axis_angle(&mut axis, &mut angle)`) are embedded as functions returning
a pair, as §9 of the spec prescribes.
-/

namespace Huginn

noncomputable section

open Real

/-- `CMP_EPSILON` from `src/utils.rs` (0.00001). -/
def CMP_EPSILON : ℝ := 1 / 100000

/-- `UNIT_EPSILON` from `src/utils.rs` (0.00001). -/
def UNIT_EPSILON : ℝ := 1 / 100000

/-- `is_zero_approx` from `src/utils.rs`. -/
def is_zero_approx (s : ℝ) : Prop := |s| < CMP_EPSILON

/-- `is_equal_approx` from `src/utils.rs`: exact equality first, then a
relative tolerance `CMP_EPSILON * |a|` floored at `CMP_EPSILON`. -/
def is_equal_approx (a b : ℝ) : Prop :=
  a = b ∨ |a - b| < (if CMP_EPSILON * |a| < CMP_EPSILON then CMP_EPSILON else CMP_EPSILON * |a|)

/-- `is_equal_approx_with_tolerance` from `src/utils.rs`. -/
def is_equal_approx_with_tolerance (a b tolerance : ℝ) : Prop :=
  a = b ∨ |a - b| < tolerance

/-- `FloatExt::lerp` from `src/utils.rs`. -/
def flerp (a b t : ℝ) : ℝ := a + (b - a) * t

/-- `cubic_interpolate` from `src/utils.rs`. -/
def cubic_interpolate (from_v to_v pre post weight : ℝ) : ℝ :=
  (1 / 2) * ((from_v * 2)
    + (-pre + to_v) * weight
    + (2 * pre - 5 * from_v + 4 * to_v - post) * (weight * weight)
    + (-pre + 3 * from_v - 3 * to_v + post) * (weight * weight * weight))

/-- `cubic_interpolate_in_time` from `src/utils.rs` (Barry-Goldman). -/
def cubic_interpolate_in_time (from_v to_v pre post weight to_t pre_t post_t : ℝ) : ℝ :=
  let t := flerp 0 to_t weight
  let a1 := flerp pre from_v (if pre_t = 0 then 0 else (t - pre_t) / -pre_t)
  let a2 := flerp from_v to_v (if to_t = 0 then (1 / 2) else t / to_t)
  let a3 := flerp to_v post (if post_t - to_t = 0 then 1 else (t - to_t) / (post_t - to_t))
  let b1 := flerp a1 a2 (if to_t - pre_t = 0 then 0 else (t - pre_t) / (to_t - pre_t))
  let b2 := flerp a2 a3 (if post_t = 0 then 1 else t / post_t)
  flerp b1 b2 (if to_t = 0 then (1 / 2) else t / to_t)

/-- `FloatExt::safe_acos` from `src/utils.rs`: saturating arc cosine. -/
def safe_acos (x : ℝ) : ℝ :=
  if x < -1 then Real.pi else if 1 < x then 0 else Real.arccos x

/-- `FloatExt::safe_asin` from `src/utils.rs`: saturating arc sine. -/
def safe_asin (x : ℝ) : ℝ :=
  if x < -1 then -(Real.pi / 2) else if 1 < x then Real.pi / 2 else Real.arcsin x

/-- Rust's `f32::atan2(self = y, other = x)`: four-quadrant arc tangent
(signed zeroes aside, which exact real arithmetic cannot distinguish). -/
def atan2 (y x : ℝ) : ℝ :=
  if 0 < x then Real.arctan (y / x)
  else if x < 0 then
    (if 0 ≤ y then Real.arctan (y / x) + Real.pi else Real.arctan (y / x) - Real.pi)
  else if 0 < y then Real.pi / 2
  else if y < 0 then -(Real.pi / 2)
  else 0

/-- `Vector3` from `src/types/vectors/vector3.rs` (three `float` components). -/
@[ext]
structure Vector3 where
  x : ℝ
  y : ℝ
  z : ℝ

namespace Vector3

/-- `Vector3::new`. -/
def new (x y z : ℝ) : Vector3 := ⟨x, y, z⟩

instance : Add Vector3 := ⟨fun a b => ⟨a.x + b.x, a.y + b.y, a.z + b.z⟩⟩
instance : Sub Vector3 := ⟨fun a b => ⟨a.x - b.x, a.y - b.y, a.z - b.z⟩⟩
instance : Neg Vector3 := ⟨fun a => ⟨-a.x, -a.y, -a.z⟩⟩
instance : SMul ℝ Vector3 := ⟨fun k v => ⟨k * v.x, k * v.y, k * v.z⟩⟩

/-- `Vector3::get` (indices 0..2; the source panics out of range, which is
unreachable in the embedded call sites). -/
def get (v : Vector3) (i : ℕ) : ℝ :=
  match i with
  | 0 => v.x
  | 1 => v.y
  | _ => v.z

/-- `Vector3::dot`. -/
def dot (a b : Vector3) : ℝ := a.x * b.x + a.y * b.y + a.z * b.z

/-- `Vector3::cross`. -/
def cross (a b : Vector3) : Vector3 :=
  ⟨a.y * b.z - a.z * b.y, a.z * b.x - a.x * b.z, a.x * b.y - a.y * b.x⟩

/-- `Vector3::length_squared`. -/
def length_squared (v : Vector3) : ℝ := v.x * v.x + v.y * v.y + v.z * v.z

/-- `Vector3::length`. -/
def length (v : Vector3) : ℝ := Real.sqrt v.length_squared

/-- `Vector3::normalized` (zero-length guard returns the zero vector). -/
def normalized (v : Vector3) : Vector3 :=
  if v.length_squared = 0 then ⟨0, 0, 0⟩
  else
    let l := Real.sqrt v.length_squared
    ⟨v.x / l, v.y / l, v.z / l⟩

/-- `Vector3::is_normalized`. -/
def is_normalized (v : Vector3) : Prop :=
  is_equal_approx_with_tolerance v.length_squared 1 UNIT_EPSILON

/-- `Vector3::is_equal_approx`. -/
def vec_is_equal_approx (a b : Vector3) : Prop :=
  is_equal_approx a.x b.x ∧ is_equal_approx a.y b.y ∧ is_equal_approx a.z b.z

end Vector3

/-- `Quaternion` from `src/types/quaternion.rs` (`x y z w`, Hamilton, `w` real). -/
@[ext]
structure Quaternion where
  x : ℝ
  y : ℝ
  z : ℝ
  w : ℝ

namespace Quaternion

/-- `Quaternion::new(x, y, z, w)`. -/
def new (x y z w : ℝ) : Quaternion := ⟨x, y, z, w⟩

/-- `Quaternion::IDENTITY`. -/
def IDENTITY : Quaternion := ⟨0, 0, 0, 1⟩

instance : Neg Quaternion := ⟨fun q => ⟨-q.x, -q.y, -q.z, -q.w⟩⟩

/-- Hamilton product, `impl_op_ex!(* |lhs, rhs|)` in `quaternion.rs`. -/
instance : Mul Quaternion :=
  ⟨fun l r =>
    ⟨l.w * r.x + l.x * r.w + l.y * r.z - l.z * r.y,
     l.w * r.y + l.y * r.w + l.z * r.x - l.x * r.z,
     l.w * r.z + l.z * r.w + l.x * r.y - l.y * r.x,
     l.w * r.w - l.x * r.x - l.y * r.y - l.z * r.z⟩⟩

/-- `Quaternion::dot`. -/
def dot (a b : Quaternion) : ℝ := a.x * b.x + a.y * b.y + a.z * b.z + a.w * b.w

/-- `Quaternion::length_squared`. -/
def length_squared (q : Quaternion) : ℝ := q.dot q

/-- `Quaternion::length`. -/
def length (q : Quaternion) : ℝ := Real.sqrt q.length_squared

/-- `Quaternion::inverse` (conjugate). -/
def inverse (q : Quaternion) : Quaternion := ⟨-q.x, -q.y, -q.z, q.w⟩

/-- `Quaternion::is_normalized`. -/
def is_normalized (q : Quaternion) : Prop :=
  is_equal_approx_with_tolerance q.length_squared 1 UNIT_EPSILON

/-- `Quaternion::is_equal_approx`. -/
def quat_is_equal_approx (a b : Quaternion) : Prop :=
  is_equal_approx a.x b.x ∧ is_equal_approx a.y b.y ∧
    is_equal_approx a.z b.z ∧ is_equal_approx a.w b.w

/-- `Quaternion::get_angle`: `2 * self.w.acos()`.  Over `ℝ` this uses the
total `Real.arccos`; the IEEE `NaN` behaviour of Rust's unclamped `acos`
outside `[-1, 1]` is modelled separately on `FVal` below. -/
def get_angle (q : Quaternion) : ℝ := 2 * Real.arccos q.w

/-- `Quaternion::get_axis`. -/
def get_axis (q : Quaternion) : Vector3 :=
  if 1 - CMP_EPSILON < |q.w| then ⟨q.x, q.y, q.z⟩
  else
    let r := 1 / Real.sqrt (1 - q.w * q.w)
    ⟨q.x * r, q.y * r, q.z * r⟩

/-- `Quaternion::log`: axis scaled by angle in the vector part, `w = 0`. -/
def log (q : Quaternion) : Quaternion :=
  let src_v := q.get_angle • q.get_axis
  ⟨src_v.x, src_v.y, src_v.z, 0⟩

/-- `impl From<(&Vector3, float)> for Quaternion` (axis-angle constructor,
with the explicit `d == 0` guard of the source). -/
def fromAxisAngle (axis : Vector3) (angle : ℝ) : Quaternion :=
  let d := axis.length
  if d = 0 then ⟨0, 0, 0, 0⟩
  else
    let sin_angle := Real.sin (angle * (1 / 2))
    let cos_angle := Real.cos (angle * (1 / 2))
    let s := sin_angle / d
    ⟨axis.x * s, axis.y * s, axis.z * s, cos_angle⟩

open Classical in
/-- `Quaternion::exp`. -/
def exp (q : Quaternion) : Quaternion :=
  let src_v : Vector3 := ⟨q.x, q.y, q.z⟩
  let theta := src_v.length
  let src_v' := src_v.normalized
  if theta < CMP_EPSILON ∨ ¬src_v'.is_normalized then ⟨0, 0, 0, 1⟩
  else fromAxisAngle src_v' theta

/-- `Quaternion::slerp`. -/
def slerp (self to_v : Quaternion) (weight : ℝ) : Quaternion :=
  let cosom0 := self.dot to_v
  let to1 := if cosom0 < 0 then -to_v else to_v
  let cosom := if cosom0 < 0 then -cosom0 else cosom0
  let scales : ℝ × ℝ :=
    if CMP_EPSILON < 1 - cosom then
      let omega := Real.arccos cosom
      let sinom := Real.sin omega
      (Real.sin ((1 - weight) * omega) / sinom, Real.sin (weight * omega) / sinom)
    else
      (1 - weight, weight)
  ⟨scales.1 * self.x + scales.2 * to1.x,
   scales.1 * self.y + scales.2 * to1.y,
   scales.1 * self.z + scales.2 * to1.z,
   scales.1 * self.w + scales.2 * to1.w⟩

end Quaternion

/-- `EulerOrder` from `src/types/mod.rs`. -/
inductive EulerOrder
  | XYZ | XZY | YXZ | YZX | ZXY | ZYX
deriving DecidableEq, Repr

/-- `Basis` from `src/types/basis.rs`: three ROW vectors (row-major storage,
columns exposed through `get_column`). -/
@[ext]
structure Basis where
  x : Vector3
  y : Vector3
  z : Vector3

namespace Basis

/-- `Basis::new_from_floats(xx, xy, xz, yx, yy, yz, zx, zy, zz)`. -/
def new_from_floats (xx xy xz yx yy yz zx zy zz : ℝ) : Basis :=
  ⟨⟨xx, xy, xz⟩, ⟨yx, yy, yz⟩, ⟨zx, zy, zz⟩⟩

/-- `Basis::new(x, y, z)`: columns-to-rows constructor. -/
def newB (x y z : Vector3) : Basis :=
  new_from_floats x.x y.x z.x x.y y.y z.y x.z y.z z.z

/-- `Basis::IDENTITY`. -/
def IDENTITY : Basis := new_from_floats 1 0 0 0 1 0 0 0 1

/-- `Basis::get_row`. -/
def get_row (b : Basis) (i : ℕ) : Vector3 :=
  match i with
  | 0 => b.x
  | 1 => b.y
  | _ => b.z

/-- `Basis::get_column`. -/
def get_column (b : Basis) (i : ℕ) : Vector3 :=
  match i with
  | 0 => ⟨b.x.x, b.y.x, b.z.x⟩
  | 1 => ⟨b.x.y, b.y.y, b.z.y⟩
  | _ => ⟨b.x.z, b.y.z, b.z.z⟩

/-- `Basis::set_columns` applied to a fresh value. -/
def fromColumns (c0 c1 c2 : Vector3) : Basis :=
  ⟨⟨c0.x, c1.x, c2.x⟩, ⟨c0.y, c1.y, c2.y⟩, ⟨c0.z, c1.z, c2.z⟩⟩

/-- `Basis::t_dot_x`. -/
def t_dot_x (b : Basis) (w : Vector3) : ℝ := b.x.x * w.x + b.y.x * w.y + b.z.x * w.z

/-- `Basis::t_dot_y`. -/
def t_dot_y (b : Basis) (w : Vector3) : ℝ := b.x.y * w.x + b.y.y * w.y + b.z.y * w.z

/-- `Basis::t_dot_z`. -/
def t_dot_z (b : Basis) (w : Vector3) : ℝ := b.x.z * w.x + b.y.z * w.y + b.z.z * w.z

/-- `impl_op_ex!(* |a: &Basis, b: &Basis|)`: row-times-column product. -/
instance : Mul Basis :=
  ⟨fun a b =>
    new_from_floats
      (b.t_dot_x a.x) (b.t_dot_y a.x) (b.t_dot_z a.x)
      (b.t_dot_x a.y) (b.t_dot_y a.y) (b.t_dot_z a.y)
      (b.t_dot_x a.z) (b.t_dot_y a.z) (b.t_dot_z a.z)⟩

/-- `Basis::determinant`. -/
def determinant (b : Basis) : ℝ :=
  b.x.x * (b.y.y * b.z.z - b.z.y * b.y.z)
    - b.y.x * (b.x.y * b.z.z - b.z.y * b.x.z)
    + b.z.x * (b.x.y * b.y.z - b.y.y * b.x.z)

/-- `Basis::transposed`. -/
def transposed (b : Basis) : Basis :=
  new_from_floats b.x.x b.y.x b.z.x b.x.y b.y.y b.z.y b.x.z b.y.z b.z.z

/-- `Basis::scale` (rows scaled componentwise), applied functionally. -/
def scaled (b : Basis) (s : Vector3) : Basis :=
  ⟨s.x • b.x, s.y • b.y, s.z • b.z⟩

/-- `Basis::invert`/`Basis::inverse`: adjugate over determinant. -/
def inverse (b : Basis) : Basis :=
  let co0 := b.y.y * b.z.z - b.y.z * b.z.y
  let co1 := b.y.z * b.z.x - b.y.x * b.z.z
  let co2 := b.y.x * b.z.y - b.y.y * b.z.x
  let det := b.x.x * co0 + b.x.y * co1 + b.x.z * co2
  let s := 1 / det
  new_from_floats
    (co0 * s) ((b.x.z * b.z.y - b.x.y * b.z.z) * s) ((b.x.y * b.y.z - b.x.z * b.y.y) * s)
    (co1 * s) ((b.x.x * b.z.z - b.x.z * b.z.x) * s) ((b.x.z * b.y.x - b.x.x * b.y.z) * s)
    (co2 * s) ((b.x.y * b.z.x - b.x.x * b.z.y) * s) ((b.x.x * b.y.y - b.x.y * b.y.x) * s)

/-- `Basis::is_diagonal`. -/
def is_diagonal (b : Basis) : Prop :=
  is_zero_approx b.x.y ∧ is_zero_approx b.x.z ∧ is_zero_approx b.y.x ∧
    is_zero_approx b.y.z ∧ is_zero_approx b.z.x ∧ is_zero_approx b.z.y

/-- The singularity test of `Basis::get_axis_angle` (all three anti-symmetric
differences approximately zero). -/
def axis_angle_singular (b : Basis) : Prop :=
  is_zero_approx (b.x.y - b.y.x) ∧ is_zero_approx (b.x.z - b.z.x) ∧
    is_zero_approx (b.y.z - b.z.y)

open Classical in
/-- The axis computed in the angle-`π` singular branch of
`Basis::get_axis_angle` (the `(M+I)/2` dominant-diagonal reconstruction). -/
def pi_singularity_axis (b : Basis) : Vector3 :=
  let xx := (b.x.x + 1) / 2
  let yy := (b.y.y + 1) / 2
  let zz := (b.z.z + 1) / 2
  let xy := (b.x.y + b.y.x) / 4
  let xz := (b.x.z + b.z.x) / 4
  let yz := (b.y.z + b.z.y) / 4
  if xx > yy ∧ xx > zz then
    if xx < CMP_EPSILON then ⟨0, Real.sqrt 2 / 2, Real.sqrt 2 / 2⟩
    else
      let x := Real.sqrt xx
      ⟨x, xy / x, xz / x⟩
  else if yy > zz then
    if yy < CMP_EPSILON then ⟨Real.sqrt 2 / 2, 0, Real.sqrt 2 / 2⟩
    else
      let y := Real.sqrt yy
      ⟨xy / y, y, yz / y⟩
  else
    if zz < CMP_EPSILON then ⟨Real.sqrt 2 / 2, Real.sqrt 2 / 2, 0⟩
    else
      let z := Real.sqrt zz
      ⟨xz / z, yz / z, z⟩

open Classical in
/-- `Basis::get_axis_angle`, embedded as a function returning `(axis, angle)`. -/
def get_axis_angle (b : Basis) : Vector3 × ℝ :=
  if axis_angle_singular b then
    if b.is_diagonal ∧ |b.x.x + b.y.y + b.z.z - 3| < 3 * CMP_EPSILON then
      (⟨0, 1, 0⟩, 0)
    else
      (b.pi_singularity_axis, Real.pi)
  else
    let s0 := Real.sqrt ((b.z.y - b.y.z) * (b.z.y - b.y.z)
      + (b.x.z - b.z.x) * (b.x.z - b.z.x)
      + (b.y.x - b.x.y) * (b.y.x - b.x.y))
    let s := if |s0| < CMP_EPSILON then 1 else s0
    (⟨(b.z.y - b.y.z) / s, (b.x.z - b.z.x) / s, (b.y.x - b.x.y) / s⟩,
      safe_acos ((b.x.x + b.y.y + b.z.z - 1) / 2))


/-- Exact (real-arithmetic) column orthonormality: the idealization of
`Basis::is_orthonormal` with the epsilon comparisons sharpened to equalities. -/
def exactly_orthonormal (b : Basis) : Prop :=
  (b.get_column 0).length_squared = 1 ∧ (b.get_column 1).length_squared = 1 ∧
    (b.get_column 2).length_squared = 1 ∧ (b.get_column 0).dot (b.get_column 1) = 0 ∧
    (b.get_column 0).dot (b.get_column 2) = 0 ∧ (b.get_column 1).dot (b.get_column 2) = 0


/-- Exact row orthonormality: the rows of the matrix form an orthonormal
triple (real-arithmetic idealization used for the Euler round-trip). -/
def rows_orthonormal (b : Basis) : Prop :=
  b.x.length_squared = 1 ∧ b.y.length_squared = 1 ∧ b.z.length_squared = 1 ∧
    b.x.dot b.y = 0 ∧ b.x.dot b.z = 0 ∧ b.y.dot b.z = 0

/-- Test vector: the exactly orthonormal rotation with quaternion
`(1, 1, 0, 1/250000)` (a rotation by slightly less than `π` about the axis
`(1,1,0)/√2`), whose anti-symmetric part is below `CMP_EPSILON` so that
`get_axis_angle` takes the angle-`π` singular branch. -/
def nearPiBasis : Basis :=
  Basis.new_from_floats
    (1 / 125000000001) (125000000000 / 125000000001) (500000 / 125000000001)
    (125000000000 / 125000000001) (1 / 125000000001) (-(500000 / 125000000001))
    (-(500000 / 125000000001)) (500000 / 125000000001) (-(124999999999 / 125000000001))

/-- `Basis::set_euler` (three single-axis matrices multiplied in the
order-dependent sequence). -/
def set_euler (euler : Vector3) (order : EulerOrder) : Basis :=
  let x_mat := new_from_floats 1 0 0
    0 (Real.cos euler.x) (-Real.sin euler.x) 0 (Real.sin euler.x) (Real.cos euler.x)
  let y_mat := new_from_floats (Real.cos euler.y) 0 (Real.sin euler.y)
    0 1 0 (-Real.sin euler.y) 0 (Real.cos euler.y)
  let z_mat := new_from_floats (Real.cos euler.z) (-Real.sin euler.z) 0
    (Real.sin euler.z) (Real.cos euler.z) 0 0 0 1
  match order with
  | EulerOrder.XYZ => x_mat * (y_mat * z_mat)
  | EulerOrder.XZY => x_mat * z_mat * y_mat
  | EulerOrder.YXZ => y_mat * x_mat * z_mat
  | EulerOrder.YZX => y_mat * z_mat * x_mat
  | EulerOrder.ZXY => z_mat * x_mat * y_mat
  | EulerOrder.ZYX => z_mat * y_mat * x_mat

/-- `Basis::from_euler` (default order `YXZ`). -/
def from_euler (euler : Vector3) (order : Option EulerOrder) : Basis :=
  set_euler euler (order.getD EulerOrder.YXZ)

open Classical in
/-- `Basis::get_euler` (six per-order formula sets; default order `YXZ`). -/
def get_euler (b : Basis) (order : Option EulerOrder) : Vector3 :=
  match order.getD EulerOrder.YXZ with
  | EulerOrder.XYZ =>
    let sy := b.x.z
    if sy < 1 - CMP_EPSILON then
      if -(1 - CMP_EPSILON) < sy then
        if b.y.x = 0 ∧ b.x.y = 0 ∧ b.y.z = 0 ∧ b.z.y = 0 ∧ b.y.y = 1 then
          ⟨0, atan2 b.x.z b.x.x, 0⟩
        else ⟨atan2 (-b.y.z) b.z.z, Real.arcsin sy, atan2 (-b.x.y) b.x.x⟩
      else ⟨atan2 b.z.y b.y.y, -(Real.pi / 2), 0⟩
    else ⟨atan2 b.z.y b.y.y, Real.pi / 2, 0⟩
  | EulerOrder.XZY =>
    let sz := b.x.y
    if sz < 1 - CMP_EPSILON then
      if -(1 - CMP_EPSILON) < sz then
        ⟨atan2 b.z.y b.y.y, atan2 b.x.z b.x.x, Real.arcsin (-sz)⟩
      else ⟨-(atan2 b.y.z b.z.z), 0, Real.pi / 2⟩
    else ⟨-(atan2 b.y.z b.z.z), 0, -(Real.pi / 2)⟩
  | EulerOrder.YXZ =>
    let m12 := b.y.z
    if m12 < 1 - CMP_EPSILON then
      if -(1 - CMP_EPSILON) < m12 then
        if b.y.x = 0 ∧ b.x.y = 0 ∧ b.x.z = 0 ∧ b.z.x = 0 ∧ b.x.x = 1 then
          ⟨atan2 (-m12) b.y.y, 0, 0⟩
        else ⟨Real.arcsin (-m12), atan2 b.x.z b.z.z, atan2 b.y.x b.y.y⟩
      else ⟨Real.pi / 2, atan2 b.x.y b.x.x, 0⟩
    else ⟨-(Real.pi / 2), -(atan2 b.x.y b.x.x), 0⟩
  | EulerOrder.YZX =>
    let sz := b.y.x
    if sz < 1 - CMP_EPSILON then
      if -(1 - CMP_EPSILON) < sz then
        ⟨atan2 (-b.y.z) b.y.y, atan2 (-b.z.x) b.x.x, Real.arcsin sz⟩
      else ⟨atan2 b.z.y b.z.z, 0, -(Real.pi / 2)⟩
    else ⟨atan2 b.z.y b.z.z, 0, Real.pi / 2⟩
  | EulerOrder.ZXY =>
    let sx := b.z.y
    if sx < 1 - CMP_EPSILON then
      if -(1 - CMP_EPSILON) < sx then
        ⟨Real.arcsin sx, atan2 (-b.z.x) b.z.z, atan2 (-b.x.y) b.y.y⟩
      else ⟨-(Real.pi / 2), atan2 b.x.z b.x.x, 0⟩
    else ⟨Real.pi / 2, atan2 b.x.z b.x.x, 0⟩
  | EulerOrder.ZYX =>
    let sy := b.z.x
    if sy < 1 - CMP_EPSILON then
      if -(1 - CMP_EPSILON) < sy then
        ⟨atan2 b.z.y b.z.z, Real.arcsin (-sy), atan2 b.y.x b.x.x⟩
      else ⟨0, Real.pi / 2, -(atan2 b.x.y b.y.y)⟩
    else ⟨0, -(Real.pi / 2), -(atan2 b.x.y b.y.y)⟩

/-- `Basis::orthonormalize`/`orthonormalized`: Gram-Schmidt on the columns. -/
def orthonormalized (b : Basis) : Basis :=
  let x0 := b.get_column 0
  let y0 := b.get_column 1
  let z0 := b.get_column 2
  let x := x0.normalized
  let y1 := y0 - (x.dot y0) • x
  let y := y1.normalized
  let z1 := z0 - (x.dot z0) • x - (y.dot z0) • y
  let z := z1.normalized
  fromColumns x y z

open Classical in
/-- `Basis::get_quaternion` (trace-based extraction with the largest-diagonal
branch; `temp` is the four-slot accumulator of the source). -/
def get_quaternion (m : Basis) : Quaternion :=
  let trace := m.x.x + m.y.y + m.z.z
  if 0 < trace then
    let s := Real.sqrt (trace + 1)
    let w := s * (1 / 2)
    let s2 := (1 / 2) / s
    ⟨(m.z.y - m.y.z) * s2, (m.x.z - m.z.x) * s2, (m.y.x - m.x.y) * s2, w⟩
  else
    let i : ℕ :=
      if m.x.x < m.y.y then (if m.y.y < m.z.z then 2 else 1)
      else (if m.x.x < m.z.z then 2 else 0)
    let j := (i + 1) % 3
    let k := (i + 2) % 3
    let s := Real.sqrt
      ((m.get_row i).get i - (m.get_row j).get j - (m.get_row k).get k + 1)
    let temp_i := s * (1 / 2)
    let s2 := (1 / 2) / s
    let temp_w := ((m.get_row k).get j - (m.get_row j).get k) * s2
    let temp_j := ((m.get_row j).get i + (m.get_row i).get j) * s2
    let temp_k := ((m.get_row k).get i + (m.get_row i).get k) * s2
    let tempAt : ℕ → ℝ := fun n =>
      if n = i then temp_i else if n = j then temp_j else temp_k
    ⟨tempAt 0, tempAt 1, tempAt 2, temp_w⟩

open Classical in
/-- `Basis::get_rotation_quaternion`: orthonormalize, flip all axes on a
negative determinant, then extract the quaternion. -/
def get_rotation_quaternion (b : Basis) : Quaternion :=
  let m := b.orthonormalized
  let m2 := if m.determinant < 0 then m.scaled ⟨-1, -1, -1⟩ else m
  m2.get_quaternion

/-- `Basis::set_quaternion` (`impl From<&Quaternion> for Basis`): closed-form,
scaled by `2 / |q|^2`, no zero-norm guard. -/
def from_quaternion (q : Quaternion) : Basis :=
  let d := q.length_squared
  let s := 2 / d
  let xs := q.x * s
  let ys := q.y * s
  let zs := q.z * s
  let wx := q.w * xs
  let wy := q.w * ys
  let wz := q.w * zs
  let xx := q.x * xs
  let xy := q.x * ys
  let xz := q.x * zs
  let yy := q.y * ys
  let yz := q.y * zs
  let zz := q.z * zs
  new_from_floats
    (1 - (yy + zz)) (xy - wz) (xz + wy)
    (xy + wz) (1 - (xx + zz)) (yz - wx)
    (xz - wy) (yz + wx) (1 - (xx + yy))

/-- `Basis::set_axis_angle` (`impl From<(&Vector3, float)> for Basis`):
Rodrigues construction, division-free. -/
def set_axis_angle (axis : Vector3) (angle : ℝ) : Basis :=
  let axis_sq : Vector3 := ⟨axis.x * axis.x, axis.y * axis.y, axis.z * axis.z⟩
  let cosine := Real.cos angle
  let sine := Real.sin angle
  let t := 1 - cosine
  new_from_floats
    (axis_sq.x + cosine * (1 - axis_sq.x))
    (axis.x * axis.y * t - axis.z * sine)
    (axis.x * axis.z * t + axis.y * sine)
    (axis.x * axis.y * t + axis.z * sine)
    (axis_sq.y + cosine * (1 - axis_sq.y))
    (axis.y * axis.z * t - axis.x * sine)
    (axis.x * axis.z * t - axis.y * sine)
    (axis.y * axis.z * t + axis.x * sine)
    (axis_sq.z + cosine * (1 - axis_sq.z))

end Basis

namespace Quaternion

/-- The body of `Quaternion::spherical_cubic_interpolate` after the
flip-phase alignment (everything from "Calc by Exp map" on), as a function of
the four aligned quaternions. -/
def sCubicAfterFlip (from_q to_q pre_q post_q : Quaternion) (weight : ℝ) : Quaternion :=
  let ln_from : Quaternion := ⟨0, 0, 0, 0⟩
  let ln_to := (from_q.inverse * to_q).log
  let ln_pre := (from_q.inverse * pre_q).log
  let ln_post := (from_q.inverse * post_q).log
  let ln : Quaternion :=
    ⟨cubic_interpolate ln_from.x ln_to.x ln_pre.x ln_post.x weight,
     cubic_interpolate ln_from.y ln_to.y ln_pre.y ln_post.y weight,
     cubic_interpolate ln_from.z ln_to.z ln_pre.z ln_post.z weight, 0⟩
  let q1 := from_q * ln.exp
  let ln_from2 := (to_q.inverse * from_q).log
  let ln_to2 : Quaternion := ⟨0, 0, 0, 0⟩
  let ln_pre2 := (to_q.inverse * pre_q).log
  let ln_post2 := (to_q.inverse * post_q).log
  let ln2 : Quaternion :=
    ⟨cubic_interpolate ln_from2.x ln_to2.x ln_pre2.x ln_post2.x weight,
     cubic_interpolate ln_from2.y ln_to2.y ln_pre2.y ln_post2.y weight,
     cubic_interpolate ln_from2.z ln_to2.z ln_pre2.z ln_post2.z weight, 0⟩
  let q2 := to_q * ln2.exp
  q1.slerp q2 weight

open Classical in
/-- `Quaternion::spherical_cubic_interpolate`: normalize the four inputs
through the scale-aware extraction, align flip phases, then blend two
exponential-map cubics with a final slerp. -/
def spherical_cubic_interpolate (self b pre_a post_b : Quaternion) (weight : ℝ) :
    Quaternion :=
  let from_q := (Basis.from_quaternion self).get_rotation_quaternion
  let pre_q0 := (Basis.from_quaternion pre_a).get_rotation_quaternion
  let to_q0 := (Basis.from_quaternion b).get_rotation_quaternion
  let post_q0 := (Basis.from_quaternion post_b).get_rotation_quaternion
  let flip1 := from_q.dot pre_q0 < 0
  let pre_q := if flip1 then -pre_q0 else pre_q0
  let flip2 := from_q.dot to_q0 < 0
  let to_q := if flip2 then -to_q0 else to_q0
  let flip3 := if flip2 then to_q.dot post_q0 ≤ 0 else to_q.dot post_q0 < 0
  let post_q := if flip3 then -post_q0 else post_q0
  sCubicAfterFlip from_q to_q pre_q post_q weight

/-- The body of `Quaternion::spherical_cubic_interpolate_in_time` after the
flip-phase alignment (Barry-Goldman per-component cubics). -/
def sCubicInTimeAfterFlip (from_q to_q pre_q post_q : Quaternion)
    (weight b_t pre_a_t post_b_t : ℝ) : Quaternion :=
  let ln_from : Quaternion := ⟨0, 0, 0, 0⟩
  let ln_to := (from_q.inverse * to_q).log
  let ln_pre := (from_q.inverse * pre_q).log
  let ln_post := (from_q.inverse * post_q).log
  let ln : Quaternion :=
    ⟨cubic_interpolate_in_time ln_from.x ln_to.x ln_pre.x ln_post.x weight b_t pre_a_t post_b_t,
     cubic_interpolate_in_time ln_from.y ln_to.y ln_pre.y ln_post.y weight b_t pre_a_t post_b_t,
     cubic_interpolate_in_time ln_from.z ln_to.z ln_pre.z ln_post.z weight b_t pre_a_t post_b_t,
     0⟩
  let q1 := from_q * ln.exp
  let ln_from2 := (to_q.inverse * from_q).log
  let ln_to2 : Quaternion := ⟨0, 0, 0, 0⟩
  let ln_pre2 := (to_q.inverse * pre_q).log
  let ln_post2 := (to_q.inverse * post_q).log
  let ln2 : Quaternion :=
    ⟨cubic_interpolate_in_time ln_from2.x ln_to2.x ln_pre2.x ln_post2.x weight b_t pre_a_t post_b_t,
     cubic_interpolate_in_time ln_from2.y ln_to2.y ln_pre2.y ln_post2.y weight b_t pre_a_t post_b_t,
     cubic_interpolate_in_time ln_from2.z ln_to2.z ln_pre2.z ln_post2.z weight b_t pre_a_t post_b_t,
     0⟩
  let q2 := to_q * ln2.exp
  q1.slerp q2 weight

open Classical in
/-- `Quaternion::spherical_cubic_interpolate_in_time`. -/
def spherical_cubic_interpolate_in_time (self b pre_a post_b : Quaternion)
    (weight b_t pre_a_t post_b_t : ℝ) : Quaternion :=
  let from_q := (Basis.from_quaternion self).get_rotation_quaternion
  let pre_q0 := (Basis.from_quaternion pre_a).get_rotation_quaternion
  let to_q0 := (Basis.from_quaternion b).get_rotation_quaternion
  let post_q0 := (Basis.from_quaternion post_b).get_rotation_quaternion
  let flip1 := from_q.dot pre_q0 < 0
  let pre_q := if flip1 then -pre_q0 else pre_q0
  let flip2 := from_q.dot to_q0 < 0
  let to_q := if flip2 then -to_q0 else to_q0
  let flip3 := if flip2 then to_q.dot post_q0 ≤ 0 else to_q.dot post_q0 < 0
  let post_q := if flip3 then -post_q0 else post_q0
  sCubicInTimeAfterFlip from_q to_q pre_q post_q weight b_t pre_a_t post_b_t

end Quaternion

end

/-- IEEE-754-like value domain used for the `NaN`/`Inf`-propagation claims:
exact rationals plus the two infinities and `NaN`.  Rounding is irrelevant to
those claims, so finite values stay exact; division by zero, `0 * inf` and
out-of-domain `acos` behave as in IEEE-754 (the model has no signed zero, so
`a / 0` for `a > 0` is `+inf`, matching division by `+0`). -/
inductive FVal
  | fin (q : ℚ)
  | inf
  | ninf
  | nan
deriving DecidableEq, Repr

namespace FVal

def isNan : FVal → Bool
  | nan => true
  | _ => false

def isFiniteF : FVal → Bool
  | fin _ => true
  | _ => false

def negF : FVal → FVal
  | fin q => fin (-q)
  | inf => ninf
  | ninf => inf
  | nan => nan

def addF : FVal → FVal → FVal
  | nan, _ => nan
  | _, nan => nan
  | fin a, fin b => fin (a + b)
  | fin _, inf => inf
  | fin _, ninf => ninf
  | inf, fin _ => inf
  | ninf, fin _ => ninf
  | inf, inf => inf
  | ninf, ninf => ninf
  | inf, ninf => nan
  | ninf, inf => nan

def subF (a b : FVal) : FVal := addF a (negF b)

def mulF : FVal → FVal → FVal
  | nan, _ => nan
  | _, nan => nan
  | fin a, fin b => fin (a * b)
  | fin a, inf => if a = 0 then nan else if 0 < a then inf else ninf
  | fin a, ninf => if a = 0 then nan else if 0 < a then ninf else inf
  | inf, fin a => if a = 0 then nan else if 0 < a then inf else ninf
  | ninf, fin a => if a = 0 then nan else if 0 < a then ninf else inf
  | inf, inf => inf
  | ninf, ninf => inf
  | inf, ninf => ninf
  | ninf, inf => ninf

def divF : FVal → FVal → FVal
  | nan, _ => nan
  | _, nan => nan
  | fin a, fin b =>
    if b = 0 then (if a = 0 then nan else if 0 < a then inf else ninf)
    else fin (a / b)
  | fin _, inf => fin 0
  | fin _, ninf => fin 0
  | inf, fin b => if 0 ≤ b then inf else ninf
  | ninf, fin b => if 0 ≤ b then ninf else inf
  | inf, inf => nan
  | inf, ninf => nan
  | ninf, inf => nan
  | ninf, ninf => nan

def absF : FVal → FVal
  | fin q => fin |q|
  | inf => inf
  | ninf => inf
  | nan => nan

/-- IEEE `==` (false whenever a `NaN` is involved). -/
def beqF : FVal → FVal → Bool
  | fin a, fin b => a = b
  | inf, inf => true
  | ninf, ninf => true
  | _, _ => false

/-- IEEE `<` (false whenever a `NaN` is involved). -/
def ltF : FVal → FVal → Bool
  | fin a, fin b => a < b
  | fin _, inf => true
  | ninf, fin _ => true
  | ninf, inf => true
  | _, _ => false

instance : Add FVal := ⟨addF⟩
instance : Sub FVal := ⟨subF⟩
instance : Mul FVal := ⟨mulF⟩
instance : Div FVal := ⟨divF⟩
instance : Neg FVal := ⟨negF⟩

/-- Rust `f32::sqrt` with the finite in-domain values supplied by a model
function `sf` (only ever evaluated at perfect squares in the theorems that
use it, where `sf`'s defining hypothesis pins the value down). -/
def sqrtF (sf : ℚ → ℚ) : FVal → FVal
  | fin q => if q < 0 then nan else fin (sf q)
  | inf => inf
  | ninf => nan
  | nan => nan

/-- Rust `f32::acos`: `NaN` outside `[-1, 1]`, in-domain finite values
supplied by a model function. -/
def acosF (f : ℚ → ℚ) : FVal → FVal
  | fin q => if q < -1 ∨ 1 < q then nan else fin (f q)
  | _ => nan

/-- Rust `f32::sin`/`f32::cos` shape: finite arguments map through a model
function, non-finite arguments give `NaN`. -/
def trigF (f : ℚ → ℚ) : FVal → FVal
  | fin q => fin (f q)
  | _ => nan

end FVal

open FVal

/-- `Vector3` over the IEEE-like domain. -/
structure V3F where
  x : FVal
  y : FVal
  z : FVal
deriving DecidableEq, Repr

/-- `Quaternion` over the IEEE-like domain. -/
structure QuatF where
  x : FVal
  y : FVal
  z : FVal
  w : FVal
deriving DecidableEq, Repr

/-- `Basis` (three rows) over the IEEE-like domain. -/
structure BasisF where
  x : V3F
  y : V3F
  z : V3F
deriving DecidableEq, Repr

namespace V3F

def length_squared (v : V3F) : FVal := v.x * v.x + v.y * v.y + v.z * v.z

/-- `Vector3::length` = `length_squared().sqrt()`. -/
def lengthF (sf : ℚ → ℚ) (v : V3F) : FVal := sqrtF sf v.length_squared

end V3F

namespace BasisF

def isFiniteB (b : BasisF) : Bool :=
  b.x.x.isFiniteF && b.x.y.isFiniteF && b.x.z.isFiniteF &&
  b.y.x.isFiniteF && b.y.y.isFiniteF && b.y.z.isFiniteF &&
  b.z.x.isFiniteF && b.z.y.isFiniteF && b.z.z.isFiniteF

/-- `Basis::set_axis_angle` over the IEEE-like domain; `cosine`/`sine` are
the values of the source's two trigonometric calls `angle.cos()`,
`angle.sin()`. -/
def set_axis_angleF (axis : V3F) (cosine sine : FVal) : BasisF :=
  let one : FVal := FVal.fin 1
  let axis_sq : V3F := ⟨axis.x * axis.x, axis.y * axis.y, axis.z * axis.z⟩
  let t := one - cosine
  ⟨⟨axis_sq.x + cosine * (one - axis_sq.x),
    axis.x * axis.y * t - axis.z * sine,
    axis.x * axis.z * t + axis.y * sine⟩,
   ⟨axis.x * axis.y * t + axis.z * sine,
    axis_sq.y + cosine * (one - axis_sq.y),
    axis.y * axis.z * t - axis.x * sine⟩,
   ⟨axis.x * axis.z * t - axis.y * sine,
    axis.y * axis.z * t + axis.x * sine,
    axis_sq.z + cosine * (one - axis_sq.z)⟩⟩

/-- `Basis::set_quaternion` over the IEEE-like domain (the unguarded
`s = 2 / d` happy path). -/
def set_quaternionF (q : QuatF) : BasisF :=
  let one : FVal := FVal.fin 1
  let two : FVal := FVal.fin 2
  let d := q.x * q.x + q.y * q.y + q.z * q.z + q.w * q.w
  let s := two / d
  let xs := q.x * s
  let ys := q.y * s
  let zs := q.z * s
  let wx := q.w * xs
  let wy := q.w * ys
  let wz := q.w * zs
  let xx := q.x * xs
  let xy := q.x * ys
  let xz := q.x * zs
  let yy := q.y * ys
  let yz := q.y * zs
  let zz := q.z * zs
  ⟨⟨one - (yy + zz), xy - wz, xz + wy⟩,
   ⟨xy + wz, one - (xx + zz), yz - wx⟩,
   ⟨xz - wy, yz + wx, one - (xx + yy)⟩⟩

end BasisF

namespace QuatF

/-- `impl From<(&Vector3, float)> for Quaternion` over the IEEE-like domain:
`sf`, `sinF`, `cosF` model `sqrt`, `sin`, `cos` on finite in-domain inputs. -/
def fromAxisAngleF (sf sinF cosF : ℚ → ℚ) (axis : V3F) (angle : FVal) : QuatF :=
  let d := axis.lengthF sf
  if beqF d (FVal.fin 0) then ⟨FVal.fin 0, FVal.fin 0, FVal.fin 0, FVal.fin 0⟩
  else
    let half : FVal := FVal.fin (1 / 2)
    let sin_angle := trigF sinF (angle * half)
    let cos_angle := trigF cosF (angle * half)
    let s := sin_angle / d
    ⟨axis.x * s, axis.y * s, axis.z * s, cos_angle⟩

def length_squaredF (q : QuatF) : FVal := q.x * q.x + q.y * q.y + q.z * q.z + q.w * q.w

/-- `Quaternion::is_normalized` over the IEEE-like domain
(`is_equal_approx_with_tolerance(length_squared, 1, UNIT_EPSILON)`). -/
def is_normalizedF (q : QuatF) : Bool :=
  beqF q.length_squaredF (FVal.fin 1) ||
    ltF (absF (q.length_squaredF - FVal.fin 1)) (FVal.fin (1 / 100000))

/-- `Quaternion::get_angle` over the IEEE-like domain:
`2 * self.w.acos()` with Rust's unclamped `acos`. -/
def get_angleF (acos_model : ℚ → ℚ) (q : QuatF) : FVal :=
  FVal.fin 2 * acosF acos_model q.w

/-- `Quaternion::angle_to` over the IEEE-like domain:
`(d * d * 2 - 1).acos()` with Rust's unclamped `acos`. -/
def angle_toF (acos_model : ℚ → ℚ) (a b : QuatF) : FVal :=
  let d := a.x * b.x + a.y * b.y + a.z * b.z + a.w * b.w
  acosF acos_model (d * d * FVal.fin 2 - FVal.fin 1)

end QuatF

/-! ## Basic lemmas -/

theorem Vector3.add_def (a b : Vector3) : a + b = ⟨a.x + b.x, a.y + b.y, a.z + b.z⟩ := rfl

theorem Vector3.sub_def (a b : Vector3) : a - b = ⟨a.x - b.x, a.y - b.y, a.z - b.z⟩ := rfl

theorem Vector3.neg_def (a : Vector3) : -a = ⟨-a.x, -a.y, -a.z⟩ := rfl

theorem Vector3.smul_def (k : ℝ) (v : Vector3) : k • v = ⟨k * v.x, k * v.y, k * v.z⟩ := rfl

theorem Quaternion.negate_def (q : Quaternion) : -q = ⟨-q.x, -q.y, -q.z, -q.w⟩ := rfl

theorem Quaternion.hamilton_def (l r : Quaternion) :
    l * r =
      ⟨l.w * r.x + l.x * r.w + l.y * r.z - l.z * r.y,
       l.w * r.y + l.y * r.w + l.z * r.x - l.x * r.z,
       l.w * r.z + l.z * r.w + l.x * r.y - l.y * r.x,
       l.w * r.w - l.x * r.x - l.y * r.y - l.z * r.z⟩ := rfl

theorem Basis.mul_def (a b : Basis) :
    a * b =
      Basis.new_from_floats
        (b.t_dot_x a.x) (b.t_dot_y a.x) (b.t_dot_z a.x)
        (b.t_dot_x a.y) (b.t_dot_y a.y) (b.t_dot_z a.y)
        (b.t_dot_x a.z) (b.t_dot_y a.z) (b.t_dot_z a.z) := rfl

@[simp]
theorem FVal.fin_mul_fin (a b : ℚ) : FVal.fin a * FVal.fin b = FVal.fin (a * b) := rfl

@[simp]
theorem FVal.fin_add_fin (a b : ℚ) : FVal.fin a + FVal.fin b = FVal.fin (a + b) := rfl

@[simp]
theorem FVal.fin_sub_fin (a b : ℚ) : FVal.fin a - FVal.fin b = FVal.fin (a - b) := by
  show FVal.addF (FVal.fin a) (FVal.negF (FVal.fin b)) = FVal.fin (a - b)
  simp only [FVal.negF, FVal.addF]
  rw [← sub_eq_add_neg]

@[simp]
theorem FVal.fin_isNan (a : ℚ) : (FVal.fin a).isNan = false := rfl

@[simp]
theorem FVal.fin_isFinite (a : ℚ) : (FVal.fin a).isFiniteF = true := rfl

@[simp]
theorem FVal.nan_isNan : FVal.nan.isNan = true := rfl

@[simp]
theorem FVal.nan_mul (a : FVal) : FVal.nan * a = FVal.nan := by
  show FVal.mulF FVal.nan a = FVal.nan
  cases a <;> rfl

@[simp]
theorem FVal.mul_nan (a : FVal) : a * FVal.nan = FVal.nan := by
  show FVal.mulF a FVal.nan = FVal.nan
  cases a <;> rfl

@[simp]
theorem FVal.nan_add (a : FVal) : FVal.nan + a = FVal.nan := by
  show FVal.addF FVal.nan a = FVal.nan
  cases a <;> rfl

@[simp]
theorem FVal.add_nan (a : FVal) : a + FVal.nan = FVal.nan := by
  show FVal.addF a FVal.nan = FVal.nan
  cases a <;> rfl

@[simp]
theorem FVal.nan_sub (a : FVal) : FVal.nan - a = FVal.nan := by
  show FVal.addF FVal.nan (FVal.negF a) = FVal.nan
  cases a <;> rfl

@[simp]
theorem FVal.sub_nan (a : FVal) : a - FVal.nan = FVal.nan := by
  show FVal.addF a (FVal.negF FVal.nan) = FVal.nan
  cases a <;> rfl

theorem FVal.fin_div_fin_pos_zero (a : ℚ) (ha : 0 < a) :
    FVal.fin a / FVal.fin 0 = FVal.inf := by
  show FVal.divF (FVal.fin a) (FVal.fin 0) = FVal.inf
  simp [FVal.divF, ha, ha.ne']

@[simp]
theorem FVal.fin_zero_mul_inf : FVal.fin 0 * FVal.inf = FVal.nan := by
  show FVal.mulF (FVal.fin 0) FVal.inf = FVal.nan
  simp [FVal.mulF]

@[simp]
theorem FVal.fin_two_div_fin_zero : FVal.fin 2 / FVal.fin 0 = FVal.inf :=
  FVal.fin_div_fin_pos_zero 2 (by norm_num)

@[simp]
theorem FVal.fin_beq_fin (a b : ℚ) : FVal.beqF (FVal.fin a) (FVal.fin b) = decide (a = b) := rfl

@[simp]
theorem FVal.fin_lt_fin (a b : ℚ) : FVal.ltF (FVal.fin a) (FVal.fin b) = decide (a < b) := rfl

@[simp]
theorem FVal.fin_abs (a : ℚ) : FVal.absF (FVal.fin a) = FVal.fin |a| := rfl

/-! ## Claim theorems -/

/-- C10: for every quaternion `q` (unit or not), `Quaternion::log q` has `w`
component exactly `0`, and its vector part is the rotation axis
(`get_axis`) scaled by the rotation angle (`get_angle`). -/
theorem C10_log_w_zero_vector_axis_angle (q : Quaternion) :
    (q.log).w = 0 ∧
      (q.log).x = (q.get_angle • q.get_axis).x ∧
      (q.log).y = (q.get_angle • q.get_axis).y ∧
      (q.log).z = (q.get_angle • q.get_axis).z :=
  ⟨rfl, rfl, rfl, rfl⟩

/-- C2 counterexample: a zero-length axis fed to the axis-angle `Basis`
constructor (with `angle = 0`, whose IEEE cosine and sine are exactly `1`
and `0`) produces the finite identity matrix, not `NaN`/`Inf` components:
`Basis::set_axis_angle` contains no division at all. -/
theorem C2_counterexample :
    (BasisF.set_axis_angleF ⟨FVal.fin 0, FVal.fin 0, FVal.fin 0⟩
        (FVal.fin 1) (FVal.fin 0)).isFiniteB = true ∧
      BasisF.set_axis_angleF ⟨FVal.fin 0, FVal.fin 0, FVal.fin 0⟩
          (FVal.fin 1) (FVal.fin 0) =
        ⟨⟨FVal.fin 1, FVal.fin 0, FVal.fin 0⟩,
         ⟨FVal.fin 0, FVal.fin 1, FVal.fin 0⟩,
         ⟨FVal.fin 0, FVal.fin 0, FVal.fin 1⟩⟩ := by
  constructor
  · simp [BasisF.isFiniteB, BasisF.set_axis_angleF]
  · simp only [BasisF.set_axis_angleF, FVal.fin_mul_fin, FVal.fin_add_fin, FVal.fin_sub_fin]
    norm_num [BasisF.mk.injEq, V3F.mk.injEq, FVal.fin.injEq]

/-- C2 amended: only the zero-norm-quaternion path (`Basis::set_quaternion`,
where `s = 2 / d` divides by the unguarded squared norm) propagates
`NaN`/`Inf`.  The axis-angle `Basis` constructor is division-free and maps a
zero axis to the finite matrix `cos(angle) * I`, and the axis-angle
`Quaternion` constructor explicitly guards `d == 0` and returns the all-zero
quaternion. -/
theorem C2_amended_only_set_quaternion_nan :
    (∀ c s : ℚ,
      BasisF.set_axis_angleF ⟨FVal.fin 0, FVal.fin 0, FVal.fin 0⟩
          (FVal.fin c) (FVal.fin s) =
        ⟨⟨FVal.fin c, FVal.fin 0, FVal.fin 0⟩,
         ⟨FVal.fin 0, FVal.fin c, FVal.fin 0⟩,
         ⟨FVal.fin 0, FVal.fin 0, FVal.fin c⟩⟩) ∧
    (∀ sf sinF cosF : ℚ → ℚ, sf 0 = 0 → ∀ angle : FVal,
      QuatF.fromAxisAngleF sf sinF cosF ⟨FVal.fin 0, FVal.fin 0, FVal.fin 0⟩ angle =
        ⟨FVal.fin 0, FVal.fin 0, FVal.fin 0, FVal.fin 0⟩) ∧
    ((BasisF.set_quaternionF ⟨FVal.fin 0, FVal.fin 0, FVal.fin 0, FVal.fin 0⟩).x.x.isNan =
        true ∧
      (BasisF.set_quaternionF ⟨FVal.fin 0, FVal.fin 0, FVal.fin 0, FVal.fin 0⟩).y.y.isNan =
        true ∧
      (BasisF.set_quaternionF ⟨FVal.fin 0, FVal.fin 0, FVal.fin 0, FVal.fin 0⟩).z.z.isNan =
        true ∧
      (BasisF.set_quaternionF ⟨FVal.fin 0, FVal.fin 0, FVal.fin 0, FVal.fin 0⟩).x.y.isNan =
        true) := by
  refine ⟨?_, ?_, ?_⟩
  case refine_3 =>
    simp only [BasisF.set_quaternionF]
    norm_num
  · intro c s
    show BasisF.mk _ _ _ = _
    simp only [BasisF.set_axis_angleF, FVal.instMul, FVal.instAdd, FVal.instSub, FVal.instNeg]
    norm_num [FVal.mulF, FVal.addF, FVal.subF, FVal.negF]
  · intro sf sinF cosF h angle
    simp only [QuatF.fromAxisAngleF, V3F.lengthF, V3F.length_squared, FVal.sqrtF]
    norm_num [FVal.mulF, FVal.addF, FVal.instMul, FVal.instAdd, h, FVal.beqF]

/-- Witness for `C2_amended_only_set_quaternion_nan`: the second conjunct's
hypothesis discharged with the identity function as the `sqrt` model
(`sqrt 0 = 0` holds in IEEE arithmetic). -/
theorem C2_amended_witness :
    (fun q : ℚ => q) 0 = 0 ∧
      QuatF.fromAxisAngleF (fun q => q) (fun q => q) (fun q => q)
          ⟨FVal.fin 0, FVal.fin 0, FVal.fin 0⟩ (FVal.fin 1) =
        ⟨FVal.fin 0, FVal.fin 0, FVal.fin 0, FVal.fin 0⟩ :=
  ⟨rfl, C2_amended_only_set_quaternion_nan.2.1 (fun q => q) (fun q => q) (fun q => q) rfl
    (FVal.fin 1)⟩

/-- C9: the quaternion `(0, 0, 0, 1 + 2^-20)` passes `is_normalized`
(its squared length differs from 1 by about `1.9e-6 < UNIT_EPSILON`), yet
`Quaternion::get_angle` calls Rust's *unclamped* `acos` on `w > 1` and returns
`NaN`, and `Quaternion::angle_to` (whose comment claims "acos does clamping")
does the same; this contradicts the spec's clamped-before-the-call contract
(and the library's own `safe_acos`, used by `get_axis_angle`).  The statement
is quantified over the in-domain values of the `acos` model because the
`NaN` result never consults them. -/
theorem C9_get_angle_angle_to_nan (acos_model : ℚ → ℚ) :
    QuatF.is_normalizedF ⟨FVal.fin 0, FVal.fin 0, FVal.fin 0, FVal.fin (1 + 1 / 1048576)⟩ =
        true ∧
      (QuatF.get_angleF acos_model
          ⟨FVal.fin 0, FVal.fin 0, FVal.fin 0, FVal.fin (1 + 1 / 1048576)⟩).isNan = true ∧
      (QuatF.angle_toF acos_model
          ⟨FVal.fin 0, FVal.fin 0, FVal.fin 0, FVal.fin (1 + 1 / 1048576)⟩
          ⟨FVal.fin 0, FVal.fin 0, FVal.fin 0, FVal.fin (1 + 1 / 1048576)⟩).isNan = true := by
  refine ⟨?_, ?_, ?_⟩
  · simp only [QuatF.is_normalizedF, QuatF.length_squaredF]
    norm_num
    rw [abs_lt]
    constructor <;> norm_num
  · norm_num [QuatF.get_angleF, FVal.acosF]
  · norm_num [QuatF.angle_toF, FVal.acosF]

/-- The square root of a sum of three squares dominates each absolute value. -/
theorem sqrt_three_sq_ge (a b c : ℝ) :
    |a| ≤ Real.sqrt (a * a + b * b + c * c) ∧
      |b| ≤ Real.sqrt (a * a + b * b + c * c) ∧
      |c| ≤ Real.sqrt (a * a + b * b + c * c) := by
  refine ⟨?_, ?_, ?_⟩ <;>
    · rw [← Real.sqrt_mul_self_eq_abs]
      apply Real.sqrt_le_sqrt
      nlinarith [sq_nonneg a, sq_nonneg b, sq_nonneg c]

/-- Regular (non-singular) branch of `get_axis_angle` in closed form, with the
divisor bounded below by `CMP_EPSILON`. -/
theorem axis_angle_regular_eval (b : Basis) (h : ¬ b.axis_angle_singular) :
    CMP_EPSILON ≤ Real.sqrt ((b.z.y - b.y.z) * (b.z.y - b.y.z) +
        (b.x.z - b.z.x) * (b.x.z - b.z.x) + (b.y.x - b.x.y) * (b.y.x - b.x.y)) ∧
      b.get_axis_angle =
        (⟨(b.z.y - b.y.z) / Real.sqrt ((b.z.y - b.y.z) * (b.z.y - b.y.z) +
            (b.x.z - b.z.x) * (b.x.z - b.z.x) + (b.y.x - b.x.y) * (b.y.x - b.x.y)),
          (b.x.z - b.z.x) / Real.sqrt ((b.z.y - b.y.z) * (b.z.y - b.y.z) +
            (b.x.z - b.z.x) * (b.x.z - b.z.x) + (b.y.x - b.x.y) * (b.y.x - b.x.y)),
          (b.y.x - b.x.y) / Real.sqrt ((b.z.y - b.y.z) * (b.z.y - b.y.z) +
            (b.x.z - b.z.x) * (b.x.z - b.z.x) + (b.y.x - b.x.y) * (b.y.x - b.x.y))⟩,
         safe_acos ((b.x.x + b.y.y + b.z.z - 1) / 2)) := by
  have hd : CMP_EPSILON ≤ |b.x.y - b.y.x| ∨ CMP_EPSILON ≤ |b.x.z - b.z.x| ∨
      CMP_EPSILON ≤ |b.y.z - b.z.y| := by
    by_contra hc
    push_neg at hc
    exact h ⟨hc.1, hc.2.1, hc.2.2⟩
  have habs : CMP_EPSILON ≤ |b.z.y - b.y.z| ∨ CMP_EPSILON ≤ |b.x.z - b.z.x| ∨
      CMP_EPSILON ≤ |b.y.x - b.x.y| := by
    rcases hd with h1 | h2 | h3
    · right; right
      rw [show b.y.x - b.x.y = -(b.x.y - b.y.x) by ring, abs_neg]
      exact h1
    · right; left; exact h2
    · left
      rw [show b.z.y - b.y.z = -(b.y.z - b.z.y) by ring, abs_neg]
      exact h3
  have hs0 : CMP_EPSILON ≤ Real.sqrt ((b.z.y - b.y.z) * (b.z.y - b.y.z) +
      (b.x.z - b.z.x) * (b.x.z - b.z.x) + (b.y.x - b.x.y) * (b.y.x - b.x.y)) := by
    obtain ⟨g1, g2, g3⟩ := sqrt_three_sq_ge (b.z.y - b.y.z) (b.x.z - b.z.x) (b.y.x - b.x.y)
    rcases habs with h1 | h2 | h3
    · exact le_trans h1 g1
    · exact le_trans h2 g2
    · exact le_trans h3 g3
  have hnotlt : ¬ |Real.sqrt ((b.z.y - b.y.z) * (b.z.y - b.y.z) +
      (b.x.z - b.z.x) * (b.x.z - b.z.x) + (b.y.x - b.x.y) * (b.y.x - b.x.y))| <
        CMP_EPSILON := by
    rw [abs_of_nonneg (Real.sqrt_nonneg _)]
    exact not_lt.mpr hs0
  refine ⟨hs0, ?_⟩
  simp only [Basis.get_axis_angle, if_neg h, if_neg hnotlt]

/-- C3: whenever a `Basis` reaches the regular (non-singular) branch of
`get_axis_angle`, the normalization divisor is at least `CMP_EPSILON` (the
`s.abs() < CMP_EPSILON` guard replaces a too-small divisor before any
division), and the returned axis is exactly the anti-symmetric difference
vector divided by that divisor — i.e. that vector normalized. -/
theorem C3_regular_branch_divisor (b : Basis) (h : ¬ b.axis_angle_singular) :
    ∃ s : ℝ, CMP_EPSILON ≤ s ∧
      (b.get_axis_angle).1 =
        ⟨(b.z.y - b.y.z) / s, (b.x.z - b.z.x) / s, (b.y.x - b.x.y) / s⟩ ∧
      (b.get_axis_angle).1 =
        (Vector3.mk (b.z.y - b.y.z) (b.x.z - b.z.x) (b.y.x - b.x.y)).normalized := by
  have hd : CMP_EPSILON ≤ |b.x.y - b.y.x| ∨ CMP_EPSILON ≤ |b.x.z - b.z.x| ∨
      CMP_EPSILON ≤ |b.y.z - b.z.y| := by
    by_contra hc
    push_neg at hc
    exact h ⟨hc.1, hc.2.1, hc.2.2⟩
  set d1 := b.z.y - b.y.z with hd1
  set d2 := b.x.z - b.z.x with hd2
  set d3 := b.y.x - b.x.y with hd3
  have habs : CMP_EPSILON ≤ |d1| ∨ CMP_EPSILON ≤ |d2| ∨ CMP_EPSILON ≤ |d3| := by
    rcases hd with h1 | h2 | h3
    · right; right; rw [show d3 = -(b.x.y - b.y.x) by rw [hd3]; ring, abs_neg]; exact h1
    · right; left; exact h2
    · left; rw [show d1 = -(b.y.z - b.z.y) by rw [hd1]; ring, abs_neg]; exact h3
  have hs0 : CMP_EPSILON ≤ Real.sqrt (d1 * d1 + d2 * d2 + d3 * d3) := by
    obtain ⟨g1, g2, g3⟩ := sqrt_three_sq_ge d1 d2 d3
    rcases habs with h1 | h2 | h3
    · exact le_trans h1 g1
    · exact le_trans h2 g2
    · exact le_trans h3 g3
  have hsqnn : (0 : ℝ) ≤ Real.sqrt (d1 * d1 + d2 * d2 + d3 * d3) := Real.sqrt_nonneg _
  have hnotlt : ¬ |Real.sqrt (d1 * d1 + d2 * d2 + d3 * d3)| < CMP_EPSILON := by
    rw [abs_of_nonneg hsqnn]
    exact not_lt.mpr hs0
  have heps : (0 : ℝ) < CMP_EPSILON := by norm_num [CMP_EPSILON]
  have hlsq : (Vector3.mk d1 d2 d3).length_squared ≠ 0 := by
    have : (0 : ℝ) < d1 * d1 + d2 * d2 + d3 * d3 := by
      by_contra hz
      push_neg at hz
      have : Real.sqrt (d1 * d1 + d2 * d2 + d3 * d3) = 0 :=
        Real.sqrt_eq_zero_of_nonpos hz
      rw [this] at hs0
      linarith
    simpa [Vector3.length_squared] using this.ne'
  refine ⟨Real.sqrt (d1 * d1 + d2 * d2 + d3 * d3), hs0, ?_, ?_⟩
  · simp only [Basis.get_axis_angle, if_neg h, ← hd1, ← hd2, ← hd3, if_neg hnotlt]
  · simp only [Basis.get_axis_angle, if_neg h, ← hd1, ← hd2, ← hd3, if_neg hnotlt,
      Vector3.normalized, Vector3.length_squared]
    rw [if_neg (by simpa [Vector3.length_squared] using hlsq)]

/-- Witness for `C3_regular_branch_divisor` at the 90-degrees-about-X
rotation basis, which is not singular (`y.z - z.y = -2`). -/
theorem C3_regular_branch_divisor_witness :
    ¬ (Basis.new_from_floats 1 0 0 0 0 (-1) 0 1 0).axis_angle_singular ∧
      ∃ s : ℝ, CMP_EPSILON ≤ s ∧
        ((Basis.new_from_floats 1 0 0 0 0 (-1) 0 1 0).get_axis_angle).1 =
          ⟨((1 : ℝ) - -1) / s, ((0 : ℝ) - 0) / s, ((0 : ℝ) - 0) / s⟩ ∧
        ((Basis.new_from_floats 1 0 0 0 0 (-1) 0 1 0).get_axis_angle).1 =
          (Vector3.mk ((1 : ℝ) - -1) ((0 : ℝ) - 0) ((0 : ℝ) - 0)).normalized := by
  have hns : ¬ (Basis.new_from_floats 1 0 0 0 0 (-1) 0 1 0).axis_angle_singular := by
    intro hcon
    have := hcon.2.2
    rw [show (Basis.new_from_floats 1 0 0 0 0 (-1) 0 1 0).y.z -
        (Basis.new_from_floats 1 0 0 0 0 (-1) 0 1 0).z.y = -2 by
      norm_num [Basis.new_from_floats]] at this
    norm_num [is_zero_approx, CMP_EPSILON] at this
  exact ⟨hns, C3_regular_branch_divisor _ hns⟩

/-- `Quaternion::slerp` with the `omega`/`sinom` lets substituted (definitional
restatement used to drive case analyses). -/
theorem Quaternion.slerp_closed_form (a b : Quaternion) (w : ℝ) :
    a.slerp b w =
      (let cosom0 := a.dot b
       let to1 := if cosom0 < 0 then -b else b
       let cosom := if cosom0 < 0 then -cosom0 else cosom0
       let scales : ℝ × ℝ :=
         if CMP_EPSILON < 1 - cosom then
           (Real.sin ((1 - w) * Real.arccos cosom) / Real.sin (Real.arccos cosom),
            Real.sin (w * Real.arccos cosom) / Real.sin (Real.arccos cosom))
         else (1 - w, w)
       ⟨scales.1 * a.x + scales.2 * to1.x, scales.1 * a.y + scales.2 * to1.y,
        scales.1 * a.z + scales.2 * to1.z, scales.1 * a.w + scales.2 * to1.w⟩) := rfl

/-- `sin (arccos c)` is positive for `0 ≤ c < 1`. -/
theorem sin_arccos_pos_of_lt_one (c : ℝ) (h0 : 0 ≤ c) (h1 : c < 1) :
    0 < Real.sin (Real.arccos c) := by
  rw [Real.sin_arccos]
  apply Real.sqrt_pos.mpr
  nlinarith

/-- `slerp a b 0 = a` for all inputs (both branches produce the coefficient
pair `(1, 0)` exactly). -/
theorem Quaternion.slerp_zero (a b : Quaternion) : a.slerp b 0 = a := by
  rw [Quaternion.slerp_closed_form]
  set cosom0 := a.dot b with hc0
  set cosom : ℝ := if cosom0 < 0 then -cosom0 else cosom0 with hcos
  have hcosnn : 0 ≤ cosom := by
    rw [hcos]
    split_ifs with hne
    · linarith
    · linarith [not_lt.mp hne]
  by_cases hbr : CMP_EPSILON < 1 - cosom
  · have hlt1 : cosom < 1 := by
      have : (0 : ℝ) < CMP_EPSILON := by norm_num [CMP_EPSILON]
      linarith
    have hsin : Real.sin (Real.arccos cosom) ≠ 0 :=
      (sin_arccos_pos_of_lt_one cosom hcosnn hlt1).ne'
    simp only [if_pos hbr]
    ext <;> simp [hsin, div_self]
  · simp only [if_neg hbr]
    ext <;> simp

/-- `slerp a b 1` is `b` when `dot a b ≥ 0` and `-b` when `dot a b < 0`
(the shortest-arc flip). -/
theorem Quaternion.slerp_one (a b : Quaternion) :
    a.slerp b 1 = if a.dot b < 0 then -b else b := by
  rw [Quaternion.slerp_closed_form]
  set cosom0 := a.dot b with hc0
  set cosom : ℝ := if cosom0 < 0 then -cosom0 else cosom0 with hcos
  set to1 : Quaternion := if cosom0 < 0 then -b else b with hto1
  have hcosnn : 0 ≤ cosom := by
    rw [hcos]
    split_ifs with hne
    · linarith
    · linarith [not_lt.mp hne]
  show (⟨_, _, _, _⟩ : Quaternion) = to1
  by_cases hbr : CMP_EPSILON < 1 - cosom
  · have hlt1 : cosom < 1 := by
      have : (0 : ℝ) < CMP_EPSILON := by norm_num [CMP_EPSILON]
      linarith
    have hsin : Real.sin (Real.arccos cosom) ≠ 0 :=
      (sin_arccos_pos_of_lt_one cosom hcosnn hlt1).ne'
    simp only [if_pos hbr]
    ext <;> simp [hsin, div_self]
  · simp only [if_neg hbr]
    ext <;> simp

/-- When the post-flip cosine is within `CMP_EPSILON` of 1, `slerp` is exactly
the componentwise linear blend `(1-w) * a + w * to1`. -/
theorem Quaternion.slerp_lerp_branch (a b : Quaternion) (w : ℝ)
    (h : 1 - (if a.dot b < 0 then -(a.dot b) else a.dot b) ≤ CMP_EPSILON) :
    a.slerp b w =
      ⟨(1 - w) * a.x + w * (if a.dot b < 0 then -b else b).x,
       (1 - w) * a.y + w * (if a.dot b < 0 then -b else b).y,
       (1 - w) * a.z + w * (if a.dot b < 0 then -b else b).z,
       (1 - w) * a.w + w * (if a.dot b < 0 then -b else b).w⟩ := by
  rw [Quaternion.slerp_closed_form]
  simp only [if_neg (not_lt.mpr h)]

/-- C7 counterexample: for the antipodal unit quaternions `a = (0,0,0,1)`,
`b = (0,0,0,-1)` (both `is_normalized`), `slerp(a, b, 1)` is `(0,0,0,1) = -b`,
which is *not* within epsilon of `b`: the shortest-arc flip breaks the claimed
`slerp(a, b, 1) == b` endpoint identity whenever `dot(a, b) < 0`. -/
theorem C7_counterexample :
    Quaternion.is_normalized ⟨0, 0, 0, 1⟩ ∧ Quaternion.is_normalized ⟨0, 0, 0, -1⟩ ∧
      Quaternion.slerp ⟨0, 0, 0, 1⟩ ⟨0, 0, 0, -1⟩ 1 = ⟨0, 0, 0, 1⟩ ∧
      ¬ Quaternion.quat_is_equal_approx (Quaternion.slerp ⟨0, 0, 0, 1⟩ ⟨0, 0, 0, -1⟩ 1)
          ⟨0, 0, 0, -1⟩ := by
  have heval : Quaternion.slerp ⟨0, 0, 0, 1⟩ ⟨0, 0, 0, -1⟩ 1 = ⟨0, 0, 0, 1⟩ := by
    rw [Quaternion.slerp_one]
    norm_num [Quaternion.dot, Quaternion.negate_def]
  refine ⟨?_, ?_, heval, ?_⟩
  · simp [Quaternion.is_normalized, is_equal_approx_with_tolerance, Quaternion.length_squared,
      Quaternion.dot]
  · simp [Quaternion.is_normalized, is_equal_approx_with_tolerance, Quaternion.length_squared,
      Quaternion.dot]
  · rw [heval]
    intro hcon
    rcases hcon.2.2.2 with h1 | h2
    · norm_num at h1
    · rw [show |(1 : ℝ) - -1| = 2 by norm_num] at h2
      split_ifs at h2 <;> norm_num [CMP_EPSILON] at h2

/-- C7 amended: `slerp(a,b,0) = a` holds exactly for all inputs;
`slerp(a,b,1)` equals `b` only when `dot(a,b) ≥ 0`, and equals `-b` (the same
rotation, opposite sign) when `dot(a,b) < 0`; `slerp` of two zero quaternions
is the zero quaternion (the value componentwise `lerp` would produce); and
whenever the post-flip cosine is within `CMP_EPSILON` of 1 (nearly parallel
inputs, in particular), the result is exactly the componentwise linear blend
with coefficients `(1-weight, weight)` of `a` and the (possibly flipped)
`b`. -/
theorem C7_amended_slerp_boundaries :
    (∀ a b : Quaternion, a.slerp b 0 = a) ∧
      (∀ a b : Quaternion, 0 ≤ a.dot b → a.slerp b 1 = b) ∧
      (∀ a b : Quaternion, a.dot b < 0 → a.slerp b 1 = -b) ∧
      (∀ w : ℝ, Quaternion.slerp ⟨0, 0, 0, 0⟩ ⟨0, 0, 0, 0⟩ w = ⟨0, 0, 0, 0⟩) ∧
      (∀ (a b : Quaternion) (w : ℝ), 0 ≤ a.dot b → 1 - a.dot b ≤ CMP_EPSILON →
        a.slerp b w =
          ⟨(1 - w) * a.x + w * b.x, (1 - w) * a.y + w * b.y,
           (1 - w) * a.z + w * b.z, (1 - w) * a.w + w * b.w⟩) ∧
      (∀ (a b : Quaternion) (w : ℝ), a.dot b < 0 → 1 + a.dot b ≤ CMP_EPSILON →
        a.slerp b w =
          ⟨(1 - w) * a.x + w * (-b).x, (1 - w) * a.y + w * (-b).y,
           (1 - w) * a.z + w * (-b).z, (1 - w) * a.w + w * (-b).w⟩) := by
  refine ⟨Quaternion.slerp_zero, ?_, ?_, ?_, ?_, ?_⟩
  · intro a b hnn
    rw [Quaternion.slerp_one, if_neg (not_lt.mpr hnn)]
  · intro a b hlt
    rw [Quaternion.slerp_one, if_pos hlt]
  · intro w
    have hd : Quaternion.dot ⟨0, 0, 0, 0⟩ ⟨0, 0, 0, 0⟩ = 0 := by
      simp [Quaternion.dot]
    rw [Quaternion.slerp_closed_form]
    simp only [hd]
    norm_num [CMP_EPSILON]
  · intro a b w hnn heps
    have h := Quaternion.slerp_lerp_branch a b w
      (by rw [if_neg (not_lt.mpr hnn)]; exact heps)
    rw [if_neg (not_lt.mpr hnn)] at h
    exact h
  · intro a b w hlt heps
    have h := Quaternion.slerp_lerp_branch a b w
      (by rw [if_pos hlt]; linarith)
    rw [if_pos hlt] at h
    exact h

/-- Witness for `C7_amended_slerp_boundaries` at concrete unit quaternions. -/
theorem C7_amended_witness :
    (0 : ℝ) ≤ Quaternion.dot ⟨0, 0, 0, 1⟩ ⟨0, 0, 0, 1⟩ ∧
      Quaternion.slerp ⟨0, 0, 0, 1⟩ ⟨0, 0, 0, 1⟩ 1 = ⟨0, 0, 0, 1⟩ ∧
      Quaternion.dot ⟨0, 0, 0, 1⟩ ⟨0, 0, 0, -1⟩ < 0 ∧
      Quaternion.slerp ⟨0, 0, 0, 1⟩ ⟨0, 0, 0, -1⟩ 1 = -(⟨0, 0, 0, -1⟩ : Quaternion) ∧
      (1 : ℝ) - Quaternion.dot ⟨0, 0, 0, 1⟩ ⟨0, 0, 0, 1⟩ ≤ CMP_EPSILON ∧
      Quaternion.slerp ⟨0, 0, 0, 1⟩ ⟨0, 0, 0, 1⟩ (1 / 2) =
        ⟨(1 - 1 / 2) * 0 + 1 / 2 * 0, (1 - 1 / 2) * 0 + 1 / 2 * 0,
         (1 - 1 / 2) * 0 + 1 / 2 * 0, (1 - 1 / 2) * 1 + 1 / 2 * 1⟩ ∧
      (1 : ℝ) + Quaternion.dot ⟨0, 0, 0, 1⟩ ⟨0, 0, 0, -1⟩ ≤ CMP_EPSILON ∧
      Quaternion.slerp ⟨0, 0, 0, 1⟩ ⟨0, 0, 0, -1⟩ (1 / 2) =
        ⟨(1 - 1 / 2) * 0 + 1 / 2 * (-(⟨0, 0, 0, -1⟩ : Quaternion)).x,
         (1 - 1 / 2) * 0 + 1 / 2 * (-(⟨0, 0, 0, -1⟩ : Quaternion)).y,
         (1 - 1 / 2) * 0 + 1 / 2 * (-(⟨0, 0, 0, -1⟩ : Quaternion)).z,
         (1 - 1 / 2) * 1 + 1 / 2 * (-(⟨0, 0, 0, -1⟩ : Quaternion)).w⟩ := by
  have h1 : (0 : ℝ) ≤ Quaternion.dot ⟨0, 0, 0, 1⟩ ⟨0, 0, 0, 1⟩ := by
    norm_num [Quaternion.dot]
  have h2 : Quaternion.dot ⟨0, 0, 0, 1⟩ ⟨0, 0, 0, -1⟩ < 0 := by
    norm_num [Quaternion.dot]
  have h3 : (1 : ℝ) - Quaternion.dot ⟨0, 0, 0, 1⟩ ⟨0, 0, 0, 1⟩ ≤ CMP_EPSILON := by
    norm_num [Quaternion.dot, CMP_EPSILON]
  have h4 : (1 : ℝ) + Quaternion.dot ⟨0, 0, 0, 1⟩ ⟨0, 0, 0, -1⟩ ≤ CMP_EPSILON := by
    norm_num [Quaternion.dot, CMP_EPSILON]
  refine ⟨h1, C7_amended_slerp_boundaries.2.1 _ _ h1, h2,
    C7_amended_slerp_boundaries.2.2.1 _ _ h2, h3, ?_, h4, ?_⟩
  · simpa using C7_amended_slerp_boundaries.2.2.2.2.1 ⟨0, 0, 0, 1⟩ ⟨0, 0, 0, 1⟩ (1 / 2) h1 h3
  · simpa using C7_amended_slerp_boundaries.2.2.2.2.2 ⟨0, 0, 0, 1⟩ ⟨0, 0, 0, -1⟩ (1 / 2) h2 h4

/-- Numeric bounds on `√2` used by concrete Euler-decoder evaluations. -/
theorem sqrt_two_bounds : (1.4 : ℝ) < Real.sqrt 2 ∧ Real.sqrt 2 < 1.5 := by
  constructor
  · rw [show (1.4 : ℝ) = Real.sqrt (1.4 ^ 2) by
      rw [Real.sqrt_sq (by norm_num)]]
    apply Real.sqrt_lt_sqrt (by norm_num) (by norm_num)
  · rw [show (1.5 : ℝ) = Real.sqrt (1.5 ^ 2) by
      rw [Real.sqrt_sq (by norm_num)]]
    apply Real.sqrt_lt_sqrt (by positivity) (by norm_num)

/-- C4 counterexample: the pure-Z rotation by `3π/4` (a single-axis rotation
matrix: its `z` row and column are exactly the identity pattern) decoded with
order `XZY` does *not* return a triple with the other two angles zero — the
`XZY` arm of `get_euler` (like `YZX`, `ZXY`, `ZYX`) has no single-axis special
case, and here its first component is `atan2(0, -√2/2) = π ≠ 0`. -/
theorem C4_counterexample :
    (Basis.new_from_floats (-(Real.sqrt 2 / 2)) (-(Real.sqrt 2 / 2)) 0
          (Real.sqrt 2 / 2) (-(Real.sqrt 2 / 2)) 0 0 0 1).x.z = 0 ∧
      (Basis.new_from_floats (-(Real.sqrt 2 / 2)) (-(Real.sqrt 2 / 2)) 0
          (Real.sqrt 2 / 2) (-(Real.sqrt 2 / 2)) 0 0 0 1).y.z = 0 ∧
      (Basis.new_from_floats (-(Real.sqrt 2 / 2)) (-(Real.sqrt 2 / 2)) 0
          (Real.sqrt 2 / 2) (-(Real.sqrt 2 / 2)) 0 0 0 1).z.x = 0 ∧
      (Basis.new_from_floats (-(Real.sqrt 2 / 2)) (-(Real.sqrt 2 / 2)) 0
          (Real.sqrt 2 / 2) (-(Real.sqrt 2 / 2)) 0 0 0 1).z.y = 0 ∧
      (Basis.new_from_floats (-(Real.sqrt 2 / 2)) (-(Real.sqrt 2 / 2)) 0
          (Real.sqrt 2 / 2) (-(Real.sqrt 2 / 2)) 0 0 0 1).z.z = 1 ∧
      ((Basis.new_from_floats (-(Real.sqrt 2 / 2)) (-(Real.sqrt 2 / 2)) 0
          (Real.sqrt 2 / 2) (-(Real.sqrt 2 / 2)) 0 0 0 1).get_euler
        (some EulerOrder.XZY)).x ≠ 0 := by
  obtain ⟨hlo, hhi⟩ := sqrt_two_bounds
  refine ⟨rfl, rfl, rfl, rfl, rfl, ?_⟩
  have harm :
      ((Basis.new_from_floats (-(Real.sqrt 2 / 2)) (-(Real.sqrt 2 / 2)) 0
          (Real.sqrt 2 / 2) (-(Real.sqrt 2 / 2)) 0 0 0 1).get_euler
        (some EulerOrder.XZY)).x = atan2 0 (-(Real.sqrt 2 / 2)) := by
    show (if -(Real.sqrt 2 / 2) < 1 - CMP_EPSILON then
        if -(1 - CMP_EPSILON) < -(Real.sqrt 2 / 2) then
          (⟨atan2 0 (-(Real.sqrt 2 / 2)), atan2 0 (-(Real.sqrt 2 / 2)),
            Real.arcsin (-(-(Real.sqrt 2 / 2)))⟩ : Vector3)
        else ⟨-(atan2 0 1), 0, Real.pi / 2⟩
      else ⟨-(atan2 0 1), 0, -(Real.pi / 2)⟩).x = atan2 0 (-(Real.sqrt 2 / 2))
    rw [if_pos (by norm_num [CMP_EPSILON]; linarith),
      if_pos (by norm_num [CMP_EPSILON]; linarith)]
  rw [harm]
  have hx : -(Real.sqrt 2 / 2) < 0 := by linarith
  rw [atan2, if_neg (by linarith), if_pos hx, if_pos (le_refl (0 : ℝ))]
  have : Real.arctan (0 / -(Real.sqrt 2 / 2)) = 0 := by
    rw [zero_div, Real.arctan_zero]
  rw [this, zero_add]
  exact Real.pi_ne_zero

/-- C4 amended: only the `XYZ` and `YXZ` arms of `get_euler` special-case a
pure single-axis rotation (pure Y for `XYZ`, pure X for `YXZ`) and return the
single nonzero angle via `atan2` with the other two angles 0; the other four
orders have no such special case (see the counterexample). -/
theorem C4_amended_special_cases :
    (∀ b : Basis, b.y.x = 0 → b.x.y = 0 → b.y.z = 0 → b.z.y = 0 → b.y.y = 1 →
      b.x.z < 1 - CMP_EPSILON → -(1 - CMP_EPSILON) < b.x.z →
      b.get_euler (some EulerOrder.XYZ) = ⟨0, atan2 b.x.z b.x.x, 0⟩) ∧
    (∀ b : Basis, b.y.x = 0 → b.x.y = 0 → b.x.z = 0 → b.z.x = 0 → b.x.x = 1 →
      b.y.z < 1 - CMP_EPSILON → -(1 - CMP_EPSILON) < b.y.z →
      b.get_euler (some EulerOrder.YXZ) = ⟨atan2 (-b.y.z) b.y.y, 0, 0⟩) := by
  constructor
  · intro b h1 h2 h3 h4 h5 h6 h7
    show (if b.x.z < 1 - CMP_EPSILON then
        if -(1 - CMP_EPSILON) < b.x.z then
          if b.y.x = 0 ∧ b.x.y = 0 ∧ b.y.z = 0 ∧ b.z.y = 0 ∧ b.y.y = 1 then
            (⟨0, atan2 b.x.z b.x.x, 0⟩ : Vector3)
          else ⟨atan2 (-b.y.z) b.z.z, Real.arcsin b.x.z, atan2 (-b.x.y) b.x.x⟩
        else ⟨atan2 b.z.y b.y.y, -(Real.pi / 2), 0⟩
      else ⟨atan2 b.z.y b.y.y, Real.pi / 2, 0⟩) = ⟨0, atan2 b.x.z b.x.x, 0⟩
    rw [if_pos h6, if_pos h7, if_pos ⟨h1, h2, h3, h4, h5⟩]
  · intro b h1 h2 h3 h4 h5 h6 h7
    show (if b.y.z < 1 - CMP_EPSILON then
        if -(1 - CMP_EPSILON) < b.y.z then
          if b.y.x = 0 ∧ b.x.y = 0 ∧ b.x.z = 0 ∧ b.z.x = 0 ∧ b.x.x = 1 then
            (⟨atan2 (-b.y.z) b.y.y, 0, 0⟩ : Vector3)
          else ⟨Real.arcsin (-b.y.z), atan2 b.x.z b.z.z, atan2 b.y.x b.y.y⟩
        else ⟨Real.pi / 2, atan2 b.x.y b.x.x, 0⟩
      else ⟨-(Real.pi / 2), -(atan2 b.x.y b.x.x), 0⟩) = ⟨atan2 (-b.y.z) b.y.y, 0, 0⟩
    rw [if_pos h6, if_pos h7, if_pos ⟨h1, h2, h3, h4, h5⟩]

/-- Witness for `C4_amended_special_cases` at the identity basis. -/
theorem C4_amended_witness :
    Basis.IDENTITY.get_euler (some EulerOrder.XYZ) =
        ⟨0, atan2 Basis.IDENTITY.x.z Basis.IDENTITY.x.x, 0⟩ ∧
      Basis.IDENTITY.get_euler (some EulerOrder.YXZ) =
        ⟨atan2 (-Basis.IDENTITY.y.z) Basis.IDENTITY.y.y, 0, 0⟩ := by
  constructor
  · exact C4_amended_special_cases.1 Basis.IDENTITY rfl rfl rfl rfl rfl
      (by norm_num [Basis.IDENTITY, Basis.new_from_floats, CMP_EPSILON])
      (by norm_num [Basis.IDENTITY, Basis.new_from_floats, CMP_EPSILON])
  · exact C4_amended_special_cases.2 Basis.IDENTITY rfl rfl rfl rfl rfl
      (by norm_num [Basis.IDENTITY, Basis.new_from_floats, CMP_EPSILON])
      (by norm_num [Basis.IDENTITY, Basis.new_from_floats, CMP_EPSILON])

/-- For an orthonormal positively-oriented triple, the cross product of the
second and third vectors is the first. -/
theorem cross_eq_of_orthonormal (u v w : Vector3)
    (hu : u.length_squared = 1) (hv : v.length_squared = 1) (hw : w.length_squared = 1)
    (hvw : v.dot w = 0) (htriple : u.dot (v.cross w) = 1) :
    v.cross w = u := by
  simp only [Vector3.length_squared, Vector3.dot, Vector3.cross] at hu hv hw hvw htriple
  have hsum :
      ((v.y * w.z - v.z * w.y) - u.x) ^ 2 + ((v.z * w.x - v.x * w.z) - u.y) ^ 2 +
        ((v.x * w.y - v.y * w.x) - u.z) ^ 2 = 0 := by
    linear_combination (w.x * w.x + w.y * w.y + w.z * w.z) * hv + hw -
      (v.x * w.x + v.y * w.y + v.z * w.z) * hvw - 2 * htriple + hu
  have e1 : (v.y * w.z - v.z * w.y) - u.x = 0 := by
    have := sq_nonneg ((v.z * w.x - v.x * w.z) - u.y)
    have := sq_nonneg ((v.x * w.y - v.y * w.x) - u.z)
    have h2 : ((v.y * w.z - v.z * w.y) - u.x) ^ 2 = 0 := by nlinarith [sq_nonneg ((v.y * w.z - v.z * w.y) - u.x)]
    exact pow_eq_zero_iff (two_ne_zero) |>.mp h2
  have e2 : (v.z * w.x - v.x * w.z) - u.y = 0 := by
    have := sq_nonneg ((v.y * w.z - v.z * w.y) - u.x)
    have := sq_nonneg ((v.x * w.y - v.y * w.x) - u.z)
    have h2 : ((v.z * w.x - v.x * w.z) - u.y) ^ 2 = 0 := by nlinarith [sq_nonneg ((v.z * w.x - v.x * w.z) - u.y)]
    exact pow_eq_zero_iff (two_ne_zero) |>.mp h2
  have e3 : (v.x * w.y - v.y * w.x) - u.z = 0 := by
    have := sq_nonneg ((v.y * w.z - v.z * w.y) - u.x)
    have := sq_nonneg ((v.z * w.x - v.x * w.z) - u.y)
    have h2 : ((v.x * w.y - v.y * w.x) - u.z) ^ 2 = 0 := by nlinarith [sq_nonneg ((v.x * w.y - v.y * w.x) - u.z)]
    exact pow_eq_zero_iff (two_ne_zero) |>.mp h2
  show Vector3.mk _ _ _ = u
  ext
  · exact sub_eq_zero.mp e1
  · exact sub_eq_zero.mp e2
  · exact sub_eq_zero.mp e3

/-- The three diagonal cofactor identities: for an exactly orthonormal basis
with determinant 1, each diagonal 2x2 cofactor equals the opposite diagonal
entry (`adj R = R^T` on the diagonal). -/
theorem diag_cofactor_identities (m : Basis) (h : m.exactly_orthonormal)
    (hdet : m.determinant = 1) :
    m.y.y * m.z.z - m.z.y * m.y.z = m.x.x ∧
      m.z.z * m.x.x - m.x.z * m.z.x = m.y.y ∧
      m.x.x * m.y.y - m.y.x * m.x.y = m.z.z := by
  obtain ⟨h0, h1, h2, h01, h02, h12⟩ := h
  have t0 : (m.get_column 0).dot ((m.get_column 1).cross (m.get_column 2)) = 1 := by
    simp only [Basis.get_column, Vector3.dot, Vector3.cross]
    simp only [Basis.determinant] at hdet
    linear_combination hdet
  have t1 : (m.get_column 1).dot ((m.get_column 2).cross (m.get_column 0)) = 1 := by
    simp only [Basis.get_column, Vector3.dot, Vector3.cross]
    simp only [Basis.determinant] at hdet
    linear_combination hdet
  have t2 : (m.get_column 2).dot ((m.get_column 0).cross (m.get_column 1)) = 1 := by
    simp only [Basis.get_column, Vector3.dot, Vector3.cross]
    simp only [Basis.determinant] at hdet
    linear_combination hdet
  have c0 := cross_eq_of_orthonormal (m.get_column 0) (m.get_column 1) (m.get_column 2)
    h0 h1 h2 h12 t0
  have c1 := cross_eq_of_orthonormal (m.get_column 1) (m.get_column 2) (m.get_column 0)
    h1 h2 h0 (by simpa [Vector3.dot, mul_comm] using h02) t1
  have c2 := cross_eq_of_orthonormal (m.get_column 2) (m.get_column 0) (m.get_column 1)
    h2 h0 h1 h01 t2
  refine ⟨?_, ?_, ?_⟩
  · have := congrArg Vector3.x c0
    simpa [Basis.get_column, Vector3.cross] using this
  · have := congrArg Vector3.y c1
    simpa [Basis.get_column, Vector3.cross] using this
  · have := congrArg Vector3.z c2
    simpa [Basis.get_column, Vector3.cross] using this

/-- Shared arithmetic for the four `get_quaternion` branches: if `s * s = X`
with `X ≥ 1` and the three off-axis accumulators satisfy the cofactor sum
identity for the branch pivot `X`, the four quaternion components have sum of
squares exactly 1. -/
theorem branch_lsq (X s w1 w2 w3 : ℝ) (hX : 1 ≤ X) (hs : s * s = X)
    (hsum : w1 * w1 + w2 * w2 + w3 * w3 = X * (4 - X)) :
    s * (1 / 2) * (s * (1 / 2)) +
        w1 * ((1 / 2) / s) * (w1 * ((1 / 2) / s)) +
        w2 * ((1 / 2) / s) * (w2 * ((1 / 2) / s)) +
        w3 * ((1 / 2) / s) * (w3 * ((1 / 2) / s)) = 1 := by
  have hsne : s ≠ 0 := by
    intro h0
    rw [h0] at hs
    nlinarith
  have key : s * (1 / 2) * (s * (1 / 2)) +
      w1 * ((1 / 2) / s) * (w1 * ((1 / 2) / s)) +
      w2 * ((1 / 2) / s) * (w2 * ((1 / 2) / s)) +
      w3 * ((1 / 2) / s) * (w3 * ((1 / 2) / s)) =
      s * s / 4 + (w1 * w1 + w2 * w2 + w3 * w3) / (4 * (s * s)) := by
    field_simp
    ring
  have hXne : X ≠ 0 := by nlinarith
  rw [key, hs, hsum]
  field_simp
  ring

/-- `get_quaternion`, positive-trace branch, in closed form. -/
theorem get_quaternion_trace_pos (m : Basis) (htr : 0 < m.x.x + m.y.y + m.z.z) :
    m.get_quaternion =
      ⟨(m.z.y - m.y.z) * ((1 / 2) / Real.sqrt (m.x.x + m.y.y + m.z.z + 1)),
       (m.x.z - m.z.x) * ((1 / 2) / Real.sqrt (m.x.x + m.y.y + m.z.z + 1)),
       (m.y.x - m.x.y) * ((1 / 2) / Real.sqrt (m.x.x + m.y.y + m.z.z + 1)),
       Real.sqrt (m.x.x + m.y.y + m.z.z + 1) * (1 / 2)⟩ := by
  unfold Basis.get_quaternion
  rw [if_pos htr]

/-- `get_quaternion`, non-positive trace, largest diagonal `x.x` (`i = 0`). -/
theorem get_quaternion_i0 (m : Basis) (htr : ¬ 0 < m.x.x + m.y.y + m.z.z)
    (h1 : ¬ m.x.x < m.y.y) (h2 : ¬ m.x.x < m.z.z) :
    m.get_quaternion =
      ⟨Real.sqrt (m.x.x - m.y.y - m.z.z + 1) * (1 / 2),
       (m.y.x + m.x.y) * ((1 / 2) / Real.sqrt (m.x.x - m.y.y - m.z.z + 1)),
       (m.z.x + m.x.z) * ((1 / 2) / Real.sqrt (m.x.x - m.y.y - m.z.z + 1)),
       (m.z.y - m.y.z) * ((1 / 2) / Real.sqrt (m.x.x - m.y.y - m.z.z + 1))⟩ := by
  unfold Basis.get_quaternion
  rw [if_neg htr]
  simp [if_neg h1, if_neg h2, Basis.get_row, Vector3.get]

/-- `get_quaternion`, non-positive trace, largest diagonal `y.y` (`i = 1`). -/
theorem get_quaternion_i1 (m : Basis) (htr : ¬ 0 < m.x.x + m.y.y + m.z.z)
    (h1 : m.x.x < m.y.y) (h2 : ¬ m.y.y < m.z.z) :
    m.get_quaternion =
      ⟨(m.x.y + m.y.x) * ((1 / 2) / Real.sqrt (m.y.y - m.z.z - m.x.x + 1)),
       Real.sqrt (m.y.y - m.z.z - m.x.x + 1) * (1 / 2),
       (m.z.y + m.y.z) * ((1 / 2) / Real.sqrt (m.y.y - m.z.z - m.x.x + 1)),
       (m.x.z - m.z.x) * ((1 / 2) / Real.sqrt (m.y.y - m.z.z - m.x.x + 1))⟩ := by
  unfold Basis.get_quaternion
  rw [if_neg htr]
  simp [if_pos h1, if_neg h2, Basis.get_row, Vector3.get]

/-- `get_quaternion`, non-positive trace, largest diagonal `z.z` (`i = 2`). -/
theorem get_quaternion_i2 (m : Basis) (htr : ¬ 0 < m.x.x + m.y.y + m.z.z)
    (hsel : (m.x.x < m.y.y ∧ m.y.y < m.z.z) ∨ (¬ m.x.x < m.y.y ∧ m.x.x < m.z.z)) :
    m.get_quaternion =
      ⟨(m.x.z + m.z.x) * ((1 / 2) / Real.sqrt (m.z.z - m.x.x - m.y.y + 1)),
       (m.y.z + m.z.y) * ((1 / 2) / Real.sqrt (m.z.z - m.x.x - m.y.y + 1)),
       Real.sqrt (m.z.z - m.x.x - m.y.y + 1) * (1 / 2),
       (m.y.x - m.x.y) * ((1 / 2) / Real.sqrt (m.z.z - m.x.x - m.y.y + 1))⟩ := by
  unfold Basis.get_quaternion
  rw [if_neg htr]
  rcases hsel with ⟨h1, h2⟩ | ⟨h1, h2⟩
  · simp [if_pos h1, if_pos h2, Basis.get_row, Vector3.get]
  · simp [if_neg h1, if_pos h2, Basis.get_row, Vector3.get]

/-- An exactly orthonormal basis with determinant 1 yields a unit quaternion
from `get_quaternion`, in every one of the four branches. -/
theorem get_quaternion_unit (m : Basis) (h : m.exactly_orthonormal)
    (hdet : m.determinant = 1) : m.get_quaternion.length_squared = 1 := by
  obtain ⟨d1, d2, d3⟩ := diag_cofactor_identities m h hdet
  have hN : m.x.x * m.x.x + m.x.y * m.x.y + m.x.z * m.x.z +
      m.y.x * m.y.x + m.y.y * m.y.y + m.y.z * m.y.z +
      m.z.x * m.z.x + m.z.y * m.z.y + m.z.z * m.z.z = 3 := by
    obtain ⟨h0, h1, h2, -, -, -⟩ := h
    simp only [Basis.get_column, Vector3.length_squared] at h0 h1 h2
    linarith
  by_cases htr : 0 < m.x.x + m.y.y + m.z.z
  · rw [get_quaternion_trace_pos m htr]
    have hX : (1 : ℝ) ≤ m.x.x + m.y.y + m.z.z + 1 := by linarith
    have hs := Real.mul_self_sqrt
      (show (0 : ℝ) ≤ m.x.x + m.y.y + m.z.z + 1 by linarith)
    have hsum : (m.z.y - m.y.z) * (m.z.y - m.y.z) + (m.x.z - m.z.x) * (m.x.z - m.z.x) +
        (m.y.x - m.x.y) * (m.y.x - m.x.y) =
        (m.x.x + m.y.y + m.z.z + 1) * (4 - (m.x.x + m.y.y + m.z.z + 1)) := by
      linear_combination hN + 2 * d1 + 2 * d2 + 2 * d3
    have key := branch_lsq (m.x.x + m.y.y + m.z.z + 1)
      (Real.sqrt (m.x.x + m.y.y + m.z.z + 1))
      (m.z.y - m.y.z) (m.x.z - m.z.x) (m.y.x - m.x.y) hX hs hsum
    simp only [Quaternion.length_squared, Quaternion.dot]
    linear_combination key
  · have htr' : m.x.x + m.y.y + m.z.z ≤ 0 := le_of_not_lt htr
    by_cases h1 : m.x.x < m.y.y
    · by_cases h2 : m.y.y < m.z.z
      · -- i = 2, largest z.z
        rw [get_quaternion_i2 m htr (Or.inl ⟨h1, h2⟩)]
        have hX : (1 : ℝ) ≤ m.z.z - m.x.x - m.y.y + 1 := by linarith
        have hs := Real.mul_self_sqrt
          (show (0 : ℝ) ≤ m.z.z - m.x.x - m.y.y + 1 by linarith)
        have hsum : (m.x.z + m.z.x) * (m.x.z + m.z.x) + (m.y.z + m.z.y) * (m.y.z + m.z.y) +
            (m.y.x - m.x.y) * (m.y.x - m.x.y) =
            (m.z.z - m.x.x - m.y.y + 1) * (4 - (m.z.z - m.x.x - m.y.y + 1)) := by
          linear_combination hN - 2 * d1 - 2 * d2 + 2 * d3
        have key := branch_lsq (m.z.z - m.x.x - m.y.y + 1)
          (Real.sqrt (m.z.z - m.x.x - m.y.y + 1))
          (m.x.z + m.z.x) (m.y.z + m.z.y) (m.y.x - m.x.y) hX hs hsum
        simp only [Quaternion.length_squared, Quaternion.dot]
        linear_combination key
      · -- i = 1, largest y.y
        rw [get_quaternion_i1 m htr h1 h2]
        have h2' : m.z.z ≤ m.y.y := le_of_not_lt h2
        have hX : (1 : ℝ) ≤ m.y.y - m.z.z - m.x.x + 1 := by linarith
        have hs := Real.mul_self_sqrt
          (show (0 : ℝ) ≤ m.y.y - m.z.z - m.x.x + 1 by linarith)
        have hsum : (m.x.y + m.y.x) * (m.x.y + m.y.x) + (m.z.y + m.y.z) * (m.z.y + m.y.z) +
            (m.x.z - m.z.x) * (m.x.z - m.z.x) =
            (m.y.y - m.z.z - m.x.x + 1) * (4 - (m.y.y - m.z.z - m.x.x + 1)) := by
          linear_combination hN - 2 * d1 + 2 * d2 - 2 * d3
        have key := branch_lsq (m.y.y - m.z.z - m.x.x + 1)
          (Real.sqrt (m.y.y - m.z.z - m.x.x + 1))
          (m.x.y + m.y.x) (m.z.y + m.y.z) (m.x.z - m.z.x) hX hs hsum
        simp only [Quaternion.length_squared, Quaternion.dot]
        linear_combination key
    · have h1' : m.y.y ≤ m.x.x := le_of_not_lt h1
      by_cases h2 : m.x.x < m.z.z
      · -- i = 2 through the second route
        rw [get_quaternion_i2 m htr (Or.inr ⟨h1, h2⟩)]
        have hX : (1 : ℝ) ≤ m.z.z - m.x.x - m.y.y + 1 := by linarith
        have hs := Real.mul_self_sqrt
          (show (0 : ℝ) ≤ m.z.z - m.x.x - m.y.y + 1 by linarith)
        have hsum : (m.x.z + m.z.x) * (m.x.z + m.z.x) + (m.y.z + m.z.y) * (m.y.z + m.z.y) +
            (m.y.x - m.x.y) * (m.y.x - m.x.y) =
            (m.z.z - m.x.x - m.y.y + 1) * (4 - (m.z.z - m.x.x - m.y.y + 1)) := by
          linear_combination hN - 2 * d1 - 2 * d2 + 2 * d3
        have key := branch_lsq (m.z.z - m.x.x - m.y.y + 1)
          (Real.sqrt (m.z.z - m.x.x - m.y.y + 1))
          (m.x.z + m.z.x) (m.y.z + m.z.y) (m.y.x - m.x.y) hX hs hsum
        simp only [Quaternion.length_squared, Quaternion.dot]
        linear_combination key
      · -- i = 0, largest x.x
        rw [get_quaternion_i0 m htr h1 h2]
        have h2' : m.z.z ≤ m.x.x := le_of_not_lt h2
        have hX : (1 : ℝ) ≤ m.x.x - m.y.y - m.z.z + 1 := by linarith
        have hs := Real.mul_self_sqrt
          (show (0 : ℝ) ≤ m.x.x - m.y.y - m.z.z + 1 by linarith)
        have hsum : (m.y.x + m.x.y) * (m.y.x + m.x.y) + (m.z.x + m.x.z) * (m.z.x + m.x.z) +
            (m.z.y - m.y.z) * (m.z.y - m.y.z) =
            (m.x.x - m.y.y - m.z.z + 1) * (4 - (m.x.x - m.y.y - m.z.z + 1)) := by
          linear_combination hN + 2 * d1 - 2 * d2 - 2 * d3
        have key := branch_lsq (m.x.x - m.y.y - m.z.z + 1)
          (Real.sqrt (m.x.x - m.y.y - m.z.z + 1))
          (m.y.x + m.x.y) (m.z.x + m.x.z) (m.z.y - m.y.z) hX hs hsum
        simp only [Quaternion.length_squared, Quaternion.dot]
        linear_combination key

/-- An exactly orthonormal basis has determinant `1` or `-1`. -/
theorem det_pm_one_of_orthonormal (m : Basis) (h : m.exactly_orthonormal) :
    m.determinant = 1 ∨ m.determinant = -1 := by
  obtain ⟨h0, h1, h2, h01, h02, h12⟩ := h
  simp only [Basis.get_column, Vector3.length_squared, Vector3.dot] at h0 h1 h2 h01 h02 h12
  have hsq : m.determinant * m.determinant = 1 := by
    simp only [Basis.determinant]
    linear_combination
      ((m.x.y * m.x.y + m.y.y * m.y.y + m.z.y * m.z.y) *
          (m.x.z * m.x.z + m.y.z * m.y.z + m.z.z * m.z.z) -
        (m.x.y * m.x.z + m.y.y * m.y.z + m.z.y * m.z.z) ^ 2) * h0 +
      (m.x.z * m.x.z + m.y.z * m.y.z + m.z.z * m.z.z) * h1 + h2 -
      ((m.x.z * m.x.z + m.y.z * m.y.z + m.z.z * m.z.z) *
        (m.x.x * m.x.y + m.y.x * m.y.y + m.z.x * m.z.y)) * h01 -
      ((m.x.y * m.x.y + m.y.y * m.y.y + m.z.y * m.z.y) *
        (m.x.x * m.x.z + m.y.x * m.y.z + m.z.x * m.z.z)) * h02 +
      (2 * (m.x.x * m.x.y + m.y.x * m.y.y + m.z.x * m.z.y) *
          (m.x.x * m.x.z + m.y.x * m.y.z + m.z.x * m.z.z) -
        (m.x.y * m.x.z + m.y.y * m.y.z + m.z.y * m.z.z)) * h12
  exact mul_self_eq_one_iff.mp hsq

/-- Negating all rows preserves exact orthonormality. -/
theorem scaled_neg_orthonormal (m : Basis) (h : m.exactly_orthonormal) :
    (m.scaled ⟨-1, -1, -1⟩).exactly_orthonormal := by
  obtain ⟨h0, h1, h2, h01, h02, h12⟩ := h
  simp only [Basis.get_column, Vector3.length_squared, Vector3.dot] at h0 h1 h2 h01 h02 h12
  simp only [Basis.exactly_orthonormal, Basis.get_column, Vector3.length_squared,
    Vector3.dot, Basis.scaled, Vector3.smul_def]
  refine ⟨by linear_combination h0, by linear_combination h1, by linear_combination h2,
    by linear_combination h01, by linear_combination h02, by linear_combination h12⟩

/-- Negating all rows negates the determinant. -/
theorem scaled_neg_det (m : Basis) :
    (m.scaled ⟨-1, -1, -1⟩).determinant = -m.determinant := by
  simp only [Basis.scaled, Vector3.smul_def, Basis.determinant]
  ring

/-- C5 counterexample: on the all-zero `Basis` (whose orthonormalization is
again the zero matrix, so "the determinant is negative" never fires),
`get_rotation_quaternion` returns `(1/2, 0, 0, 0)` — not unit length and not
a proper rotation, so the claim's "for every input Basis" is too strong. -/
theorem C5_counterexample :
    (Basis.new_from_floats 0 0 0 0 0 0 0 0 0).get_rotation_quaternion =
        ⟨1 / 2, 0, 0, 0⟩ ∧
      (Basis.new_from_floats 0 0 0 0 0 0 0 0 0).get_rotation_quaternion.length_squared ≠
        1 := by
  have horth : (Basis.new_from_floats 0 0 0 0 0 0 0 0 0).orthonormalized =
      Basis.new_from_floats 0 0 0 0 0 0 0 0 0 := by
    simp [Basis.orthonormalized, Basis.get_column, Basis.new_from_floats, Vector3.normalized,
      Vector3.length_squared, Vector3.dot, Vector3.smul_def, Vector3.sub_def,
      Basis.fromColumns]
  have heval : (Basis.new_from_floats 0 0 0 0 0 0 0 0 0).get_rotation_quaternion =
      ⟨1 / 2, 0, 0, 0⟩ := by
    unfold Basis.get_rotation_quaternion
    rw [horth]
    show (if (Basis.new_from_floats 0 0 0 0 0 0 0 0 0).determinant < 0 then
        (Basis.new_from_floats 0 0 0 0 0 0 0 0 0).scaled ⟨-1, -1, -1⟩
      else Basis.new_from_floats 0 0 0 0 0 0 0 0 0).get_quaternion =
        ⟨1 / 2, 0, 0, 0⟩
    rw [if_neg (by norm_num [Basis.determinant, Basis.new_from_floats])]
    rw [get_quaternion_i0 _ (by norm_num [Basis.new_from_floats])
      (by norm_num [Basis.new_from_floats]) (by norm_num [Basis.new_from_floats])]
    norm_num [Basis.new_from_floats, Real.sqrt_one]
  refine ⟨heval, ?_⟩
  rw [heval]
  norm_num [Quaternion.length_squared, Quaternion.dot]

/-- C5 amended: the structural part of the claim holds as stated
(orthonormalize, then negate all three axes exactly when the determinant is
negative), and whenever the orthonormalization actually produces an
orthonormal matrix (every non-degenerate input; the all-zero Basis of the
counterexample is the kind of input excluded), the extracted quaternion is
the quaternion of a determinant `+1` matrix and is exactly unit length. -/
theorem C5_amended_proper_rotation (b : Basis)
    (h : b.orthonormalized.exactly_orthonormal) :
    ∃ m : Basis, m.exactly_orthonormal ∧ m.determinant = 1 ∧
      b.get_rotation_quaternion = m.get_quaternion ∧
      b.get_rotation_quaternion.length_squared = 1 := by
  rcases det_pm_one_of_orthonormal _ h with hd | hd
  · have hbranch : b.get_rotation_quaternion = b.orthonormalized.get_quaternion := by
      unfold Basis.get_rotation_quaternion
      show (if b.orthonormalized.determinant < 0 then
          b.orthonormalized.scaled ⟨-1, -1, -1⟩ else b.orthonormalized).get_quaternion =
        b.orthonormalized.get_quaternion
      rw [if_neg (by rw [hd]; norm_num)]
    exact ⟨b.orthonormalized, h, hd, hbranch,
      hbranch ▸ get_quaternion_unit _ h hd⟩
  · have hflip : (b.orthonormalized.scaled ⟨-1, -1, -1⟩).determinant = 1 := by
      rw [scaled_neg_det, hd]; norm_num
    have hbranch : b.get_rotation_quaternion =
        (b.orthonormalized.scaled ⟨-1, -1, -1⟩).get_quaternion := by
      unfold Basis.get_rotation_quaternion
      show (if b.orthonormalized.determinant < 0 then
          b.orthonormalized.scaled ⟨-1, -1, -1⟩ else b.orthonormalized).get_quaternion =
        (b.orthonormalized.scaled ⟨-1, -1, -1⟩).get_quaternion
      rw [if_pos (by rw [hd]; norm_num)]
    exact ⟨b.orthonormalized.scaled ⟨-1, -1, -1⟩, scaled_neg_orthonormal _ h, hflip,
      hbranch, hbranch ▸ get_quaternion_unit _ (scaled_neg_orthonormal _ h) hflip⟩

/-- Witness for `C5_amended_proper_rotation` at the identity basis. -/
theorem C5_amended_witness :
    Basis.IDENTITY.orthonormalized.exactly_orthonormal ∧
      ∃ m : Basis, m.exactly_orthonormal ∧ m.determinant = 1 ∧
        Basis.IDENTITY.get_rotation_quaternion = m.get_quaternion ∧
        Basis.IDENTITY.get_rotation_quaternion.length_squared = 1 := by
  have hid : Basis.IDENTITY.orthonormalized = Basis.IDENTITY := by
    simp [Basis.orthonormalized, Basis.get_column, Basis.IDENTITY, Basis.new_from_floats,
      Vector3.normalized, Vector3.length_squared, Vector3.dot, Vector3.smul_def,
      Vector3.sub_def, Basis.fromColumns, Real.sqrt_one]
  have horth : Basis.IDENTITY.orthonormalized.exactly_orthonormal := by
    rw [hid]
    refine ⟨?_, ?_, ?_, ?_, ?_, ?_⟩ <;>
      norm_num [Basis.get_column, Basis.IDENTITY, Basis.new_from_floats,
        Vector3.length_squared, Vector3.dot]
  exact ⟨horth, C5_amended_proper_rotation Basis.IDENTITY horth⟩

/-- The angle returned by `get_axis_angle` lies in `[0, π]` for every input
(identity branch: 0; π branch: π; regular branch: a saturating arccos). -/
theorem get_axis_angle_angle_range (b : Basis) :
    0 ≤ (b.get_axis_angle).2 ∧ (b.get_axis_angle).2 ≤ Real.pi := by
  unfold Basis.get_axis_angle
  split_ifs with h1 h2
  · exact ⟨le_refl 0, Real.pi_nonneg⟩
  · exact ⟨Real.pi_nonneg, le_refl _⟩
  · show 0 ≤ safe_acos ((b.x.x + b.y.y + b.z.z - 1) / 2) ∧
      safe_acos ((b.x.x + b.y.y + b.z.z - 1) / 2) ≤ Real.pi
    unfold safe_acos
    split_ifs
    · exact ⟨Real.pi_nonneg, le_refl _⟩
    · exact ⟨le_refl 0, Real.pi_nonneg⟩
    · exact ⟨Real.arccos_nonneg _, Real.arccos_le_pi _⟩

/-- In the regular branch the axis is exactly unit length (the divisor is the
exact Euclidean norm of the anti-symmetric difference vector). -/
theorem regular_axis_unit (b : Basis) (h : ¬ b.axis_angle_singular) :
    ((b.get_axis_angle).1).length_squared = 1 := by
  obtain ⟨hs, heval⟩ := axis_angle_regular_eval b h
  rw [heval]
  set D := (b.z.y - b.y.z) * (b.z.y - b.y.z) + (b.x.z - b.z.x) * (b.x.z - b.z.x) +
    (b.y.x - b.x.y) * (b.y.x - b.x.y) with hD
  have hnn : (0 : ℝ) ≤ D := by
    rw [hD]
    nlinarith [sq_nonneg (b.z.y - b.y.z), sq_nonneg (b.x.z - b.z.x), sq_nonneg (b.y.x - b.x.y)]
  have hss := Real.mul_self_sqrt hnn
  have hSne : Real.sqrt D ≠ 0 := by
    intro h0
    rw [h0] at hs
    norm_num [CMP_EPSILON] at hs
  have hDne : D ≠ 0 := fun h0 => hSne (by rw [h0, Real.sqrt_zero])
  simp only [Vector3.length_squared]
  rw [div_mul_div_comm, div_mul_div_comm, div_mul_div_comm, hss, div_add_div_same,
    div_add_div_same, div_eq_one_iff_eq hDne]

/-- C8 counterexample: `nearPiBasis` is an *exactly* orthonormal proper
rotation (a rotation by slightly less than π), yet the axis returned by
`get_axis_angle` — computed in the π singular branch from `(M+I)/2` — is not
exactly unit length. -/
theorem C8_counterexample :
    Basis.nearPiBasis.exactly_orthonormal ∧ Basis.nearPiBasis.determinant = 1 ∧
      ((Basis.nearPiBasis.get_axis_angle).1).length_squared ≠ 1 := by
  have horth : Basis.nearPiBasis.exactly_orthonormal := by
    refine ⟨?_, ?_, ?_, ?_, ?_, ?_⟩ <;>
      norm_num [Basis.nearPiBasis, Basis.new_from_floats, Basis.get_column,
        Vector3.length_squared, Vector3.dot]
  have hdet : Basis.nearPiBasis.determinant = 1 := by
    norm_num [Basis.nearPiBasis, Basis.new_from_floats, Basis.determinant]
  have hsing : Basis.nearPiBasis.axis_angle_singular := by
    refine ⟨?_, ?_, ?_⟩ <;>
      norm_num [Basis.nearPiBasis, Basis.new_from_floats, is_zero_approx, CMP_EPSILON, abs_lt]
  have hident : ¬ (Basis.nearPiBasis.is_diagonal ∧
      |Basis.nearPiBasis.x.x + Basis.nearPiBasis.y.y + Basis.nearPiBasis.z.z - 3| <
        3 * CMP_EPSILON) := by
    rintro ⟨⟨hdiag, -⟩, -⟩
    revert hdiag
    norm_num [Basis.nearPiBasis, Basis.new_from_floats, is_zero_approx, CMP_EPSILON, abs_lt]
  have heval : Basis.nearPiBasis.get_axis_angle =
      (Basis.nearPiBasis.pi_singularity_axis, Real.pi) := by
    simp only [Basis.get_axis_angle, if_pos hsing, if_neg hident]
  refine ⟨horth, hdet, ?_⟩
  rw [heval]
  have hyy : (Basis.nearPiBasis.y.y + 1) / 2 = 62500000001 / 125000000001 := by
    norm_num [Basis.nearPiBasis, Basis.new_from_floats]
  have haxis : Basis.nearPiBasis.pi_singularity_axis =
      ⟨(62500000000 / 125000000001) / Real.sqrt (62500000001 / 125000000001),
        Real.sqrt (62500000001 / 125000000001),
        0 / Real.sqrt (62500000001 / 125000000001)⟩ := by
    unfold Basis.pi_singularity_axis
    rw [if_neg (by norm_num [Basis.nearPiBasis, Basis.new_from_floats]),
      if_pos (by norm_num [Basis.nearPiBasis, Basis.new_from_floats]),
      if_neg (by norm_num [Basis.nearPiBasis, Basis.new_from_floats, CMP_EPSILON])]
    rw [hyy]
    norm_num [Basis.nearPiBasis, Basis.new_from_floats]
  rw [haxis]
  have hpos : (0 : ℝ) < 62500000001 / 125000000001 := by norm_num
  have hss := Real.mul_self_sqrt hpos.le
  have hne : Real.sqrt ((62500000001 : ℝ) / 125000000001) ≠ 0 :=
    (Real.sqrt_pos.mpr hpos).ne'
  simp only [Vector3.length_squared]
  intro hcon
  rw [div_mul_div_comm, hss, zero_div, mul_zero, add_zero] at hcon
  rw [div_add' _ _ _ (by norm_num : ((62500000001 : ℝ) / 125000000001) ≠ 0)] at hcon
  rw [div_eq_one_iff_eq (by norm_num : ((62500000001 : ℝ) / 125000000001) ≠ 0)] at hcon
  norm_num at hcon

/-- For an *exact* π rotation `2 a aᵀ - I` about a unit axis `a`, the π
singular branch of `get_axis_angle` returns an exactly unit axis and angle
`π` (every dominant-diagonal case, with the `1/√2` fallbacks unreachable). -/
theorem pi_rotation_axis_unit (a : Vector3)
    (ha : a.x * a.x + a.y * a.y + a.z * a.z = 1) :
    ((Basis.new_from_floats (2 * a.x * a.x - 1) (2 * a.x * a.y) (2 * a.x * a.z)
        (2 * a.x * a.y) (2 * a.y * a.y - 1) (2 * a.y * a.z)
        (2 * a.x * a.z) (2 * a.y * a.z)
        (2 * a.z * a.z - 1)).get_axis_angle).1.length_squared = 1 ∧
      ((Basis.new_from_floats (2 * a.x * a.x - 1) (2 * a.x * a.y) (2 * a.x * a.z)
        (2 * a.x * a.y) (2 * a.y * a.y - 1) (2 * a.y * a.z)
        (2 * a.x * a.z) (2 * a.y * a.z)
        (2 * a.z * a.z - 1)).get_axis_angle).2 = Real.pi := by
  set B := Basis.new_from_floats (2 * a.x * a.x - 1) (2 * a.x * a.y) (2 * a.x * a.z)
    (2 * a.x * a.y) (2 * a.y * a.y - 1) (2 * a.y * a.z)
    (2 * a.x * a.z) (2 * a.y * a.z) (2 * a.z * a.z - 1) with hB
  have hsing : B.axis_angle_singular := by
    refine ⟨?_, ?_, ?_⟩ <;>
      · show |_| < CMP_EPSILON
        simp only [hB, Basis.new_from_floats, sub_self, abs_zero]
        norm_num [CMP_EPSILON]
  have hident : ¬ (B.is_diagonal ∧ |B.x.x + B.y.y + B.z.z - 3| < 3 * CMP_EPSILON) := by
    rintro ⟨-, htr⟩
    have : B.x.x + B.y.y + B.z.z - 3 = -4 := by
      simp only [hB, Basis.new_from_floats]
      linear_combination 2 * ha
    rw [this] at htr
    norm_num [CMP_EPSILON] at htr
  have heval : B.get_axis_angle = (B.pi_singularity_axis, Real.pi) := by
    simp only [Basis.get_axis_angle, if_pos hsing, if_neg hident]
  rw [heval]
  refine ⟨?_, rfl⟩
  have hxx : (B.x.x + 1) / 2 = a.x * a.x := by simp only [hB, Basis.new_from_floats]; ring
  have hyy : (B.y.y + 1) / 2 = a.y * a.y := by simp only [hB, Basis.new_from_floats]; ring
  have hzz : (B.z.z + 1) / 2 = a.z * a.z := by simp only [hB, Basis.new_from_floats]; ring
  have hxy : (B.x.y + B.y.x) / 4 = a.x * a.y := by simp only [hB, Basis.new_from_floats]; ring
  have hxz : (B.x.z + B.z.x) / 4 = a.x * a.z := by simp only [hB, Basis.new_from_floats]; ring
  have hyz : (B.y.z + B.z.y) / 4 = a.y * a.z := by simp only [hB, Basis.new_from_floats]; ring
  have heps : CMP_EPSILON < 1 / 3 := by norm_num [CMP_EPSILON]
  unfold Basis.pi_singularity_axis
  rw [hxx, hyy, hzz, hxy, hxz, hyz]
  by_cases hc1 : a.x * a.x > a.y * a.y ∧ a.x * a.x > a.z * a.z
  · rw [if_pos hc1]
    have hdom : 1 / 3 ≤ a.x * a.x := by nlinarith [hc1.1, hc1.2]
    rw [if_neg (by linarith)]
    have hnn : (0 : ℝ) ≤ a.x * a.x := mul_self_nonneg _
    have hss := Real.mul_self_sqrt hnn
    have hne : Real.sqrt (a.x * a.x) ≠ 0 := by
      refine (Real.sqrt_pos.mpr ?_).ne'
      linarith
    have hxne : a.x * a.x ≠ 0 := by linarith [hdom]
    simp only [Vector3.length_squared]
    rw [div_mul_div_comm, div_mul_div_comm, hss]
    field_simp
    linear_combination (a.x * a.x) * ha
  · rw [if_neg hc1]
    by_cases hc2 : a.y * a.y > a.z * a.z
    · rw [if_pos hc2]
      have hyx : a.x * a.x ≤ a.y * a.y := by
        rcases not_and_or.mp hc1 with h' | h'
        · exact le_of_not_lt h'
        · have := le_of_not_lt h'
          nlinarith [hc2]
      have hdom : 1 / 3 ≤ a.y * a.y := by nlinarith [hc2]
      rw [if_neg (by linarith)]
      have hnn : (0 : ℝ) ≤ a.y * a.y := mul_self_nonneg _
      have hss := Real.mul_self_sqrt hnn
      have hyne : a.y * a.y ≠ 0 := by linarith [hdom]
      simp only [Vector3.length_squared]
      rw [div_mul_div_comm, div_mul_div_comm, hss]
      field_simp
      linear_combination (a.y * a.y) * ha
    · rw [if_neg hc2]
      have hzy : a.y * a.y ≤ a.z * a.z := le_of_not_lt hc2
      have hzx : a.x * a.x ≤ a.z * a.z := by
        rcases not_and_or.mp hc1 with h' | h'
        · linarith [le_of_not_lt h']
        · exact le_of_not_lt h'
      have hdom : 1 / 3 ≤ a.z * a.z := by nlinarith
      rw [if_neg (by linarith)]
      have hnn : (0 : ℝ) ≤ a.z * a.z := mul_self_nonneg _
      have hss := Real.mul_self_sqrt hnn
      have hzne : a.z * a.z ≠ 0 := by linarith [hdom]
      simp only [Vector3.length_squared]
      rw [div_mul_div_comm, div_mul_div_comm, hss]
      field_simp
      linear_combination (a.z * a.z) * ha

/-- C8 amended: the angle returned by `get_axis_angle` always lies in
`[0, π]`; the axis is *exactly* unit in the identity branch, in the regular
branch, and in the π branch for exact π rotations `2 a aᵀ - I` (for near-π
orthonormal rotations that fall into the π branch the axis is only
approximately unit — see the counterexample); and the three concrete spec
fixtures hold exactly: identity ↦ `((0,1,0), 0)`, `diag(-1,1,-1)` ↦ angle `π`
(axis `(0,1,0)`), the 90°-about-X rotation ↦ `((1,0,0), π/2)`. -/
theorem C8_amended_axis_angle :
    (∀ b : Basis, 0 ≤ (b.get_axis_angle).2 ∧ (b.get_axis_angle).2 ≤ Real.pi) ∧
      (∀ b : Basis, ¬ b.axis_angle_singular →
        ((b.get_axis_angle).1).length_squared = 1) ∧
      (∀ a : Vector3, a.x * a.x + a.y * a.y + a.z * a.z = 1 →
        ((Basis.new_from_floats (2 * a.x * a.x - 1) (2 * a.x * a.y) (2 * a.x * a.z)
            (2 * a.x * a.y) (2 * a.y * a.y - 1) (2 * a.y * a.z)
            (2 * a.x * a.z) (2 * a.y * a.z)
            (2 * a.z * a.z - 1)).get_axis_angle).1.length_squared = 1 ∧
          ((Basis.new_from_floats (2 * a.x * a.x - 1) (2 * a.x * a.y) (2 * a.x * a.z)
            (2 * a.x * a.y) (2 * a.y * a.y - 1) (2 * a.y * a.z)
            (2 * a.x * a.z) (2 * a.y * a.z)
            (2 * a.z * a.z - 1)).get_axis_angle).2 = Real.pi) ∧
      Basis.IDENTITY.get_axis_angle = (⟨0, 1, 0⟩, 0) ∧
      (Basis.new_from_floats (-1) 0 0 0 1 0 0 0 (-1)).get_axis_angle =
        (⟨0, 1, 0⟩, Real.pi) ∧
      (Basis.new_from_floats 1 0 0 0 0 (-1) 0 1 0).get_axis_angle =
        (⟨1, 0, 0⟩, Real.pi / 2) := by
  refine ⟨get_axis_angle_angle_range, regular_axis_unit, pi_rotation_axis_unit, ?_, ?_, ?_⟩
  · unfold Basis.get_axis_angle
    rw [if_pos (by
        refine ⟨?_, ?_, ?_⟩ <;>
          norm_num [Basis.IDENTITY, Basis.new_from_floats, is_zero_approx, CMP_EPSILON]),
      if_pos (by
        constructor
        · refine ⟨?_, ?_, ?_, ?_, ?_, ?_⟩ <;>
            norm_num [Basis.IDENTITY, Basis.new_from_floats, Basis.is_diagonal,
              is_zero_approx, CMP_EPSILON]
        · norm_num [Basis.IDENTITY, Basis.new_from_floats, CMP_EPSILON])]
  · have hsing : (Basis.new_from_floats (-1) 0 0 0 1 0 0 0 (-1)).axis_angle_singular := by
      refine ⟨?_, ?_, ?_⟩ <;>
        norm_num [Basis.new_from_floats, is_zero_approx, CMP_EPSILON]
    have hident : ¬ ((Basis.new_from_floats (-1) 0 0 0 1 0 0 0 (-1)).is_diagonal ∧
        |(Basis.new_from_floats (-1) 0 0 0 1 0 0 0 (-1)).x.x +
          (Basis.new_from_floats (-1) 0 0 0 1 0 0 0 (-1)).y.y +
          (Basis.new_from_floats (-1) 0 0 0 1 0 0 0 (-1)).z.z - 3| < 3 * CMP_EPSILON) := by
      rintro ⟨-, htr⟩
      norm_num [Basis.new_from_floats, CMP_EPSILON] at htr
    rw [show (Basis.new_from_floats (-1) 0 0 0 1 0 0 0 (-1)).get_axis_angle =
        ((Basis.new_from_floats (-1) 0 0 0 1 0 0 0 (-1)).pi_singularity_axis, Real.pi) by
      simp only [Basis.get_axis_angle, if_pos hsing, if_neg hident]]
    refine Prod.ext ?_ rfl
    show (Basis.new_from_floats (-1) 0 0 0 1 0 0 0 (-1)).pi_singularity_axis = ⟨0, 1, 0⟩
    unfold Basis.pi_singularity_axis
    rw [if_neg (by norm_num [Basis.new_from_floats]),
      if_pos (by norm_num [Basis.new_from_floats]),
      if_neg (by norm_num [Basis.new_from_floats, CMP_EPSILON])]
    have h1 : ((Basis.new_from_floats (-1) 0 0 0 1 0 0 0 (-1)).y.y + 1) / 2 = 1 := by
      norm_num [Basis.new_from_floats]
    rw [h1, Real.sqrt_one]
    norm_num [Basis.new_from_floats]
  · have hns : ¬ (Basis.new_from_floats 1 0 0 0 0 (-1) 0 1 0).axis_angle_singular := by
      rintro ⟨-, -, h3⟩
      norm_num [Basis.new_from_floats, is_zero_approx, CMP_EPSILON] at h3
    obtain ⟨-, heval⟩ := axis_angle_regular_eval _ hns
    rw [heval]
    have hsq : Real.sqrt (((Basis.new_from_floats 1 0 0 0 0 (-1) 0 1 0).z.y -
        (Basis.new_from_floats 1 0 0 0 0 (-1) 0 1 0).y.z) *
          ((Basis.new_from_floats 1 0 0 0 0 (-1) 0 1 0).z.y -
            (Basis.new_from_floats 1 0 0 0 0 (-1) 0 1 0).y.z) +
        ((Basis.new_from_floats 1 0 0 0 0 (-1) 0 1 0).x.z -
          (Basis.new_from_floats 1 0 0 0 0 (-1) 0 1 0).z.x) *
          ((Basis.new_from_floats 1 0 0 0 0 (-1) 0 1 0).x.z -
            (Basis.new_from_floats 1 0 0 0 0 (-1) 0 1 0).z.x) +
        ((Basis.new_from_floats 1 0 0 0 0 (-1) 0 1 0).y.x -
          (Basis.new_from_floats 1 0 0 0 0 (-1) 0 1 0).x.y) *
          ((Basis.new_from_floats 1 0 0 0 0 (-1) 0 1 0).y.x -
            (Basis.new_from_floats 1 0 0 0 0 (-1) 0 1 0).x.y)) = 2 := by
      rw [show ((Basis.new_from_floats 1 0 0 0 0 (-1) 0 1 0).z.y -
          (Basis.new_from_floats 1 0 0 0 0 (-1) 0 1 0).y.z) *
            ((Basis.new_from_floats 1 0 0 0 0 (-1) 0 1 0).z.y -
              (Basis.new_from_floats 1 0 0 0 0 (-1) 0 1 0).y.z) +
          ((Basis.new_from_floats 1 0 0 0 0 (-1) 0 1 0).x.z -
            (Basis.new_from_floats 1 0 0 0 0 (-1) 0 1 0).z.x) *
            ((Basis.new_from_floats 1 0 0 0 0 (-1) 0 1 0).x.z -
              (Basis.new_from_floats 1 0 0 0 0 (-1) 0 1 0).z.x) +
          ((Basis.new_from_floats 1 0 0 0 0 (-1) 0 1 0).y.x -
            (Basis.new_from_floats 1 0 0 0 0 (-1) 0 1 0).x.y) *
            ((Basis.new_from_floats 1 0 0 0 0 (-1) 0 1 0).y.x -
              (Basis.new_from_floats 1 0 0 0 0 (-1) 0 1 0).x.y) = 2 ^ 2 by
        norm_num [Basis.new_from_floats]]
      exact Real.sqrt_sq (by norm_num)
    rw [hsq]
    refine Prod.ext ?_ ?_
    · show (⟨_, _, _⟩ : Vector3) = ⟨1, 0, 0⟩
      norm_num [Basis.new_from_floats]
    · show safe_acos (((1 : ℝ) + 0 + 0 - 1) / 2) = Real.pi / 2
      unfold safe_acos
      rw [if_neg (by norm_num), if_neg (by norm_num)]
      norm_num [Real.arccos_zero]

/-- Witness for `C8_amended_axis_angle`: the regular-branch conjunct at the
90°-about-X rotation and the π conjunct at the axis `(1, 0, 0)`. -/
theorem C8_amended_witness :
    ¬ (Basis.new_from_floats 1 0 0 0 0 (-1) 0 1 0).axis_angle_singular ∧
      (((Basis.new_from_floats 1 0 0 0 0 (-1) 0 1 0).get_axis_angle).1).length_squared =
        1 ∧
      (1 : ℝ) * 1 + 0 * 0 + 0 * 0 = 1 ∧
      ((Basis.new_from_floats (2 * 1 * 1 - 1) (2 * 1 * 0) (2 * 1 * 0)
        (2 * 1 * 0) (2 * 0 * 0 - 1) (2 * 0 * 0)
        (2 * 1 * 0) (2 * 0 * 0)
        (2 * (0 : ℝ) * 0 - 1)).get_axis_angle).1.length_squared = 1 := by
  have hns : ¬ (Basis.new_from_floats 1 0 0 0 0 (-1) 0 1 0).axis_angle_singular := by
    rintro ⟨-, -, h3⟩
    norm_num [Basis.new_from_floats, is_zero_approx, CMP_EPSILON] at h3
  have hone : (1 : ℝ) * 1 + 0 * 0 + 0 * 0 = 1 := by norm_num
  refine ⟨hns, C8_amended_axis_angle.2.1 _ hns, hone, ?_⟩
  exact (C8_amended_axis_angle.2.2.1 ⟨1, 0, 0⟩ hone).1

/-- C6: in both `spherical_cubic_interpolate` and
`spherical_cubic_interpolate_in_time`, after the four inputs are normalized
through the scale-aware rotation extraction, the result is the post-flip body
applied to: `pre_a` negated exactly when `dot(self, pre_a)` is negative, `b`
negated exactly when `dot(self, b)` is negative, and `post_b` negated under
the asymmetric test — `dot(b', post_b) ≤ 0` when `b` was flipped (with `b'`
the flipped `b`), but the strict sign test `dot(b', post_b) < 0` when it was
not. -/
theorem C6_flip_phase_asymmetry (self b pre_a post_b : Quaternion)
    (weight b_t pre_a_t post_b_t : ℝ) :
    (Quaternion.spherical_cubic_interpolate self b pre_a post_b weight =
      Quaternion.sCubicAfterFlip
        ((Basis.from_quaternion self).get_rotation_quaternion)
        (if ((Basis.from_quaternion self).get_rotation_quaternion).dot
              ((Basis.from_quaternion b).get_rotation_quaternion) < 0 then
          -(Basis.from_quaternion b).get_rotation_quaternion
        else (Basis.from_quaternion b).get_rotation_quaternion)
        (if ((Basis.from_quaternion self).get_rotation_quaternion).dot
              ((Basis.from_quaternion pre_a).get_rotation_quaternion) < 0 then
          -(Basis.from_quaternion pre_a).get_rotation_quaternion
        else (Basis.from_quaternion pre_a).get_rotation_quaternion)
        (if (if ((Basis.from_quaternion self).get_rotation_quaternion).dot
                ((Basis.from_quaternion b).get_rotation_quaternion) < 0 then
              (if ((Basis.from_quaternion self).get_rotation_quaternion).dot
                    ((Basis.from_quaternion b).get_rotation_quaternion) < 0 then
                  -(Basis.from_quaternion b).get_rotation_quaternion
                else (Basis.from_quaternion b).get_rotation_quaternion).dot
                  ((Basis.from_quaternion post_b).get_rotation_quaternion) ≤ 0
            else
              (if ((Basis.from_quaternion self).get_rotation_quaternion).dot
                    ((Basis.from_quaternion b).get_rotation_quaternion) < 0 then
                  -(Basis.from_quaternion b).get_rotation_quaternion
                else (Basis.from_quaternion b).get_rotation_quaternion).dot
                  ((Basis.from_quaternion post_b).get_rotation_quaternion) < 0) then
          -(Basis.from_quaternion post_b).get_rotation_quaternion
        else (Basis.from_quaternion post_b).get_rotation_quaternion)
        weight) ∧
    (Quaternion.spherical_cubic_interpolate_in_time self b pre_a post_b weight b_t
        pre_a_t post_b_t =
      Quaternion.sCubicInTimeAfterFlip
        ((Basis.from_quaternion self).get_rotation_quaternion)
        (if ((Basis.from_quaternion self).get_rotation_quaternion).dot
              ((Basis.from_quaternion b).get_rotation_quaternion) < 0 then
          -(Basis.from_quaternion b).get_rotation_quaternion
        else (Basis.from_quaternion b).get_rotation_quaternion)
        (if ((Basis.from_quaternion self).get_rotation_quaternion).dot
              ((Basis.from_quaternion pre_a).get_rotation_quaternion) < 0 then
          -(Basis.from_quaternion pre_a).get_rotation_quaternion
        else (Basis.from_quaternion pre_a).get_rotation_quaternion)
        (if (if ((Basis.from_quaternion self).get_rotation_quaternion).dot
                ((Basis.from_quaternion b).get_rotation_quaternion) < 0 then
              (if ((Basis.from_quaternion self).get_rotation_quaternion).dot
                    ((Basis.from_quaternion b).get_rotation_quaternion) < 0 then
                  -(Basis.from_quaternion b).get_rotation_quaternion
                else (Basis.from_quaternion b).get_rotation_quaternion).dot
                  ((Basis.from_quaternion post_b).get_rotation_quaternion) ≤ 0
            else
              (if ((Basis.from_quaternion self).get_rotation_quaternion).dot
                    ((Basis.from_quaternion b).get_rotation_quaternion) < 0 then
                  -(Basis.from_quaternion b).get_rotation_quaternion
                else (Basis.from_quaternion b).get_rotation_quaternion).dot
                  ((Basis.from_quaternion post_b).get_rotation_quaternion) < 0) then
          -(Basis.from_quaternion post_b).get_rotation_quaternion
        else (Basis.from_quaternion post_b).get_rotation_quaternion)
        weight b_t pre_a_t post_b_t) :=
  ⟨rfl, rfl⟩

/-- Closed forms for `cos`/`sin` of `atan2` away from the origin. -/
theorem cos_sin_atan2 (y x : ℝ) (h : 0 < x * x + y * y) :
    Real.cos (atan2 y x) = x / Real.sqrt (x * x + y * y) ∧
      Real.sin (atan2 y x) = y / Real.sqrt (x * x + y * y) := by
  have hrpos : 0 < Real.sqrt (x * x + y * y) := Real.sqrt_pos.mpr h
  have habs : ∀ x' : ℝ, x' ≠ 0 →
      Real.sqrt (1 + (y / x') ^ 2) * |x'| = Real.sqrt (x' * x' + y * y) := by
    intro x' hx'
    have hone : 1 + (y / x') ^ 2 = (x' * x' + y * y) / x' ^ 2 := by
      field_simp
      ring
    rw [hone, Real.sqrt_div (by nlinarith [sq_nonneg x', sq_nonneg y]),
      Real.sqrt_sq_eq_abs, div_mul_cancel₀]
    exact fun hc => hx' (abs_eq_zero.mp hc)
  unfold atan2
  by_cases hx : 0 < x
  · rw [if_pos hx]
    have hxne : x ≠ 0 := hx.ne'
    have hkey := habs x hxne
    rw [abs_of_pos hx] at hkey
    constructor
    · rw [Real.cos_arctan, ← hkey, mul_comm, div_mul_eq_div_div, div_self hxne]
    · rw [Real.sin_arctan, ← hkey, div_div]
      ring
  · rw [if_neg hx]
    by_cases hx' : x < 0
    · rw [if_pos hx']
      have hxne : x ≠ 0 := hx'.ne
      have hkey := habs x hxne
      rw [abs_of_neg hx'] at hkey
      have hc : Real.cos (Real.arctan (y / x) + Real.pi) = x / Real.sqrt (x * x + y * y) := by
        rw [Real.cos_add, Real.cos_pi, Real.sin_pi, Real.cos_arctan, ← hkey]
        rw [show x / (Real.sqrt (1 + (y / x) ^ 2) * -x) =
            -(1 / Real.sqrt (1 + (y / x) ^ 2)) by
          rw [mul_neg, div_neg, mul_comm, div_mul_eq_div_div, div_self hxne]]
        ring
      have hsin : Real.sin (Real.arctan (y / x) + Real.pi) = y / Real.sqrt (x * x + y * y) := by
        rw [Real.sin_add, Real.cos_pi, Real.sin_pi, Real.sin_arctan, ← hkey]
        rw [show y / (Real.sqrt (1 + (y / x) ^ 2) * -x) =
            -(y / x / Real.sqrt (1 + (y / x) ^ 2)) by
          rw [mul_neg, div_neg, mul_comm, ← div_div]]
        ring
      split_ifs with hy
      · exact ⟨hc, hsin⟩
      · constructor
        · rw [show Real.arctan (y / x) - Real.pi = Real.arctan (y / x) + Real.pi - 2 * Real.pi
              by ring, Real.cos_sub_two_pi]
          exact hc
        · rw [show Real.arctan (y / x) - Real.pi = Real.arctan (y / x) + Real.pi - 2 * Real.pi
              by ring, Real.sin_sub_two_pi]
          exact hsin
    · have hx0 : x = 0 := le_antisymm (not_lt.mp hx) (not_lt.mp hx')
      rw [if_neg hx']
      subst hx0
      have hyy : Real.sqrt (0 * 0 + y * y) = |y| := by
        rw [show (0 : ℝ) * 0 + y * y = y * y by ring, Real.sqrt_mul_self_eq_abs]
      by_cases hy : 0 < y
      · rw [if_pos hy]
        refine ⟨by rw [Real.cos_pi_div_two, hyy, zero_div], ?_⟩
        rw [Real.sin_pi_div_two, hyy, abs_of_pos hy, div_self hy.ne']
      · rw [if_neg hy]
        have hy' : y < 0 := by
          rcases lt_trichotomy y 0 with h1 | h1 | h1
          · exact h1
          · exfalso; rw [h1] at h; norm_num at h
          · exact absurd h1 hy
        rw [if_pos hy']
        constructor
        · rw [Real.cos_neg, Real.cos_pi_div_two, hyy, zero_div]
        · rw [Real.sin_neg, Real.sin_pi_div_two, hyy, abs_of_neg hy', div_neg,
            div_self hy'.ne]

/-- `B⁻¹ * B = I` whenever the determinant is 1 (the adjugate identity). -/
theorem inverse_mul_self (b : Basis) (hdet : b.determinant = 1) :
    b.inverse * b = Basis.IDENTITY := by
  have hD : b.x.x * (b.y.y * b.z.z - b.y.z * b.z.y) +
      b.x.y * (b.y.z * b.z.x - b.y.x * b.z.z) +
      b.x.z * (b.y.x * b.z.y - b.y.y * b.z.x) = 1 := by
    simp only [Basis.determinant] at hdet
    linear_combination hdet
  simp only [Basis.inverse]
  rw [hD, Basis.mul_def]
  simp only [Basis.t_dot_x, Basis.t_dot_y, Basis.t_dot_z, Basis.new_from_floats,
    Basis.IDENTITY, Basis.mk.injEq, Vector3.mk.injEq]
  refine ⟨⟨?_, ?_, ?_⟩, ⟨?_, ?_, ?_⟩, ?_, ?_, ?_⟩
  · linear_combination hD
  · ring
  · ring
  · ring
  · linear_combination hD
  · ring
  · ring
  · ring
  · linear_combination hD

/-- `from_euler` with an explicit order is `set_euler` with that order. -/
theorem Basis.from_euler_some (v : Vector3) (o : EulerOrder) :
    Basis.from_euler v (some o) = Basis.set_euler v o := rfl

/-- The determinant of a `Basis` product is the product of the determinants. -/
theorem Basis.det_mul (a b : Basis) :
    (a * b).determinant = a.determinant * b.determinant := by
  simp only [Basis.mul_def, Basis.determinant, Basis.t_dot_x, Basis.t_dot_y, Basis.t_dot_z,
    Basis.new_from_floats]
  ring

/-- Row orthonormality is preserved by the `Basis` product. -/
theorem rows_orthonormal_mul (A B : Basis) (hA : A.rows_orthonormal)
    (hB : B.rows_orthonormal) : (A * B).rows_orthonormal := by
  obtain ⟨a1, a2, a3, a12, a13, a23⟩ := hA
  obtain ⟨b1, b2, b3, b12, b13, b23⟩ := hB
  simp only [Vector3.length_squared, Vector3.dot] at a1 a2 a3 a12 a13 a23 b1 b2 b3 b12 b13 b23
  simp only [Basis.rows_orthonormal, Basis.mul_def, Basis.new_from_floats, Basis.t_dot_x,
    Basis.t_dot_y, Basis.t_dot_z, Vector3.length_squared, Vector3.dot]
  refine ⟨?_, ?_, ?_, ?_, ?_, ?_⟩
  · linear_combination (A.x.x * A.x.x) * b1 + (A.x.y * A.x.y) * b2 + (A.x.z * A.x.z) * b3 +
      (2 * A.x.x * A.x.y) * b12 + (2 * A.x.x * A.x.z) * b13 + (2 * A.x.y * A.x.z) * b23 + a1
  · linear_combination (A.y.x * A.y.x) * b1 + (A.y.y * A.y.y) * b2 + (A.y.z * A.y.z) * b3 +
      (2 * A.y.x * A.y.y) * b12 + (2 * A.y.x * A.y.z) * b13 + (2 * A.y.y * A.y.z) * b23 + a2
  · linear_combination (A.z.x * A.z.x) * b1 + (A.z.y * A.z.y) * b2 + (A.z.z * A.z.z) * b3 +
      (2 * A.z.x * A.z.y) * b12 + (2 * A.z.x * A.z.z) * b13 + (2 * A.z.y * A.z.z) * b23 + a3
  · linear_combination (A.x.x * A.y.x) * b1 + (A.x.y * A.y.y) * b2 + (A.x.z * A.y.z) * b3 +
      (A.x.x * A.y.y + A.x.y * A.y.x) * b12 + (A.x.x * A.y.z + A.x.z * A.y.x) * b13 +
      (A.x.y * A.y.z + A.x.z * A.y.y) * b23 + a12
  · linear_combination (A.x.x * A.z.x) * b1 + (A.x.y * A.z.y) * b2 + (A.x.z * A.z.z) * b3 +
      (A.x.x * A.z.y + A.x.y * A.z.x) * b12 + (A.x.x * A.z.z + A.x.z * A.z.x) * b13 +
      (A.x.y * A.z.z + A.x.z * A.z.y) * b23 + a13
  · linear_combination (A.y.x * A.z.x) * b1 + (A.y.y * A.z.y) * b2 + (A.y.z * A.z.z) * b3 +
      (A.y.x * A.z.y + A.y.y * A.z.x) * b12 + (A.y.x * A.z.z + A.y.z * A.z.x) * b13 +
      (A.y.y * A.z.z + A.y.z * A.z.y) * b23 + a23

/-- The single-axis X rotation matrix of `set_euler` has orthonormal rows. -/
theorem rows_orthonormal_xmat (c s : ℝ) (h : s * s + c * c = 1) :
    (Basis.new_from_floats 1 0 0 0 c (-s) 0 s c).rows_orthonormal := by
  simp only [Basis.rows_orthonormal, Basis.new_from_floats, Vector3.length_squared, Vector3.dot]
  exact ⟨by ring, by linear_combination h, by linear_combination h, by ring, by ring, by ring⟩

/-- The single-axis Y rotation matrix of `set_euler` has orthonormal rows. -/
theorem rows_orthonormal_ymat (c s : ℝ) (h : s * s + c * c = 1) :
    (Basis.new_from_floats c 0 s 0 1 0 (-s) 0 c).rows_orthonormal := by
  simp only [Basis.rows_orthonormal, Basis.new_from_floats, Vector3.length_squared, Vector3.dot]
  exact ⟨by linear_combination h, by ring, by linear_combination h, by ring, by ring, by ring⟩

/-- The single-axis Z rotation matrix of `set_euler` has orthonormal rows. -/
theorem rows_orthonormal_zmat (c s : ℝ) (h : s * s + c * c = 1) :
    (Basis.new_from_floats c (-s) 0 s c 0 0 0 1).rows_orthonormal := by
  simp only [Basis.rows_orthonormal, Basis.new_from_floats, Vector3.length_squared, Vector3.dot]
  exact ⟨by linear_combination h, by linear_combination h, by ring, by ring, by ring, by ring⟩

/-- Determinant of the single-axis X rotation matrix. -/
theorem det_xmat (c s : ℝ) (h : s * s + c * c = 1) :
    (Basis.new_from_floats 1 0 0 0 c (-s) 0 s c).determinant = 1 := by
  simp only [Basis.determinant, Basis.new_from_floats]
  linear_combination h

/-- Determinant of the single-axis Y rotation matrix. -/
theorem det_ymat (c s : ℝ) (h : s * s + c * c = 1) :
    (Basis.new_from_floats c 0 s 0 1 0 (-s) 0 c).determinant = 1 := by
  simp only [Basis.determinant, Basis.new_from_floats]
  linear_combination h

/-- Determinant of the single-axis Z rotation matrix. -/
theorem det_zmat (c s : ℝ) (h : s * s + c * c = 1) :
    (Basis.new_from_floats c (-s) 0 s c 0 0 0 1).determinant = 1 := by
  simp only [Basis.determinant, Basis.new_from_floats]
  linear_combination h

/-- Every `set_euler` matrix has orthonormal rows. -/
theorem rows_orthonormal_set_euler (v : Vector3) (o : EulerOrder) :
    (Basis.set_euler v o).rows_orthonormal := by
  have hx : Real.sin v.x * Real.sin v.x + Real.cos v.x * Real.cos v.x = 1 := by
    linear_combination Real.sin_sq_add_cos_sq v.x
  have hy : Real.sin v.y * Real.sin v.y + Real.cos v.y * Real.cos v.y = 1 := by
    linear_combination Real.sin_sq_add_cos_sq v.y
  have hz : Real.sin v.z * Real.sin v.z + Real.cos v.z * Real.cos v.z = 1 := by
    linear_combination Real.sin_sq_add_cos_sq v.z
  have hxm := rows_orthonormal_xmat (Real.cos v.x) (Real.sin v.x) hx
  have hym := rows_orthonormal_ymat (Real.cos v.y) (Real.sin v.y) hy
  have hzm := rows_orthonormal_zmat (Real.cos v.z) (Real.sin v.z) hz
  cases o
  · exact rows_orthonormal_mul _ _ hxm (rows_orthonormal_mul _ _ hym hzm)
  · exact rows_orthonormal_mul _ _ (rows_orthonormal_mul _ _ hxm hzm) hym
  · exact rows_orthonormal_mul _ _ (rows_orthonormal_mul _ _ hym hxm) hzm
  · exact rows_orthonormal_mul _ _ (rows_orthonormal_mul _ _ hym hzm) hxm
  · exact rows_orthonormal_mul _ _ (rows_orthonormal_mul _ _ hzm hxm) hym
  · exact rows_orthonormal_mul _ _ (rows_orthonormal_mul _ _ hzm hym) hxm

/-- Every `set_euler` matrix has determinant 1. -/
theorem det_set_euler (v : Vector3) (o : EulerOrder) :
    (Basis.set_euler v o).determinant = 1 := by
  have hx : Real.sin v.x * Real.sin v.x + Real.cos v.x * Real.cos v.x = 1 := by
    linear_combination Real.sin_sq_add_cos_sq v.x
  have hy : Real.sin v.y * Real.sin v.y + Real.cos v.y * Real.cos v.y = 1 := by
    linear_combination Real.sin_sq_add_cos_sq v.y
  have hz : Real.sin v.z * Real.sin v.z + Real.cos v.z * Real.cos v.z = 1 := by
    linear_combination Real.sin_sq_add_cos_sq v.z
  cases o <;>
    simp only [Basis.set_euler] <;>
    rw [Basis.det_mul, Basis.det_mul, det_xmat _ _ hx, det_ymat _ _ hy, det_zmat _ _ hz] <;>
    norm_num

/-- Entry-wise closed form of the `set_euler` product for the XYZ order. -/
theorem set_euler_XYZ_eq (a b c : ℝ) :
    Basis.set_euler ⟨a, b, c⟩ EulerOrder.XYZ =
    Basis.new_from_floats
      (Real.cos b*Real.cos c) (-(Real.cos b*Real.sin c)) (Real.sin b)
      (Real.cos a*Real.sin c + Real.sin a*Real.sin b*Real.cos c) (Real.cos a*Real.cos c - Real.sin a*Real.sin b*Real.sin c) (-(Real.sin a*Real.cos b))
      (Real.sin a*Real.sin c - Real.cos a*Real.sin b*Real.cos c) (Real.sin a*Real.cos c + Real.cos a*Real.sin b*Real.sin c) (Real.cos a*Real.cos b) := by
  simp only [Basis.set_euler, Basis.mul_def, Basis.t_dot_x, Basis.t_dot_y, Basis.t_dot_z,
    Basis.new_from_floats, Basis.mk.injEq, Vector3.mk.injEq]
  refine ⟨⟨?_, ?_, ?_⟩, ⟨?_, ?_, ?_⟩, ?_, ?_, ?_⟩ <;> ring

/-- Entry-wise closed form of the `set_euler` product for the XZY order. -/
theorem set_euler_XZY_eq (a b c : ℝ) :
    Basis.set_euler ⟨a, b, c⟩ EulerOrder.XZY =
    Basis.new_from_floats
      (Real.cos c*Real.cos b) (-Real.sin c) (Real.cos c*Real.sin b)
      (Real.cos a*Real.sin c*Real.cos b + Real.sin a*Real.sin b) (Real.cos a*Real.cos c) (Real.cos a*Real.sin c*Real.sin b - Real.sin a*Real.cos b)
      (Real.sin a*Real.sin c*Real.cos b - Real.cos a*Real.sin b) (Real.sin a*Real.cos c) (Real.sin a*Real.sin c*Real.sin b + Real.cos a*Real.cos b) := by
  simp only [Basis.set_euler, Basis.mul_def, Basis.t_dot_x, Basis.t_dot_y, Basis.t_dot_z,
    Basis.new_from_floats, Basis.mk.injEq, Vector3.mk.injEq]
  refine ⟨⟨?_, ?_, ?_⟩, ⟨?_, ?_, ?_⟩, ?_, ?_, ?_⟩ <;> ring

/-- Entry-wise closed form of the `set_euler` product for the YXZ order. -/
theorem set_euler_YXZ_eq (a b c : ℝ) :
    Basis.set_euler ⟨a, b, c⟩ EulerOrder.YXZ =
    Basis.new_from_floats
      (Real.cos b*Real.cos c + Real.sin b*Real.sin a*Real.sin c) (Real.sin b*Real.sin a*Real.cos c - Real.cos b*Real.sin c) (Real.sin b*Real.cos a)
      (Real.cos a*Real.sin c) (Real.cos a*Real.cos c) (-Real.sin a)
      (Real.cos b*Real.sin a*Real.sin c - Real.sin b*Real.cos c) (Real.sin b*Real.sin c + Real.cos b*Real.sin a*Real.cos c) (Real.cos b*Real.cos a) := by
  simp only [Basis.set_euler, Basis.mul_def, Basis.t_dot_x, Basis.t_dot_y, Basis.t_dot_z,
    Basis.new_from_floats, Basis.mk.injEq, Vector3.mk.injEq]
  refine ⟨⟨?_, ?_, ?_⟩, ⟨?_, ?_, ?_⟩, ?_, ?_, ?_⟩ <;> ring

/-- Entry-wise closed form of the `set_euler` product for the YZX order. -/
theorem set_euler_YZX_eq (a b c : ℝ) :
    Basis.set_euler ⟨a, b, c⟩ EulerOrder.YZX =
    Basis.new_from_floats
      (Real.cos b*Real.cos c) (Real.sin b*Real.sin a - Real.cos b*Real.cos a*Real.sin c) (Real.cos b*Real.sin c*Real.sin a + Real.sin b*Real.cos a)
      (Real.sin c) (Real.cos c*Real.cos a) (-(Real.cos c*Real.sin a))
      (-(Real.sin b*Real.cos c)) (Real.cos b*Real.sin a + Real.cos a*Real.sin b*Real.sin c) (Real.cos b*Real.cos a - Real.sin a*Real.sin b*Real.sin c) := by
  simp only [Basis.set_euler, Basis.mul_def, Basis.t_dot_x, Basis.t_dot_y, Basis.t_dot_z,
    Basis.new_from_floats, Basis.mk.injEq, Vector3.mk.injEq]
  refine ⟨⟨?_, ?_, ?_⟩, ⟨?_, ?_, ?_⟩, ?_, ?_, ?_⟩ <;> ring

/-- Entry-wise closed form of the `set_euler` product for the ZXY order. -/
theorem set_euler_ZXY_eq (a b c : ℝ) :
    Basis.set_euler ⟨a, b, c⟩ EulerOrder.ZXY =
    Basis.new_from_floats
      (Real.cos c*Real.cos b - Real.sin c*Real.sin a*Real.sin b) (-(Real.sin c*Real.cos a)) (Real.cos c*Real.sin b + Real.sin c*Real.sin a*Real.cos b)
      (Real.sin c*Real.cos b + Real.cos c*Real.sin a*Real.sin b) (Real.cos c*Real.cos a) (Real.sin c*Real.sin b - Real.cos c*Real.sin a*Real.cos b)
      (-(Real.cos a*Real.sin b)) (Real.sin a) (Real.cos a*Real.cos b) := by
  simp only [Basis.set_euler, Basis.mul_def, Basis.t_dot_x, Basis.t_dot_y, Basis.t_dot_z,
    Basis.new_from_floats, Basis.mk.injEq, Vector3.mk.injEq]
  refine ⟨⟨?_, ?_, ?_⟩, ⟨?_, ?_, ?_⟩, ?_, ?_, ?_⟩ <;> ring

/-- Entry-wise closed form of the `set_euler` product for the ZYX order. -/
theorem set_euler_ZYX_eq (a b c : ℝ) :
    Basis.set_euler ⟨a, b, c⟩ EulerOrder.ZYX =
    Basis.new_from_floats
      (Real.cos c*Real.cos b) (Real.cos c*Real.sin b*Real.sin a - Real.sin c*Real.cos a) (Real.sin c*Real.sin a + Real.cos c*Real.sin b*Real.cos a)
      (Real.sin c*Real.cos b) (Real.cos c*Real.cos a + Real.sin c*Real.sin b*Real.sin a) (Real.sin c*Real.sin b*Real.cos a - Real.cos c*Real.sin a)
      (-Real.sin b) (Real.cos b*Real.sin a) (Real.cos b*Real.cos a) := by
  simp only [Basis.set_euler, Basis.mul_def, Basis.t_dot_x, Basis.t_dot_y, Basis.t_dot_z,
    Basis.new_from_floats, Basis.mk.injEq, Vector3.mk.injEq]
  refine ⟨⟨?_, ?_, ?_⟩, ⟨?_, ?_, ?_⟩, ?_, ?_, ?_⟩ <;> ring

/-- Nonnegative reals with equal squares are equal. -/
theorem eq_of_mul_self_eq (a b : ℝ) (ha : 0 ≤ a) (hb : 0 ≤ b) (h : a * a = b * b) :
    a = b := by
  have h2 : (a - b) * (a + b) = 0 := by linear_combination h
  rcases mul_eq_zero.mp h2 with h3 | h3
  · linarith [sub_eq_zero.mp h3]
  · have ha0 : a = 0 := by linarith
    have hb0 : b = 0 := by linarith
    rw [ha0, hb0]

/-- For a basis with orthonormal rows and determinant 1, the adjugate
inverse coincides with the transpose. -/
theorem inverse_eq_transposed (B : Basis) (h : B.rows_orthonormal)
    (hdet : B.determinant = 1) : B.inverse = B.transposed := by
  obtain ⟨h1, h2, h3, h12, h13, h23⟩ := h
  have t1 : B.x.dot (B.y.cross B.z) = 1 := by
    simp only [Vector3.dot, Vector3.cross]
    simp only [Basis.determinant] at hdet
    linear_combination hdet
  have t2 : B.y.dot (B.z.cross B.x) = 1 := by
    simp only [Vector3.dot, Vector3.cross]
    simp only [Basis.determinant] at hdet
    linear_combination hdet
  have t3 : B.z.dot (B.x.cross B.y) = 1 := by
    simp only [Vector3.dot, Vector3.cross]
    simp only [Basis.determinant] at hdet
    linear_combination hdet
  have c1 : B.y.cross B.z = B.x := cross_eq_of_orthonormal B.x B.y B.z h1 h2 h3 h23 t1
  have c2 : B.z.cross B.x = B.y := by
    refine cross_eq_of_orthonormal B.y B.z B.x h2 h3 h1 ?_ t2
    simp only [Vector3.dot] at h13 ⊢
    linear_combination h13
  have c3 : B.x.cross B.y = B.z := cross_eq_of_orthonormal B.z B.x B.y h3 h1 h2 h12 t3
  have e1x := congrArg Vector3.x c1
  have e1y := congrArg Vector3.y c1
  have e1z := congrArg Vector3.z c1
  have e2x := congrArg Vector3.x c2
  have e2y := congrArg Vector3.y c2
  have e2z := congrArg Vector3.z c2
  have e3x := congrArg Vector3.x c3
  have e3y := congrArg Vector3.y c3
  have e3z := congrArg Vector3.z c3
  simp only [Vector3.cross] at e1x e1y e1z e2x e2y e2z e3x e3y e3z
  have hD : B.x.x * (B.y.y * B.z.z - B.y.z * B.z.y) +
      B.x.y * (B.y.z * B.z.x - B.y.x * B.z.z) +
      B.x.z * (B.y.x * B.z.y - B.y.y * B.z.x) = 1 := by
    simp only [Basis.determinant] at hdet
    linear_combination hdet
  simp only [Basis.inverse]
  rw [hD]
  simp only [Basis.transposed, Basis.new_from_floats, Basis.mk.injEq, Vector3.mk.injEq]
  refine ⟨⟨?_, ?_, ?_⟩, ⟨?_, ?_, ?_⟩, ?_, ?_, ?_⟩
  · linear_combination e1x
  · linear_combination e2x
  · linear_combination e3x
  · linear_combination e1y
  · linear_combination e2y
  · linear_combination e3y
  · linear_combination e1z
  · linear_combination e2z
  · linear_combination e3z

/-- Dotting a vector against the three columns of a row-orthonormal basis
preserves the squared length. -/
theorem col_dots_length_squared (B : Basis) (h : B.rows_orthonormal) (d : Vector3) :
    (Vector3.mk ((B.get_column 0).dot d) ((B.get_column 1).dot d)
      ((B.get_column 2).dot d)).length_squared = d.length_squared := by
  obtain ⟨h1, h2, h3, h12, h13, h23⟩ := h
  simp only [Vector3.length_squared, Vector3.dot, Basis.get_column] at h1 h2 h3 h12 h13 h23 ⊢
  linear_combination (d.x * d.x) * h1 + (d.y * d.y) * h2 + (d.z * d.z) * h3 +
    (2 * d.x * d.y) * h12 + (2 * d.x * d.z) * h13 + (2 * d.y * d.z) * h23

/-- Round-trip metric reduction: if a row-orthonormal determinant-1 basis `B`
and any `B2` have columns within squared distance `1/100`, every column of
`B.inverse * B2` is within distance `1/10` of the corresponding identity
column. -/
theorem roundtrip_metric (B B2 : Basis) (h : B.rows_orthonormal) (hdet : B.determinant = 1)
    (hc0 : (B2.get_column 0 - B.get_column 0).length_squared ≤ 1 / 100)
    (hc1 : (B2.get_column 1 - B.get_column 1).length_squared ≤ 1 / 100)
    (hc2 : (B2.get_column 2 - B.get_column 2).length_squared ≤ 1 / 100) :
    ((B.inverse * B2).get_column 0 - Basis.IDENTITY.get_column 0).length ≤ 1 / 10 ∧
      ((B.inverse * B2).get_column 1 - Basis.IDENTITY.get_column 1).length ≤ 1 / 10 ∧
      ((B.inverse * B2).get_column 2 - Basis.IDENTITY.get_column 2).length ≤ 1 / 10 := by
  have hinv := inverse_eq_transposed B h hdet
  have hI : B.inverse * B = Basis.IDENTITY := inverse_mul_self B hdet
  rw [hinv] at hI ⊢
  have hIc := hI
  simp only [Basis.mul_def, Basis.transposed, Basis.t_dot_x, Basis.t_dot_y, Basis.t_dot_z,
    Basis.new_from_floats, Basis.IDENTITY, Basis.mk.injEq, Vector3.mk.injEq] at hIc
  obtain ⟨⟨q11, q12, q13⟩, ⟨q21, q22, q23⟩, q31, q32, q33⟩ := hIc
  have h10 : Real.sqrt (1 / 100) = 1 / 10 := by
    rw [show (1 : ℝ) / 100 = (1 / 10) ^ 2 by norm_num, Real.sqrt_sq (by norm_num)]
  refine ⟨?_, ?_, ?_⟩
  · have hw : (B.transposed * B2).get_column 0 - Basis.IDENTITY.get_column 0 =
        Vector3.mk ((B.get_column 0).dot (B2.get_column 0 - B.get_column 0))
          ((B.get_column 1).dot (B2.get_column 0 - B.get_column 0))
          ((B.get_column 2).dot (B2.get_column 0 - B.get_column 0)) := by
      simp only [Basis.mul_def, Basis.transposed, Basis.t_dot_x, Basis.t_dot_y, Basis.t_dot_z,
        Basis.new_from_floats, Basis.get_column, Basis.IDENTITY, Vector3.sub_def, Vector3.dot,
        Vector3.mk.injEq]
      refine ⟨?_, ?_, ?_⟩
      · linear_combination q11
      · linear_combination q21
      · linear_combination q31
    rw [hw]
    simp only [Vector3.length]
    rw [col_dots_length_squared B h (B2.get_column 0 - B.get_column 0)]
    calc Real.sqrt ((B2.get_column 0 - B.get_column 0).length_squared)
        ≤ Real.sqrt (1 / 100) := Real.sqrt_le_sqrt hc0
      _ = 1 / 10 := h10
  · have hw : (B.transposed * B2).get_column 1 - Basis.IDENTITY.get_column 1 =
        Vector3.mk ((B.get_column 0).dot (B2.get_column 1 - B.get_column 1))
          ((B.get_column 1).dot (B2.get_column 1 - B.get_column 1))
          ((B.get_column 2).dot (B2.get_column 1 - B.get_column 1)) := by
      simp only [Basis.mul_def, Basis.transposed, Basis.t_dot_x, Basis.t_dot_y, Basis.t_dot_z,
        Basis.new_from_floats, Basis.get_column, Basis.IDENTITY, Vector3.sub_def, Vector3.dot,
        Vector3.mk.injEq]
      refine ⟨?_, ?_, ?_⟩
      · linear_combination q12
      · linear_combination q22
      · linear_combination q32
    rw [hw]
    simp only [Vector3.length]
    rw [col_dots_length_squared B h (B2.get_column 1 - B.get_column 1)]
    calc Real.sqrt ((B2.get_column 1 - B.get_column 1).length_squared)
        ≤ Real.sqrt (1 / 100) := Real.sqrt_le_sqrt hc1
      _ = 1 / 10 := h10
  · have hw : (B.transposed * B2).get_column 2 - Basis.IDENTITY.get_column 2 =
        Vector3.mk ((B.get_column 0).dot (B2.get_column 2 - B.get_column 2))
          ((B.get_column 1).dot (B2.get_column 2 - B.get_column 2))
          ((B.get_column 2).dot (B2.get_column 2 - B.get_column 2)) := by
      simp only [Basis.mul_def, Basis.transposed, Basis.t_dot_x, Basis.t_dot_y, Basis.t_dot_z,
        Basis.new_from_floats, Basis.get_column, Basis.IDENTITY, Vector3.sub_def, Vector3.dot,
        Vector3.mk.injEq]
      refine ⟨?_, ?_, ?_⟩
      · linear_combination q13
      · linear_combination q23
      · linear_combination q33
    rw [hw]
    simp only [Vector3.length]
    rw [col_dots_length_squared B h (B2.get_column 2 - B.get_column 2)]
    calc Real.sqrt ((B2.get_column 2 - B.get_column 2).length_squared)
        ≤ Real.sqrt (1 / 100) := Real.sqrt_le_sqrt hc2
      _ = 1 / 10 := h10

/-- Squared triangle bound: the square of a sum is at most twice the sum of
the squares. -/
theorem two_sq_bound (a b A B : ℝ) (ha : a * a ≤ A) (hb : b * b ≤ B) :
    (a + b) * (a + b) ≤ 2 * A + 2 * B := by
  nlinarith [sq_nonneg (a - b)]

/-- Generic gimbal-lock column bound: a column of the re-encoded matrix whose
entries are `(small*K, u/r, v/r)` against original entries `(0, u2, v2)` with
`u2, v2` within `2e-5` of `u, v` and `r*r = u*u + v*v` close to 1 stays within
squared distance `1/100`. -/
theorem lock_col_bound (c2 u v u2 v2 r K : ℝ)
    (hc2 : 0 ≤ c2) (hc2e : c2 ≤ 2 / 100000)
    (hrr : r * r = u * u + v * v)
    (hrlow : 1 - c2 ≤ r * r) (hr1 : r ≤ 1) (hrpos : 0 < r)
    (hK : K * K ≤ 1)
    (hu : (u - u2) * (u - u2) ≤ (2 / 100000) * (2 / 100000))
    (hv : (v - v2) * (v - v2) ≤ (2 / 100000) * (2 / 100000)) :
    c2 * (K * K) + (u / r - u2) * (u / r - u2) + (v / r - v2) * (v / r - v2) ≤ 1 / 100 := by
  have hrne : r ≠ 0 := hrpos.ne'
  have htr : u / r * r = u := div_mul_cancel₀ u hrne
  have hsr : v / r * r = v := div_mul_cancel₀ v hrne
  set t := u / r with hta
  set w := v / r with hwa
  have hts : t * t + w * w = 1 := by
    have hmm : (t * t + w * w) * (r * r) = 1 * (r * r) := by
      calc (t * t + w * w) * (r * r) = (t * r) * (t * r) + (w * r) * (w * r) := by ring
        _ = u * u + v * v := by rw [htr, hsr]
        _ = r * r := hrr.symm
        _ = 1 * (r * r) := by ring
    exact mul_right_cancel₀ (by positivity) hmm
  have h1r : 1 - r ≤ c2 := by nlinarith
  have hrn : 0 ≤ 1 - r := by linarith
  have ht1 : t * t ≤ 1 := by nlinarith [sq_nonneg w]
  have hw1 : w * w ≤ 1 := by nlinarith [sq_nonneg t]
  have h1r2 : (1 - r) * (1 - r) ≤ c2 * c2 := mul_self_le_mul_self hrn h1r
  have htu0 : t - u = t * (1 - r) := by rw [← htr]; ring
  have hwv0 : w - v = w * (1 - r) := by rw [← hsr]; ring
  have htu : (t - u) * (t - u) ≤ c2 * c2 := by
    rw [htu0]
    calc t * (1 - r) * (t * (1 - r)) = (t * t) * ((1 - r) * (1 - r)) := by ring
      _ ≤ 1 * ((1 - r) * (1 - r)) :=
        mul_le_mul_of_nonneg_right ht1 (mul_self_nonneg (1 - r))
      _ = (1 - r) * (1 - r) := one_mul _
      _ ≤ c2 * c2 := h1r2
  have hwv : (w - v) * (w - v) ≤ c2 * c2 := by
    rw [hwv0]
    calc w * (1 - r) * (w * (1 - r)) = (w * w) * ((1 - r) * (1 - r)) := by ring
      _ ≤ 1 * ((1 - r) * (1 - r)) :=
        mul_le_mul_of_nonneg_right hw1 (mul_self_nonneg (1 - r))
      _ = (1 - r) * (1 - r) := one_mul _
      _ ≤ c2 * c2 := h1r2
  have hcK : c2 * (K * K) ≤ c2 := by nlinarith [mul_nonneg hc2 (sub_nonneg.mpr hK)]
  have hc2sq : c2 * c2 ≤ (2 / 100000) * (2 / 100000) := by nlinarith
  have hbig1 : (t - u2) * (t - u2) ≤ 2 * (c2 * c2) + 2 * ((2 / 100000) * (2 / 100000)) := by
    have h2 := two_sq_bound (t - u) (u - u2) (c2 * c2) ((2 / 100000) * (2 / 100000)) htu hu
    calc (t - u2) * (t - u2) = ((t - u) + (u - u2)) * ((t - u) + (u - u2)) := by ring
      _ ≤ 2 * (c2 * c2) + 2 * ((2 / 100000) * (2 / 100000)) := h2
  have hbig2 : (w - v2) * (w - v2) ≤ 2 * (c2 * c2) + 2 * ((2 / 100000) * (2 / 100000)) := by
    have h2 := two_sq_bound (w - v) (v - v2) (c2 * c2) ((2 / 100000) * (2 / 100000)) hwv hv
    calc (w - v2) * (w - v2) = ((w - v) + (v - v2)) * ((w - v) + (v - v2)) := by ring
      _ ≤ 2 * (c2 * c2) + 2 * ((2 / 100000) * (2 / 100000)) := h2
  have hfin : c2 * (K * K) + (t - u2) * (t - u2) + (w - v2) * (w - v2) ≤
      2 / 100000 + 4 * (2 / 100000) * (2 / 100000) + 4 * (2 / 100000) * (2 / 100000) := by
    linarith [hcK, hbig1, hbig2, hc2sq, hc2e]
  calc c2 * (K * K) + (t - u2) * (t - u2) + (w - v2) * (w - v2) ≤
      2 / 100000 + 4 * (2 / 100000) * (2 / 100000) + 4 * (2 / 100000) * (2 / 100000) := hfin
    _ ≤ 1 / 100 := by norm_num

/-- Completion identities for a block-diagonal orthonormal matrix with
determinant 1: the remaining row is determined. -/
theorem pure_mid_completion (a c p q : ℝ) (hr : a * a + c * c = 1)
    (hdot : a * p + c * q = 0) (hdet : a * q - c * p = 1) : q = a ∧ p = -c := by
  constructor
  · linear_combination a * hdet + c * hdot - q * hr
  · linear_combination a * hdot - c * hdet - p * hr

/-- Squared length of a self-difference vanishes. -/
theorem sub_self_length_squared (w : Vector3) : (w - w).length_squared = 0 := by
  simp [Vector3.sub_def, Vector3.length_squared]

set_option maxHeartbeats 2000000 in
/-- Euler round-trip column bounds for the XYZ order. -/
theorem roundtrip_cols_XYZ (cx sx cy sy cz sz : ℝ) (B : Basis)
    (hB : B = Basis.new_from_floats (cy * cz) (-(cy * sz)) sy
      (cx * sz + sx * sy * cz) (cx * cz - sx * sy * sz) (-(sx * cy))
      (sx * sz - cx * sy * cz) (sx * cz + cx * sy * sz) (cx * cy))
    (hpx : sx * sx + cx * cx = 1) (hpy : sy * sy + cy * cy = 1)
    (hpz : sz * sz + cz * cz = 1) :
    ((Basis.set_euler (B.get_euler (some EulerOrder.XYZ)) EulerOrder.XYZ).get_column 0 -
        B.get_column 0).length_squared ≤ 1 / 100 ∧
      ((Basis.set_euler (B.get_euler (some EulerOrder.XYZ)) EulerOrder.XYZ).get_column 1 -
        B.get_column 1).length_squared ≤ 1 / 100 ∧
      ((Basis.set_euler (B.get_euler (some EulerOrder.XYZ)) EulerOrder.XYZ).get_column 2 -
        B.get_column 2).length_squared ≤ 1 / 100 := by
  subst hB
  have heps : CMP_EPSILON = 1 / 100000 := rfl
  have heps2 : CMP_EPSILON * CMP_EPSILON = 1 / 10000000000 := by rw [heps]; norm_num
  have hsy1 : sy ≤ 1 := by nlinarith [mul_self_nonneg cy, mul_self_nonneg (sy - 1)]
  have hsyn : -1 ≤ sy := by nlinarith [mul_self_nonneg cy, mul_self_nonneg (sy + 1)]
  have hsz1 : sz * sz ≤ 1 := by nlinarith [mul_self_nonneg cz]
  by_cases h1 : sy < 1 - CMP_EPSILON
  · by_cases h2 : -(1 - CMP_EPSILON) < sy
    · -- regular zone
      have hprod : 0 < (1 - CMP_EPSILON - sy) * (sy + (1 - CMP_EPSILON)) :=
        mul_pos (by linarith) (by linarith)
      have hcypos : 0 < cy * cy := by linarith only [hprod, heps, heps2, hpy]
      have hS1v : cx * cy * (cx * cy) + sx * cy * (sx * cy) = cy * cy := by
        linear_combination (cy * cy) * hpx
      have hS1pos : 0 < cx * cy * (cx * cy) + sx * cy * (sx * cy) := by
        rw [hS1v]; exact hcypos
      obtain ⟨hc1, hs1⟩ := cos_sin_atan2 (sx * cy) (cx * cy) hS1pos
      set r1 := Real.sqrt (cx * cy * (cx * cy) + sx * cy * (sx * cy)) with hr1d
      have hr1sq : r1 * r1 = cy * cy := by
        rw [hr1d, Real.mul_self_sqrt hS1pos.le]; exact hS1v
      have hr1pos : 0 < r1 := by rw [hr1d]; exact Real.sqrt_pos.mpr hS1pos
      have hq1 : cy / r1 * (cy / r1) = 1 := by
        rw [div_mul_div_comm, ← hr1sq]
        exact div_self (by positivity)
      have hca : Real.cos (atan2 (sx * cy) (cx * cy)) = cx * (cy / r1) := by
        rw [hc1]; ring
      have hsa : Real.sin (atan2 (sx * cy) (cx * cy)) = sx * (cy / r1) := by
        rw [hs1]; ring
      have hmids : Real.sin (Real.arcsin sy) = sy := Real.sin_arcsin hsyn hsy1
      have hmidc : Real.cos (Real.arcsin sy) = cy * (cy / r1) := by
        rw [Real.cos_arcsin]
        have hnn : 0 ≤ cy * (cy / r1) := by
          have hh : cy * (cy / r1) = cy * cy / r1 := by ring
          rw [hh]; positivity
        refine eq_of_mul_self_eq _ _ (Real.sqrt_nonneg _) hnn ?_
        rw [Real.mul_self_sqrt (by linarith only [hpy, mul_self_nonneg cy] : (0:ℝ) ≤ 1 - sy ^ 2)]
        linear_combination (-(cy * cy)) * hq1 - hpy
      by_cases h3 : cx * sz + sx * sy * cz = 0 ∧ -(cy * sz) = 0 ∧ -(sx * cy) = 0 ∧
          sx * cz + cx * sy * sz = 0 ∧ cx * cz - sx * sy * sz = 1
      · -- special pure-Y branch
        have hget : Basis.get_euler (Basis.new_from_floats (cy * cz) (-(cy * sz)) sy
            (cx * sz + sx * sy * cz) (cx * cz - sx * sy * sz) (-(sx * cy))
            (sx * sz - cx * sy * cz) (sx * cz + cx * sy * sz) (cx * cy))
            (some EulerOrder.XYZ) = ⟨0, atan2 sy (cy * cz), 0⟩ := by
          simp only [Basis.get_euler, Option.getD, Basis.new_from_floats]
          rw [if_pos h1, if_pos h2, if_pos h3]
        obtain ⟨h31, h32, h33, h34, h35⟩ := h3
        have hcysz : cy * sz = 0 := neg_eq_zero.mp h32
        have hsxcy : sx * cy = 0 := neg_eq_zero.mp h33
        rw [hget]
        have hrv : cy * cz * (cy * cz) + sy * sy = 1 := by
          linear_combination hpy + (cy * cy) * hpz - (cy * sz) * hcysz
        have hSpos : 0 < cy * cz * (cy * cz) + sy * sy := by rw [hrv]; norm_num
        obtain ⟨hcY, hsY⟩ := cos_sin_atan2 sy (cy * cz) hSpos
        have hrone : Real.sqrt (cy * cz * (cy * cz) + sy * sy) = 1 := by
          rw [hrv, Real.sqrt_one]
        rw [hrone, div_one] at hcY
        rw [hrone, div_one] at hsY
        have hdot : cy * cz * (sx * sz - cx * sy * cz) + sy * (cx * cy) = 0 := by
          linear_combination (cy * sz) * h34 - (cx * sy * cy) * hpz
        have hdet1 : cy * cz * (cx * cy) - sy * (sx * sz - cx * sy * cz) = 1 := by
          linear_combination h35 + (cx * cz) * hpy
        obtain ⟨hq0, hp0⟩ := pure_mid_completion (cy * cz) sy (sx * sz - cx * sy * cz)
          (cx * cy) hrv hdot hdet1
        have hBB : Basis.set_euler ⟨0, atan2 sy (cy * cz), 0⟩ EulerOrder.XYZ =
            Basis.new_from_floats (cy * cz) (-(cy * sz)) sy
              (cx * sz + sx * sy * cz) (cx * cz - sx * sy * sz) (-(sx * cy))
              (sx * sz - cx * sy * cz) (sx * cz + cx * sy * sz) (cx * cy) := by
          rw [set_euler_XYZ_eq, hcY, hsY, Real.cos_zero, Real.sin_zero]
          simp only [Basis.new_from_floats, Basis.mk.injEq, Vector3.mk.injEq]
          refine ⟨⟨?_, ?_, ?_⟩, ⟨?_, ?_, ?_⟩, ?_, ?_, ?_⟩
          · ring
          · linear_combination hcysz
          · ring
          · linear_combination -h31
          · linear_combination -h35
          · linear_combination hsxcy
          · linear_combination -hp0
          · linear_combination -h34
          · linear_combination -hq0
        rw [hBB]
        exact ⟨by rw [sub_self_length_squared]; norm_num,
          by rw [sub_self_length_squared]; norm_num,
          by rw [sub_self_length_squared]; norm_num⟩
      · -- generic regular branch
        have hget : Basis.get_euler (Basis.new_from_floats (cy * cz) (-(cy * sz)) sy
            (cx * sz + sx * sy * cz) (cx * cz - sx * sy * sz) (-(sx * cy))
            (sx * sz - cx * sy * cz) (sx * cz + cx * sy * sz) (cx * cy))
            (some EulerOrder.XYZ) =
            ⟨atan2 (sx * cy) (cx * cy), Real.arcsin sy, atan2 (cy * sz) (cy * cz)⟩ := by
          simp only [Basis.get_euler, Option.getD, Basis.new_from_floats]
          rw [if_pos h1, if_pos h2, if_neg h3]
          simp only [neg_neg]
        rw [hget]
        have hS3v : cy * cz * (cy * cz) + cy * sz * (cy * sz) = cy * cy := by
          linear_combination (cy * cy) * hpz
        have hS3pos : 0 < cy * cz * (cy * cz) + cy * sz * (cy * sz) := by
          rw [hS3v]; exact hcypos
        obtain ⟨hc3, hs3⟩ := cos_sin_atan2 (cy * sz) (cy * cz) hS3pos
        set r3 := Real.sqrt (cy * cz * (cy * cz) + cy * sz * (cy * sz)) with hr3d
        have hr3sq : r3 * r3 = cy * cy := by
          rw [hr3d, Real.mul_self_sqrt hS3pos.le]; exact hS3v
        have hr3pos : 0 < r3 := by rw [hr3d]; exact Real.sqrt_pos.mpr hS3pos
        have hq3 : cy / r3 * (cy / r3) = 1 := by
          rw [div_mul_div_comm, ← hr3sq]
          exact div_self (by positivity)
        have hcg : Real.cos (atan2 (cy * sz) (cy * cz)) = cz * (cy / r3) := by
          rw [hc3]; ring
        have hsg : Real.sin (atan2 (cy * sz) (cy * cz)) = sz * (cy / r3) := by
          rw [hs3]; ring
        have hr13 : r1 * r3 = cy * cy := by
          have hsq : r1 * r3 * (r1 * r3) = cy * cy * (cy * cy) := by
            calc r1 * r3 * (r1 * r3) = (r1 * r1) * (r3 * r3) := by ring
              _ = cy * cy * (cy * cy) := by rw [hr1sq, hr3sq]
          exact eq_of_mul_self_eq _ _ (by positivity) (mul_self_nonneg cy) hsq
        have hq13 : cy / r1 * (cy / r3) = 1 := by
          rw [div_mul_div_comm, ← hr13]
          exact div_self (by positivity)
        have hBB : Basis.set_euler ⟨atan2 (sx * cy) (cx * cy), Real.arcsin sy,
            atan2 (cy * sz) (cy * cz)⟩ EulerOrder.XYZ =
            Basis.new_from_floats (cy * cz) (-(cy * sz)) sy
              (cx * sz + sx * sy * cz) (cx * cz - sx * sy * sz) (-(sx * cy))
              (sx * sz - cx * sy * cz) (sx * cz + cx * sy * sz) (cx * cy) := by
          rw [set_euler_XYZ_eq, hca, hsa, hcg, hsg, hmidc, hmids]
          simp only [Basis.new_from_floats, Basis.mk.injEq, Vector3.mk.injEq]
          refine ⟨⟨?_, ?_, ?_⟩, ⟨?_, ?_, ?_⟩, ?_, ?_, ?_⟩
          · linear_combination (cy * cz) * hq13
          · linear_combination (-(cy * sz)) * hq13
          · ring
          · linear_combination (cx * sz + sx * sy * cz) * hq13
          · linear_combination (cx * cz - sx * sy * sz) * hq13
          · linear_combination (-(sx * cy)) * hq1
          · linear_combination (sx * sz - cx * sy * cz) * hq13
          · linear_combination (sx * cz + cx * sy * sz) * hq13
          · linear_combination (cx * cy) * hq1
        rw [hBB]
        exact ⟨by rw [sub_self_length_squared]; norm_num,
          by rw [sub_self_length_squared]; norm_num,
          by rw [sub_self_length_squared]; norm_num⟩
    · -- negative gimbal lock: sy close to -1
      have h2' : sy ≤ -(1 - CMP_EPSILON) := not_lt.mp h2
      have ha1 : 1 + sy ≤ 1 / 100000 := by linarith only [h2', heps]
      have ha3 : 0 ≤ 1 + sy := by linarith only [hsyn]
      have hprod : (1 + sy) * (1 - sy) ≤ (1 / 100000) * 2 :=
        mul_le_mul ha1 (by linarith only [hsyn]) (by linarith only [hsy1]) (by norm_num)
      have hcy2 : cy * cy ≤ 2 / 100000 := by linarith only [hprod, hpy]
      have hSv : (cx * cz - sx * sy * sz) * (cx * cz - sx * sy * sz) +
          (sx * cz + cx * sy * sz) * (sx * cz + cx * sy * sz) = 1 - sz * sz * (cy * cy) := by
        linear_combination (cz * cz + sy * sy * (sz * sz)) * hpx + (sz * sz) * hpy + hpz
      have hszcy : sz * sz * (cy * cy) ≤ cy * cy := by
        linarith only [mul_nonneg (by linarith only [hsz1] : (0:ℝ) ≤ 1 - sz * sz)
          (mul_self_nonneg cy)]
      have hSpos : 0 < (cx * cz - sx * sy * sz) * (cx * cz - sx * sy * sz) +
          (sx * cz + cx * sy * sz) * (sx * cz + cx * sy * sz) := by
        rw [hSv]; linarith only [hszcy, hcy2]
      obtain ⟨hcl, hsl⟩ := cos_sin_atan2 (sx * cz + cx * sy * sz) (cx * cz - sx * sy * sz) hSpos
      set rr := Real.sqrt ((cx * cz - sx * sy * sz) * (cx * cz - sx * sy * sz) +
          (sx * cz + cx * sy * sz) * (sx * cz + cx * sy * sz)) with hrrd
      have hrrsq : rr * rr = (cx * cz - sx * sy * sz) * (cx * cz - sx * sy * sz) +
          (sx * cz + cx * sy * sz) * (sx * cz + cx * sy * sz) := by
        rw [hrrd]; exact Real.mul_self_sqrt hSpos.le
      have hrrpos : 0 < rr := by rw [hrrd]; exact Real.sqrt_pos.mpr hSpos
      have hrr2 : rr * rr = 1 - sz * sz * (cy * cy) := by rw [hrrsq]; exact hSv
      have hrlow : 1 - cy * cy ≤ rr * rr := by rw [hrr2]; linarith only [hszcy]
      have hrr1a : rr * rr ≤ 1 := by
        rw [hrr2]; linarith only [mul_nonneg (mul_self_nonneg sz) (mul_self_nonneg cy)]
      have hrle1 : rr ≤ 1 := by linarith only [hrr1a, sq_nonneg (rr - 1)]
      have hget : Basis.get_euler (Basis.new_from_floats (cy * cz) (-(cy * sz)) sy
          (cx * sz + sx * sy * cz) (cx * cz - sx * sy * sz) (-(sx * cy))
          (sx * sz - cx * sy * cz) (sx * cz + cx * sy * sz) (cx * cy))
          (some EulerOrder.XYZ) =
          ⟨atan2 (sx * cz + cx * sy * sz) (cx * cz - sx * sy * sz), -(Real.pi / 2), 0⟩ := by
        simp only [Basis.get_euler, Option.getD, Basis.new_from_floats]
        rw [if_pos h1, if_neg h2]
      rw [hget, set_euler_XYZ_eq, hcl, hsl, Real.cos_neg, Real.sin_neg,
        Real.cos_pi_div_two, Real.sin_pi_div_two, Real.cos_zero, Real.sin_zero]
      have hcs1 : (cx * cz - sx * sz) * (cx * cz - sx * sz) ≤ 1 := by
        have hid0 : (cx * cz - sx * sz) * (cx * cz - sx * sz) + (cx * sz + sx * cz) * (cx * sz + sx * cz) =
            (sx * sx + cx * cx) * (sz * sz + cz * cz) := by ring
        have hprod2 : (sx * sx + cx * cx) * (sz * sz + cz * cz) = 1 := by
          rw [hpx, hpz]; norm_num
        linarith only [hid0, hprod2, mul_self_nonneg (cx * sz + sx * cz)]
      have hcs2 : (sx * cz + cx * sz) * (sx * cz + cx * sz) ≤ 1 := by
        have hid0 : (sx * cz + cx * sz) * (sx * cz + cx * sz) + (sx * sz - cx * cz) * (sx * sz - cx * cz) =
            (sx * sx + cx * cx) * (sz * sz + cz * cz) := by ring
        have hprod2 : (sx * sx + cx * cx) * (sz * sz + cz * cz) = 1 := by
          rw [hpx, hpz]; norm_num
        linarith only [hid0, hprod2, mul_self_nonneg (sx * sz - cx * cz)]
      refine ⟨?_, ?_, ?_⟩
      · simp only [Basis.get_column, Basis.new_from_floats, Vector3.sub_def,
          Vector3.length_squared]
        have hu2 : ((cx * cz - sx * sy * sz) - (sx * sz - cx * sy * cz)) *
            ((cx * cz - sx * sy * sz) - (sx * sz - cx * sy * cz)) ≤
            (2 / 100000) * (2 / 100000) := by
          have hfac : (cx * cz - sx * sy * sz) - (sx * sz - cx * sy * cz) =
              (1 + sy) * (cx * cz - sx * sz) := by ring
          rw [hfac]
          calc (1 + sy) * (cx * cz - sx * sz) * ((1 + sy) * (cx * cz - sx * sz)) =
              ((1 + sy) * (1 + sy)) * ((cx * cz - sx * sz) * (cx * cz - sx * sz)) := by ring
            _ ≤ ((1 / 100000) * (1 / 100000)) * 1 :=
              mul_le_mul (mul_self_le_mul_self ha3 ha1) hcs1 (mul_self_nonneg _) (by norm_num)
            _ ≤ (2 / 100000) * (2 / 100000) := by norm_num
        have hv2 : ((sx * cz + cx * sy * sz) - (-(cx * sz + sx * sy * cz))) *
            ((sx * cz + cx * sy * sz) - (-(cx * sz + sx * sy * cz))) ≤
            (2 / 100000) * (2 / 100000) := by
          have hfac : (sx * cz + cx * sy * sz) - (-(cx * sz + sx * sy * cz)) =
              (1 + sy) * (sx * cz + cx * sz) := by ring
          rw [hfac]
          calc (1 + sy) * (sx * cz + cx * sz) * ((1 + sy) * (sx * cz + cx * sz)) =
              ((1 + sy) * (1 + sy)) * ((sx * cz + cx * sz) * (sx * cz + cx * sz)) := by ring
            _ ≤ ((1 / 100000) * (1 / 100000)) * 1 :=
              mul_le_mul (mul_self_le_mul_self ha3 ha1) hcs2 (mul_self_nonneg _) (by norm_num)
            _ ≤ (2 / 100000) * (2 / 100000) := by norm_num
        have hlock := lock_col_bound (cy * cy) (cx * cz - sx * sy * sz)
          (sx * cz + cx * sy * sz) (sx * sz - cx * sy * cz) (-(cx * sz + sx * sy * cz)) rr cz
          (mul_self_nonneg cy) hcy2 hrrsq hrlow hrle1 hrrpos
          (by linarith only [hpz, mul_self_nonneg sz] : cz * cz ≤ 1) hu2 hv2
        refine le_trans (le_of_eq ?_) hlock
        ring
      · simp only [Basis.get_column, Basis.new_from_floats, Vector3.sub_def,
          Vector3.length_squared]
        have hu0 : ((cx * cz - sx * sy * sz) - (cx * cz - sx * sy * sz)) *
            ((cx * cz - sx * sy * sz) - (cx * cz - sx * sy * sz)) ≤
            (2 / 100000) * (2 / 100000) := by
          have hz : ((cx * cz - sx * sy * sz) - (cx * cz - sx * sy * sz)) *
              ((cx * cz - sx * sy * sz) - (cx * cz - sx * sy * sz)) = 0 := by ring
          rw [hz]; norm_num
        have hv0 : ((sx * cz + cx * sy * sz) - (sx * cz + cx * sy * sz)) *
            ((sx * cz + cx * sy * sz) - (sx * cz + cx * sy * sz)) ≤
            (2 / 100000) * (2 / 100000) := by
          have hz : ((sx * cz + cx * sy * sz) - (sx * cz + cx * sy * sz)) *
              ((sx * cz + cx * sy * sz) - (sx * cz + cx * sy * sz)) = 0 := by ring
          rw [hz]; norm_num
        have hlock := lock_col_bound (cy * cy) (cx * cz - sx * sy * sz)
          (sx * cz + cx * sy * sz) (cx * cz - sx * sy * sz) (sx * cz + cx * sy * sz) rr sz
          (mul_self_nonneg cy) hcy2 hrrsq hrlow hrle1 hrrpos hsz1 hu0 hv0
        refine le_trans (le_of_eq ?_) hlock
        ring
      · simp only [Basis.get_column, Basis.new_from_floats, Vector3.sub_def,
          Vector3.length_squared]
        have hd2 : (1 + sy) * (1 + sy) ≤ (1 / 100000) * (1 / 100000) :=
          mul_self_le_mul_self ha3 ha1
        have hxx : sx * cy * (sx * cy) + cx * cy * (cx * cy) = cy * cy := by
          linear_combination (cy * cy) * hpx
        linarith only [hd2, hxx, hcy2]
  · -- positive gimbal lock: sy close to 1
    have h1' : 1 - CMP_EPSILON ≤ sy := not_lt.mp h1
    have ha1 : 1 - sy ≤ 1 / 100000 := by linarith only [h1', heps]
    have ha3 : 0 ≤ 1 - sy := by linarith only [hsy1]
    have hprod : (1 - sy) * (1 + sy) ≤ (1 / 100000) * 2 :=
      mul_le_mul ha1 (by linarith only [hsy1]) (by linarith only [hsyn]) (by norm_num)
    have hcy2 : cy * cy ≤ 2 / 100000 := by linarith only [hprod, hpy]
    have hSv : (cx * cz - sx * sy * sz) * (cx * cz - sx * sy * sz) +
        (sx * cz + cx * sy * sz) * (sx * cz + cx * sy * sz) = 1 - sz * sz * (cy * cy) := by
      linear_combination (cz * cz + sy * sy * (sz * sz)) * hpx + (sz * sz) * hpy + hpz
    have hszcy : sz * sz * (cy * cy) ≤ cy * cy := by
      linarith only [mul_nonneg (by linarith only [hsz1] : (0:ℝ) ≤ 1 - sz * sz)
        (mul_self_nonneg cy)]
    have hSpos : 0 < (cx * cz - sx * sy * sz) * (cx * cz - sx * sy * sz) +
        (sx * cz + cx * sy * sz) * (sx * cz + cx * sy * sz) := by
      rw [hSv]; linarith only [hszcy, hcy2]
    obtain ⟨hcl, hsl⟩ := cos_sin_atan2 (sx * cz + cx * sy * sz) (cx * cz - sx * sy * sz) hSpos
    set rr := Real.sqrt ((cx * cz - sx * sy * sz) * (cx * cz - sx * sy * sz) +
        (sx * cz + cx * sy * sz) * (sx * cz + cx * sy * sz)) with hrrd
    have hrrsq : rr * rr = (cx * cz - sx * sy * sz) * (cx * cz - sx * sy * sz) +
        (sx * cz + cx * sy * sz) * (sx * cz + cx * sy * sz) := by
      rw [hrrd]; exact Real.mul_self_sqrt hSpos.le
    have hrrpos : 0 < rr := by rw [hrrd]; exact Real.sqrt_pos.mpr hSpos
    have hrr2 : rr * rr = 1 - sz * sz * (cy * cy) := by rw [hrrsq]; exact hSv
    have hrlow : 1 - cy * cy ≤ rr * rr := by rw [hrr2]; linarith only [hszcy]
    have hrr1a : rr * rr ≤ 1 := by
      rw [hrr2]; linarith only [mul_nonneg (mul_self_nonneg sz) (mul_self_nonneg cy)]
    have hrle1 : rr ≤ 1 := by linarith only [hrr1a, sq_nonneg (rr - 1)]
    have hget : Basis.get_euler (Basis.new_from_floats (cy * cz) (-(cy * sz)) sy
        (cx * sz + sx * sy * cz) (cx * cz - sx * sy * sz) (-(sx * cy))
        (sx * sz - cx * sy * cz) (sx * cz + cx * sy * sz) (cx * cy))
        (some EulerOrder.XYZ) =
        ⟨atan2 (sx * cz + cx * sy * sz) (cx * cz - sx * sy * sz), Real.pi / 2, 0⟩ := by
      simp only [Basis.get_euler, Option.getD, Basis.new_from_floats]
      rw [if_neg h1]
    rw [hget, set_euler_XYZ_eq, hcl, hsl, Real.cos_pi_div_two, Real.sin_pi_div_two,
      Real.cos_zero, Real.sin_zero]
    have hcs1 : (cx * cz + sx * sz) * (cx * cz + sx * sz) ≤ 1 := by
      have hid0 : (cx * cz + sx * sz) * (cx * cz + sx * sz) + (cx * sz - sx * cz) * (cx * sz - sx * cz) =
        (sx * sx + cx * cx) * (sz * sz + cz * cz) := by ring
      have hprod2 : (sx * sx + cx * cx) * (sz * sz + cz * cz) = 1 := by
        rw [hpx, hpz]; norm_num
      linarith only [hid0, hprod2, mul_self_nonneg (cx * sz - sx * cz)]
    have hcs2 : (sx * cz - cx * sz) * (sx * cz - cx * sz) ≤ 1 := by
      have hid0 : (sx * cz - cx * sz) * (sx * cz - cx * sz) + (sx * sz + cx * cz) * (sx * sz + cx * cz) =
        (sx * sx + cx * cx) * (sz * sz + cz * cz) := by ring
      have hprod2 : (sx * sx + cx * cx) * (sz * sz + cz * cz) = 1 := by
        rw [hpx, hpz]; norm_num
      linarith only [hid0, hprod2, mul_self_nonneg (sx * sz + cx * cz)]
    refine ⟨?_, ?_, ?_⟩
    · simp only [Basis.get_column, Basis.new_from_floats, Vector3.sub_def,
        Vector3.length_squared]
      have hu2 : ((cx * cz - sx * sy * sz) - (-(sx * sz - cx * sy * cz))) *
          ((cx * cz - sx * sy * sz) - (-(sx * sz - cx * sy * cz))) ≤
          (2 / 100000) * (2 / 100000) := by
        have hfac : (cx * cz - sx * sy * sz) - (-(sx * sz - cx * sy * cz)) =
            (1 - sy) * (cx * cz + sx * sz) := by ring
        rw [hfac]
        calc (1 - sy) * (cx * cz + sx * sz) * ((1 - sy) * (cx * cz + sx * sz)) =
            ((1 - sy) * (1 - sy)) * ((cx * cz + sx * sz) * (cx * cz + sx * sz)) := by ring
          _ ≤ ((1 / 100000) * (1 / 100000)) * 1 :=
            mul_le_mul (mul_self_le_mul_self ha3 ha1) hcs1 (mul_self_nonneg _) (by norm_num)
          _ ≤ (2 / 100000) * (2 / 100000) := by norm_num
      have hv2 : ((sx * cz + cx * sy * sz) - (cx * sz + sx * sy * cz)) *
          ((sx * cz + cx * sy * sz) - (cx * sz + sx * sy * cz)) ≤
          (2 / 100000) * (2 / 100000) := by
        have hfac : (sx * cz + cx * sy * sz) - (cx * sz + sx * sy * cz) =
            (1 - sy) * (sx * cz - cx * sz) := by ring
        rw [hfac]
        calc (1 - sy) * (sx * cz - cx * sz) * ((1 - sy) * (sx * cz - cx * sz)) =
            ((1 - sy) * (1 - sy)) * ((sx * cz - cx * sz) * (sx * cz - cx * sz)) := by ring
          _ ≤ ((1 / 100000) * (1 / 100000)) * 1 :=
            mul_le_mul (mul_self_le_mul_self ha3 ha1) hcs2 (mul_self_nonneg _) (by norm_num)
          _ ≤ (2 / 100000) * (2 / 100000) := by norm_num
      have hlock := lock_col_bound (cy * cy) (cx * cz - sx * sy * sz)
        (sx * cz + cx * sy * sz) (-(sx * sz - cx * sy * cz)) (cx * sz + sx * sy * cz) rr cz
        (mul_self_nonneg cy) hcy2 hrrsq hrlow hrle1 hrrpos
        (by linarith only [hpz, mul_self_nonneg sz] : cz * cz ≤ 1) hu2 hv2
      refine le_trans (le_of_eq ?_) hlock
      ring
    · simp only [Basis.get_column, Basis.new_from_floats, Vector3.sub_def,
        Vector3.length_squared]
      have hu0 : ((cx * cz - sx * sy * sz) - (cx * cz - sx * sy * sz)) *
          ((cx * cz - sx * sy * sz) - (cx * cz - sx * sy * sz)) ≤
          (2 / 100000) * (2 / 100000) := by
        have hz : ((cx * cz - sx * sy * sz) - (cx * cz - sx * sy * sz)) *
            ((cx * cz - sx * sy * sz) - (cx * cz - sx * sy * sz)) = 0 := by ring
        rw [hz]; norm_num
      have hv0 : ((sx * cz + cx * sy * sz) - (sx * cz + cx * sy * sz)) *
          ((sx * cz + cx * sy * sz) - (sx * cz + cx * sy * sz)) ≤
          (2 / 100000) * (2 / 100000) := by
        have hz : ((sx * cz + cx * sy * sz) - (sx * cz + cx * sy * sz)) *
            ((sx * cz + cx * sy * sz) - (sx * cz + cx * sy * sz)) = 0 := by ring
        rw [hz]; norm_num
      have hlock := lock_col_bound (cy * cy) (cx * cz - sx * sy * sz)
        (sx * cz + cx * sy * sz) (cx * cz - sx * sy * sz) (sx * cz + cx * sy * sz) rr sz
        (mul_self_nonneg cy) hcy2 hrrsq hrlow hrle1 hrrpos hsz1 hu0 hv0
      refine le_trans (le_of_eq ?_) hlock
      ring
    · simp only [Basis.get_column, Basis.new_from_floats, Vector3.sub_def,
        Vector3.length_squared]
      have hd2 : (1 - sy) * (1 - sy) ≤ (1 / 100000) * (1 / 100000) :=
        mul_self_le_mul_self ha3 ha1
      have hxx : sx * cy * (sx * cy) + cx * cy * (cx * cy) = cy * cy := by
        linear_combination (cy * cy) * hpx
      linarith only [hd2, hxx, hcy2]

set_option maxHeartbeats 2000000 in
/-- Euler round-trip column bounds for the XZY order. -/
theorem roundtrip_cols_XZY (cx sx cy sy cz sz : ℝ) (B : Basis)
    (hB : B = Basis.new_from_floats (cz * cy) (-sz) (cz * sy)
      (cx * sz * cy + sx * sy) (cx * cz) (cx * sz * sy - sx * cy)
      (sx * sz * cy - cx * sy) (sx * cz) (sx * sz * sy + cx * cy))
    (hpx : sx * sx + cx * cx = 1) (hpy : sy * sy + cy * cy = 1)
    (hpz : sz * sz + cz * cz = 1) :
    ((Basis.set_euler (B.get_euler (some EulerOrder.XZY)) EulerOrder.XZY).get_column 0 -
        B.get_column 0).length_squared ≤ 1 / 100 ∧
      ((Basis.set_euler (B.get_euler (some EulerOrder.XZY)) EulerOrder.XZY).get_column 1 -
        B.get_column 1).length_squared ≤ 1 / 100 ∧
      ((Basis.set_euler (B.get_euler (some EulerOrder.XZY)) EulerOrder.XZY).get_column 2 -
        B.get_column 2).length_squared ≤ 1 / 100 := by
  subst hB
  have heps : CMP_EPSILON = 1 / 100000 := rfl
  have heps2 : CMP_EPSILON * CMP_EPSILON = 1 / 10000000000 := by rw [heps]; norm_num
  have hsz1 : sz ≤ 1 := by nlinarith [mul_self_nonneg cz, mul_self_nonneg (sz - 1)]
  have hszn : -1 ≤ sz := by nlinarith [mul_self_nonneg cz, mul_self_nonneg (sz + 1)]
  have hsy2 : sy * sy ≤ 1 := by nlinarith [mul_self_nonneg cy]
  by_cases h1 : -sz < 1 - CMP_EPSILON
  · by_cases h2 : -(1 - CMP_EPSILON) < -sz
    · -- regular zone
      have hprod : 0 < (1 - CMP_EPSILON - -sz) * (-sz + (1 - CMP_EPSILON)) :=
        mul_pos (by linarith) (by linarith)
      have hczpos : 0 < cz * cz := by linarith only [hprod, heps, heps2, hpz]
      have hS1v : cx * cz * (cx * cz) + sx * cz * (sx * cz) = cz * cz := by
        linear_combination (cz * cz) * hpx
      have hS1pos : 0 < cx * cz * (cx * cz) + sx * cz * (sx * cz) := by
        rw [hS1v]; exact hczpos
      obtain ⟨hc1, hs1⟩ := cos_sin_atan2 (sx * cz) (cx * cz) hS1pos
      set r1 := Real.sqrt (cx * cz * (cx * cz) + sx * cz * (sx * cz)) with hr1d
      have hr1sq : r1 * r1 = cz * cz := by
        rw [hr1d, Real.mul_self_sqrt hS1pos.le]; exact hS1v
      have hr1pos : 0 < r1 := by rw [hr1d]; exact Real.sqrt_pos.mpr hS1pos
      have hq1 : cz / r1 * (cz / r1) = 1 := by
        rw [div_mul_div_comm, ← hr1sq]
        exact div_self (by positivity)
      have hca : Real.cos (atan2 (sx * cz) (cx * cz)) = cx * (cz / r1) := by
        rw [hc1]; ring
      have hsa : Real.sin (atan2 (sx * cz) (cx * cz)) = sx * (cz / r1) := by
        rw [hs1]; ring
      have hS3v : cz * cy * (cz * cy) + cz * sy * (cz * sy) = cz * cz := by
        linear_combination (cz * cz) * hpy
      have hS3pos : 0 < cz * cy * (cz * cy) + cz * sy * (cz * sy) := by
        rw [hS3v]; exact hczpos
      obtain ⟨hc3, hs3⟩ := cos_sin_atan2 (cz * sy) (cz * cy) hS3pos
      set r3 := Real.sqrt (cz * cy * (cz * cy) + cz * sy * (cz * sy)) with hr3d
      have hr3sq : r3 * r3 = cz * cz := by
        rw [hr3d, Real.mul_self_sqrt hS3pos.le]; exact hS3v
      have hr3pos : 0 < r3 := by rw [hr3d]; exact Real.sqrt_pos.mpr hS3pos
      have hcg : Real.cos (atan2 (cz * sy) (cz * cy)) = cy * (cz / r3) := by
        rw [hc3]; ring
      have hsg : Real.sin (atan2 (cz * sy) (cz * cy)) = sy * (cz / r3) := by
        rw [hs3]; ring
      have hr13 : r1 * r3 = cz * cz := by
        have hsq : r1 * r3 * (r1 * r3) = cz * cz * (cz * cz) := by
          calc r1 * r3 * (r1 * r3) = (r1 * r1) * (r3 * r3) := by ring
            _ = cz * cz * (cz * cz) := by rw [hr1sq, hr3sq]
        exact eq_of_mul_self_eq _ _ (by positivity) (mul_self_nonneg cz) hsq
      have hq13 : cz / r1 * (cz / r3) = 1 := by
        rw [div_mul_div_comm, ← hr13]
        exact div_self (by positivity)
      have hmids : Real.sin (Real.arcsin sz) = sz := Real.sin_arcsin hszn hsz1
      have hmidc : Real.cos (Real.arcsin sz) = cz * (cz / r1) := by
        rw [Real.cos_arcsin]
        have hnn : 0 ≤ cz * (cz / r1) := by
          have hh : cz * (cz / r1) = cz * cz / r1 := by ring
          rw [hh]; positivity
        refine eq_of_mul_self_eq _ _ (Real.sqrt_nonneg _) hnn ?_
        rw [Real.mul_self_sqrt (by linarith only [hpz, mul_self_nonneg cz] : (0:ℝ) ≤ 1 - sz ^ 2)]
        linear_combination (-(cz * cz)) * hq1 - hpz
      have hget : Basis.get_euler (Basis.new_from_floats (cz * cy) (-sz) (cz * sy)
          (cx * sz * cy + sx * sy) (cx * cz) (cx * sz * sy - sx * cy)
          (sx * sz * cy - cx * sy) (sx * cz) (sx * sz * sy + cx * cy))
          (some EulerOrder.XZY) =
          ⟨atan2 (sx * cz) (cx * cz), atan2 (cz * sy) (cz * cy), Real.arcsin sz⟩ := by
        simp only [Basis.get_euler, Option.getD, Basis.new_from_floats]
        rw [if_pos h1, if_pos h2]
        simp only [neg_neg]
      rw [hget]
      have hBB : Basis.set_euler ⟨atan2 (sx * cz) (cx * cz), atan2 (cz * sy) (cz * cy),
          Real.arcsin sz⟩ EulerOrder.XZY =
          Basis.new_from_floats (cz * cy) (-sz) (cz * sy)
            (cx * sz * cy + sx * sy) (cx * cz) (cx * sz * sy - sx * cy)
            (sx * sz * cy - cx * sy) (sx * cz) (sx * sz * sy + cx * cy) := by
        rw [set_euler_XZY_eq, hca, hsa, hcg, hsg, hmidc, hmids]
        simp only [Basis.new_from_floats, Basis.mk.injEq, Vector3.mk.injEq]
        refine ⟨⟨?_, ?_, ?_⟩, ⟨?_, ?_, ?_⟩, ?_, ?_, ?_⟩
        · linear_combination (cz * cy) * hq13
        · ring
        · linear_combination (cz * sy) * hq13
        · linear_combination (cx * sz * cy + sx * sy) * hq13
        · linear_combination (cx * cz) * hq1
        · linear_combination (cx * sz * sy - sx * cy) * hq13
        · linear_combination (sx * sz * cy - cx * sy) * hq13
        · linear_combination (sx * cz) * hq1
        · linear_combination (sx * sz * sy + cx * cy) * hq13
      rw [hBB]
      exact ⟨by rw [sub_self_length_squared]; norm_num,
        by rw [sub_self_length_squared]; norm_num,
        by rw [sub_self_length_squared]; norm_num⟩
    · -- lock with sz close to 1
      have h2' : -sz ≤ -(1 - CMP_EPSILON) := not_lt.mp h2
      have ha1 : 1 - sz ≤ 1 / 100000 := by linarith only [h2', heps]
      have ha3 : 0 ≤ 1 - sz := by linarith only [hsz1]
      have hprod : (1 - sz) * (1 + sz) ≤ (1 / 100000) * 2 :=
        mul_le_mul ha1 (by linarith only [hsz1]) (by linarith only [hszn]) (by norm_num)
      have hcz2 : cz * cz ≤ 2 / 100000 := by linarith only [hprod, hpz]
      have hSv : (sx * sz * sy + cx * cy) * (sx * sz * sy + cx * cy) +
          (cx * sz * sy - sx * cy) * (cx * sz * sy - sx * cy) = 1 - sy * sy * (cz * cz) := by
        linear_combination (sy * sy * (sz * sz) + cy * cy) * hpx + (sy * sy) * hpz + hpy
      have hsycz : sy * sy * (cz * cz) ≤ cz * cz := by
        linarith only [mul_nonneg (by linarith only [hsy2] : (0:ℝ) ≤ 1 - sy * sy)
          (mul_self_nonneg cz)]
      have hSpos : 0 < (sx * sz * sy + cx * cy) * (sx * sz * sy + cx * cy) +
          (cx * sz * sy - sx * cy) * (cx * sz * sy - sx * cy) := by
        rw [hSv]; linarith only [hsycz, hcz2]
      obtain ⟨hcl, hsl⟩ := cos_sin_atan2 (cx * sz * sy - sx * cy) (sx * sz * sy + cx * cy) hSpos
      set rr := Real.sqrt ((sx * sz * sy + cx * cy) * (sx * sz * sy + cx * cy) +
          (cx * sz * sy - sx * cy) * (cx * sz * sy - sx * cy)) with hrrd
      have hrrsq : rr * rr = (sx * sz * sy + cx * cy) * (sx * sz * sy + cx * cy) +
          (cx * sz * sy - sx * cy) * (cx * sz * sy - sx * cy) := by
        rw [hrrd]; exact Real.mul_self_sqrt hSpos.le
      have hrrpos : 0 < rr := by rw [hrrd]; exact Real.sqrt_pos.mpr hSpos
      have hrr2 : rr * rr = 1 - sy * sy * (cz * cz) := by rw [hrrsq]; exact hSv
      have hrlow : 1 - cz * cz ≤ rr * rr := by rw [hrr2]; linarith only [hsycz]
      have hrr1a : rr * rr ≤ 1 := by
        rw [hrr2]; linarith only [mul_nonneg (mul_self_nonneg sy) (mul_self_nonneg cz)]
      have hrle1 : rr ≤ 1 := by linarith only [hrr1a, sq_nonneg (rr - 1)]
      have hget : Basis.get_euler (Basis.new_from_floats (cz * cy) (-sz) (cz * sy)
          (cx * sz * cy + sx * sy) (cx * cz) (cx * sz * sy - sx * cy)
          (sx * sz * cy - cx * sy) (sx * cz) (sx * sz * sy + cx * cy))
          (some EulerOrder.XZY) =
          ⟨-(atan2 (cx * sz * sy - sx * cy) (sx * sz * sy + cx * cy)), 0, Real.pi / 2⟩ := by
        simp only [Basis.get_euler, Option.getD, Basis.new_from_floats]
        rw [if_pos h1, if_neg h2]
      rw [hget, set_euler_XZY_eq]
      simp only [Real.cos_neg, Real.sin_neg]
      rw [hcl, hsl, Real.cos_pi_div_two, Real.sin_pi_div_two, Real.cos_zero, Real.sin_zero]
      have hcs1 : (cx * cy - sx * sy) * (cx * cy - sx * sy) ≤ 1 := by
        have hid0 : (cx * cy - sx * sy) * (cx * cy - sx * sy) +
            (cx * sy + sx * cy) * (cx * sy + sx * cy) =
            (sx * sx + cx * cx) * (sy * sy + cy * cy) := by ring
        have hprod2 : (sx * sx + cx * cx) * (sy * sy + cy * cy) = 1 := by
          rw [hpx, hpy]; norm_num
        linarith only [hid0, hprod2, mul_self_nonneg (cx * sy + sx * cy)]
      have hcs2 : (cx * sy + sx * cy) * (cx * sy + sx * cy) ≤ 1 := by
        have hid0 : (cx * sy + sx * cy) * (cx * sy + sx * cy) +
            (cx * cy - sx * sy) * (cx * cy - sx * sy) =
            (sx * sx + cx * cx) * (sy * sy + cy * cy) := by ring
        have hprod2 : (sx * sx + cx * cx) * (sy * sy + cy * cy) = 1 := by
          rw [hpx, hpy]; norm_num
        linarith only [hid0, hprod2, mul_self_nonneg (cx * cy - sx * sy)]
      refine ⟨?_, ?_, ?_⟩
      · simp only [Basis.get_column, Basis.new_from_floats, Vector3.sub_def,
          Vector3.length_squared]
        have hu2 : ((sx * sz * sy + cx * cy) - (cx * sz * cy + sx * sy)) *
            ((sx * sz * sy + cx * cy) - (cx * sz * cy + sx * sy)) ≤
            (2 / 100000) * (2 / 100000) := by
          have hfac : (sx * sz * sy + cx * cy) - (cx * sz * cy + sx * sy) =
              (1 - sz) * (cx * cy - sx * sy) := by ring
          rw [hfac]
          calc (1 - sz) * (cx * cy - sx * sy) * ((1 - sz) * (cx * cy - sx * sy)) =
              ((1 - sz) * (1 - sz)) * ((cx * cy - sx * sy) * (cx * cy - sx * sy)) := by ring
            _ ≤ ((1 / 100000) * (1 / 100000)) * 1 :=
              mul_le_mul (mul_self_le_mul_self ha3 ha1) hcs1 (mul_self_nonneg _) (by norm_num)
            _ ≤ (2 / 100000) * (2 / 100000) := by norm_num
        have hv2 : ((cx * sz * sy - sx * cy) - (-(sx * sz * cy - cx * sy))) *
            ((cx * sz * sy - sx * cy) - (-(sx * sz * cy - cx * sy))) ≤
            (2 / 100000) * (2 / 100000) := by
          have hfac : (cx * sz * sy - sx * cy) - (-(sx * sz * cy - cx * sy)) =
              -((1 - sz) * (cx * sy + sx * cy)) := by ring
          rw [hfac]
          calc -((1 - sz) * (cx * sy + sx * cy)) * -((1 - sz) * (cx * sy + sx * cy)) =
              ((1 - sz) * (1 - sz)) * ((cx * sy + sx * cy) * (cx * sy + sx * cy)) := by ring
            _ ≤ ((1 / 100000) * (1 / 100000)) * 1 :=
              mul_le_mul (mul_self_le_mul_self ha3 ha1) hcs2 (mul_self_nonneg _) (by norm_num)
            _ ≤ (2 / 100000) * (2 / 100000) := by norm_num
        have hlock := lock_col_bound (cz * cz) (sx * sz * sy + cx * cy)
          (cx * sz * sy - sx * cy) (cx * sz * cy + sx * sy) (-(sx * sz * cy - cx * sy)) rr cy
          (mul_self_nonneg cz) hcz2 hrrsq hrlow hrle1 hrrpos
          (by linarith only [hpy, mul_self_nonneg sy] : cy * cy ≤ 1) hu2 hv2
        refine le_trans (le_of_eq ?_) hlock
        ring
      · simp only [Basis.get_column, Basis.new_from_floats, Vector3.sub_def,
          Vector3.length_squared]
        have hd2 : (1 - sz) * (1 - sz) ≤ (1 / 100000) * (1 / 100000) :=
          mul_self_le_mul_self ha3 ha1
        have hxx : cx * cz * (cx * cz) + sx * cz * (sx * cz) = cz * cz := by
          linear_combination (cz * cz) * hpx
        linarith only [hd2, hxx, hcz2]
      · simp only [Basis.get_column, Basis.new_from_floats, Vector3.sub_def,
          Vector3.length_squared]
        have hu0 : ((sx * sz * sy + cx * cy) - (sx * sz * sy + cx * cy)) *
            ((sx * sz * sy + cx * cy) - (sx * sz * sy + cx * cy)) ≤
            (2 / 100000) * (2 / 100000) := by
          have hz : ((sx * sz * sy + cx * cy) - (sx * sz * sy + cx * cy)) *
              ((sx * sz * sy + cx * cy) - (sx * sz * sy + cx * cy)) = 0 := by ring
          rw [hz]; norm_num
        have hv0 : ((cx * sz * sy - sx * cy) - (cx * sz * sy - sx * cy)) *
            ((cx * sz * sy - sx * cy) - (cx * sz * sy - sx * cy)) ≤
            (2 / 100000) * (2 / 100000) := by
          have hz : ((cx * sz * sy - sx * cy) - (cx * sz * sy - sx * cy)) *
              ((cx * sz * sy - sx * cy) - (cx * sz * sy - sx * cy)) = 0 := by ring
          rw [hz]; norm_num
        have hlock := lock_col_bound (cz * cz) (sx * sz * sy + cx * cy)
          (cx * sz * sy - sx * cy) (sx * sz * sy + cx * cy) (cx * sz * sy - sx * cy) rr sy
          (mul_self_nonneg cz) hcz2 hrrsq hrlow hrle1 hrrpos
          (by linarith only [hpy, mul_self_nonneg cy] : sy * sy ≤ 1) hu0 hv0
        refine le_trans (le_of_eq ?_) hlock
        ring
  · -- lock with sz close to -1
    have h1' : 1 - CMP_EPSILON ≤ -sz := not_lt.mp h1
    have ha1 : 1 + sz ≤ 1 / 100000 := by linarith only [h1', heps]
    have ha3 : 0 ≤ 1 + sz := by linarith only [hszn]
    have hprod : (1 + sz) * (1 - sz) ≤ (1 / 100000) * 2 :=
      mul_le_mul ha1 (by linarith only [hszn]) (by linarith only [hsz1]) (by norm_num)
    have hcz2 : cz * cz ≤ 2 / 100000 := by linarith only [hprod, hpz]
    have hSv : (sx * sz * sy + cx * cy) * (sx * sz * sy + cx * cy) +
        (cx * sz * sy - sx * cy) * (cx * sz * sy - sx * cy) = 1 - sy * sy * (cz * cz) := by
      linear_combination (sy * sy * (sz * sz) + cy * cy) * hpx + (sy * sy) * hpz + hpy
    have hsycz : sy * sy * (cz * cz) ≤ cz * cz := by
      linarith only [mul_nonneg (by linarith only [hsy2] : (0:ℝ) ≤ 1 - sy * sy)
        (mul_self_nonneg cz)]
    have hSpos : 0 < (sx * sz * sy + cx * cy) * (sx * sz * sy + cx * cy) +
        (cx * sz * sy - sx * cy) * (cx * sz * sy - sx * cy) := by
      rw [hSv]; linarith only [hsycz, hcz2]
    obtain ⟨hcl, hsl⟩ := cos_sin_atan2 (cx * sz * sy - sx * cy) (sx * sz * sy + cx * cy) hSpos
    set rr := Real.sqrt ((sx * sz * sy + cx * cy) * (sx * sz * sy + cx * cy) +
        (cx * sz * sy - sx * cy) * (cx * sz * sy - sx * cy)) with hrrd
    have hrrsq : rr * rr = (sx * sz * sy + cx * cy) * (sx * sz * sy + cx * cy) +
        (cx * sz * sy - sx * cy) * (cx * sz * sy - sx * cy) := by
      rw [hrrd]; exact Real.mul_self_sqrt hSpos.le
    have hrrpos : 0 < rr := by rw [hrrd]; exact Real.sqrt_pos.mpr hSpos
    have hrr2 : rr * rr = 1 - sy * sy * (cz * cz) := by rw [hrrsq]; exact hSv
    have hrlow : 1 - cz * cz ≤ rr * rr := by rw [hrr2]; linarith only [hsycz]
    have hrr1a : rr * rr ≤ 1 := by
      rw [hrr2]; linarith only [mul_nonneg (mul_self_nonneg sy) (mul_self_nonneg cz)]
    have hrle1 : rr ≤ 1 := by linarith only [hrr1a, sq_nonneg (rr - 1)]
    have hget : Basis.get_euler (Basis.new_from_floats (cz * cy) (-sz) (cz * sy)
        (cx * sz * cy + sx * sy) (cx * cz) (cx * sz * sy - sx * cy)
        (sx * sz * cy - cx * sy) (sx * cz) (sx * sz * sy + cx * cy))
        (some EulerOrder.XZY) =
        ⟨-(atan2 (cx * sz * sy - sx * cy) (sx * sz * sy + cx * cy)), 0, -(Real.pi / 2)⟩ := by
      simp only [Basis.get_euler, Option.getD, Basis.new_from_floats]
      rw [if_neg h1]
    rw [hget, set_euler_XZY_eq]
    simp only [Real.cos_neg, Real.sin_neg]
    rw [hcl, hsl, Real.cos_pi_div_two, Real.sin_pi_div_two, Real.cos_zero, Real.sin_zero]
    have hcs1 : (sx * sy + cx * cy) * (sx * sy + cx * cy) ≤ 1 := by
      have hid0 : (sx * sy + cx * cy) * (sx * sy + cx * cy) +
          (cx * sy - sx * cy) * (cx * sy - sx * cy) =
          (sx * sx + cx * cx) * (sy * sy + cy * cy) := by ring
      have hprod2 : (sx * sx + cx * cx) * (sy * sy + cy * cy) = 1 := by
        rw [hpx, hpy]; norm_num
      linarith only [hid0, hprod2, mul_self_nonneg (cx * sy - sx * cy)]
    have hcs2 : (cx * sy - sx * cy) * (cx * sy - sx * cy) ≤ 1 := by
      have hid0 : (cx * sy - sx * cy) * (cx * sy - sx * cy) +
          (sx * sy + cx * cy) * (sx * sy + cx * cy) =
          (sx * sx + cx * cx) * (sy * sy + cy * cy) := by ring
      have hprod2 : (sx * sx + cx * cx) * (sy * sy + cy * cy) = 1 := by
        rw [hpx, hpy]; norm_num
      linarith only [hid0, hprod2, mul_self_nonneg (sx * sy + cx * cy)]
    refine ⟨?_, ?_, ?_⟩
    · simp only [Basis.get_column, Basis.new_from_floats, Vector3.sub_def,
        Vector3.length_squared]
      have hu2 : ((sx * sz * sy + cx * cy) - (-(cx * sz * cy + sx * sy))) *
          ((sx * sz * sy + cx * cy) - (-(cx * sz * cy + sx * sy))) ≤
          (2 / 100000) * (2 / 100000) := by
        have hfac : (sx * sz * sy + cx * cy) - (-(cx * sz * cy + sx * sy)) =
            (1 + sz) * (sx * sy + cx * cy) := by ring
        rw [hfac]
        calc (1 + sz) * (sx * sy + cx * cy) * ((1 + sz) * (sx * sy + cx * cy)) =
            ((1 + sz) * (1 + sz)) * ((sx * sy + cx * cy) * (sx * sy + cx * cy)) := by ring
          _ ≤ ((1 / 100000) * (1 / 100000)) * 1 :=
            mul_le_mul (mul_self_le_mul_self ha3 ha1) hcs1 (mul_self_nonneg _) (by norm_num)
          _ ≤ (2 / 100000) * (2 / 100000) := by norm_num
      have hv2 : ((cx * sz * sy - sx * cy) - (sx * sz * cy - cx * sy)) *
          ((cx * sz * sy - sx * cy) - (sx * sz * cy - cx * sy)) ≤
          (2 / 100000) * (2 / 100000) := by
        have hfac : (cx * sz * sy - sx * cy) - (sx * sz * cy - cx * sy) =
            (1 + sz) * (cx * sy - sx * cy) := by ring
        rw [hfac]
        calc (1 + sz) * (cx * sy - sx * cy) * ((1 + sz) * (cx * sy - sx * cy)) =
            ((1 + sz) * (1 + sz)) * ((cx * sy - sx * cy) * (cx * sy - sx * cy)) := by ring
          _ ≤ ((1 / 100000) * (1 / 100000)) * 1 :=
            mul_le_mul (mul_self_le_mul_self ha3 ha1) hcs2 (mul_self_nonneg _) (by norm_num)
          _ ≤ (2 / 100000) * (2 / 100000) := by norm_num
      have hlock := lock_col_bound (cz * cz) (sx * sz * sy + cx * cy)
        (cx * sz * sy - sx * cy) (-(cx * sz * cy + sx * sy)) (sx * sz * cy - cx * sy) rr cy
        (mul_self_nonneg cz) hcz2 hrrsq hrlow hrle1 hrrpos
        (by linarith only [hpy, mul_self_nonneg sy] : cy * cy ≤ 1) hu2 hv2
      refine le_trans (le_of_eq ?_) hlock
      ring
    · simp only [Basis.get_column, Basis.new_from_floats, Vector3.sub_def,
        Vector3.length_squared]
      have hd2 : (1 + sz) * (1 + sz) ≤ (1 / 100000) * (1 / 100000) :=
        mul_self_le_mul_self ha3 ha1
      have hxx : cx * cz * (cx * cz) + sx * cz * (sx * cz) = cz * cz := by
        linear_combination (cz * cz) * hpx
      linarith only [hd2, hxx, hcz2]
    · simp only [Basis.get_column, Basis.new_from_floats, Vector3.sub_def,
        Vector3.length_squared]
      have hu0 : ((sx * sz * sy + cx * cy) - (sx * sz * sy + cx * cy)) *
          ((sx * sz * sy + cx * cy) - (sx * sz * sy + cx * cy)) ≤
          (2 / 100000) * (2 / 100000) := by
        have hz : ((sx * sz * sy + cx * cy) - (sx * sz * sy + cx * cy)) *
            ((sx * sz * sy + cx * cy) - (sx * sz * sy + cx * cy)) = 0 := by ring
        rw [hz]; norm_num
      have hv0 : ((cx * sz * sy - sx * cy) - (cx * sz * sy - sx * cy)) *
          ((cx * sz * sy - sx * cy) - (cx * sz * sy - sx * cy)) ≤
          (2 / 100000) * (2 / 100000) := by
        have hz : ((cx * sz * sy - sx * cy) - (cx * sz * sy - sx * cy)) *
            ((cx * sz * sy - sx * cy) - (cx * sz * sy - sx * cy)) = 0 := by ring
        rw [hz]; norm_num
      have hlock := lock_col_bound (cz * cz) (sx * sz * sy + cx * cy)
        (cx * sz * sy - sx * cy) (sx * sz * sy + cx * cy) (cx * sz * sy - sx * cy) rr sy
        (mul_self_nonneg cz) hcz2 hrrsq hrlow hrle1 hrrpos
        (by linarith only [hpy, mul_self_nonneg cy] : sy * sy ≤ 1) hu0 hv0
      refine le_trans (le_of_eq ?_) hlock
      ring

set_option maxHeartbeats 2000000 in
/-- Euler round-trip column bounds for the YXZ order. -/
theorem roundtrip_cols_YXZ (cx sx cy sy cz sz : ℝ) (B : Basis)
    (hB : B = Basis.new_from_floats (cy * cz + sy * sx * sz) (sy * sx * cz - cy * sz) (sy * cx)
      (cx * sz) (cx * cz) (-sx)
      (cy * sx * sz - sy * cz) (sy * sz + cy * sx * cz) (cy * cx))
    (hpx : sx * sx + cx * cx = 1) (hpy : sy * sy + cy * cy = 1)
    (hpz : sz * sz + cz * cz = 1) :
    ((Basis.set_euler (B.get_euler (some EulerOrder.YXZ)) EulerOrder.YXZ).get_column 0 -
        B.get_column 0).length_squared ≤ 1 / 100 ∧
      ((Basis.set_euler (B.get_euler (some EulerOrder.YXZ)) EulerOrder.YXZ).get_column 1 -
        B.get_column 1).length_squared ≤ 1 / 100 ∧
      ((Basis.set_euler (B.get_euler (some EulerOrder.YXZ)) EulerOrder.YXZ).get_column 2 -
        B.get_column 2).length_squared ≤ 1 / 100 := by
  subst hB
  have heps : CMP_EPSILON = 1 / 100000 := rfl
  have heps2 : CMP_EPSILON * CMP_EPSILON = 1 / 10000000000 := by rw [heps]; norm_num
  have hsx1 : sx ≤ 1 := by nlinarith [mul_self_nonneg cx, mul_self_nonneg (sx - 1)]
  have hsxn : -1 ≤ sx := by nlinarith [mul_self_nonneg cx, mul_self_nonneg (sx + 1)]
  have hsy2 : sy * sy ≤ 1 := by nlinarith [mul_self_nonneg cy]
  by_cases h1 : -sx < 1 - CMP_EPSILON
  · by_cases h2 : -(1 - CMP_EPSILON) < -sx
    · -- regular zone
      have hprod : 0 < (1 - CMP_EPSILON - -sx) * (-sx + (1 - CMP_EPSILON)) :=
        mul_pos (by linarith) (by linarith)
      have hcxpos : 0 < cx * cx := by linarith only [hprod, heps, heps2, hpx]
      have hS1v : cy * cx * (cy * cx) + sy * cx * (sy * cx) = cx * cx := by
        linear_combination (cx * cx) * hpy
      have hS1pos : 0 < cy * cx * (cy * cx) + sy * cx * (sy * cx) := by
        rw [hS1v]; exact hcxpos
      obtain ⟨hc1, hs1⟩ := cos_sin_atan2 (sy * cx) (cy * cx) hS1pos
      set r1 := Real.sqrt (cy * cx * (cy * cx) + sy * cx * (sy * cx)) with hr1d
      have hr1sq : r1 * r1 = cx * cx := by
        rw [hr1d, Real.mul_self_sqrt hS1pos.le]; exact hS1v
      have hr1pos : 0 < r1 := by rw [hr1d]; exact Real.sqrt_pos.mpr hS1pos
      have hq1 : cx / r1 * (cx / r1) = 1 := by
        rw [div_mul_div_comm, ← hr1sq]
        exact div_self (by positivity)
      have hca : Real.cos (atan2 (sy * cx) (cy * cx)) = cy * (cx / r1) := by
        rw [hc1]; ring
      have hsa : Real.sin (atan2 (sy * cx) (cy * cx)) = sy * (cx / r1) := by
        rw [hs1]; ring
      have hS3v : cx * cz * (cx * cz) + cx * sz * (cx * sz) = cx * cx := by
        linear_combination (cx * cx) * hpz
      have hS3pos : 0 < cx * cz * (cx * cz) + cx * sz * (cx * sz) := by
        rw [hS3v]; exact hcxpos
      obtain ⟨hc3, hs3⟩ := cos_sin_atan2 (cx * sz) (cx * cz) hS3pos
      set r3 := Real.sqrt (cx * cz * (cx * cz) + cx * sz * (cx * sz)) with hr3d
      have hr3sq : r3 * r3 = cx * cx := by
        rw [hr3d, Real.mul_self_sqrt hS3pos.le]; exact hS3v
      have hr3pos : 0 < r3 := by rw [hr3d]; exact Real.sqrt_pos.mpr hS3pos
      have hcg : Real.cos (atan2 (cx * sz) (cx * cz)) = cz * (cx / r3) := by
        rw [hc3]; ring
      have hsg : Real.sin (atan2 (cx * sz) (cx * cz)) = sz * (cx / r3) := by
        rw [hs3]; ring
      have hr13 : r1 * r3 = cx * cx := by
        have hsq : r1 * r3 * (r1 * r3) = cx * cx * (cx * cx) := by
          calc r1 * r3 * (r1 * r3) = (r1 * r1) * (r3 * r3) := by ring
            _ = cx * cx * (cx * cx) := by rw [hr1sq, hr3sq]
        exact eq_of_mul_self_eq _ _ (by positivity) (mul_self_nonneg cx) hsq
      have hq13 : cx / r1 * (cx / r3) = 1 := by
        rw [div_mul_div_comm, ← hr13]
        exact div_self (by positivity)
      have hmids : Real.sin (Real.arcsin sx) = sx := Real.sin_arcsin hsxn hsx1
      have hmidc : Real.cos (Real.arcsin sx) = cx * (cx / r1) := by
        rw [Real.cos_arcsin]
        have hnn : 0 ≤ cx * (cx / r1) := by
          have hh : cx * (cx / r1) = cx * cx / r1 := by ring
          rw [hh]; positivity
        refine eq_of_mul_self_eq _ _ (Real.sqrt_nonneg _) hnn ?_
        rw [Real.mul_self_sqrt (by linarith only [hpx, mul_self_nonneg cx] : (0:ℝ) ≤ 1 - sx ^ 2)]
        linear_combination (-(cx * cx)) * hq1 - hpx
      by_cases h3 : cx * sz = 0 ∧ sy * sx * cz - cy * sz = 0 ∧ sy * cx = 0 ∧
          cy * sx * sz - sy * cz = 0 ∧ cy * cz + sy * sx * sz = 1
      · -- special pure-X branch
        have hget : Basis.get_euler (Basis.new_from_floats (cy * cz + sy * sx * sz)
            (sy * sx * cz - cy * sz) (sy * cx) (cx * sz) (cx * cz) (-sx)
            (cy * sx * sz - sy * cz) (sy * sz + cy * sx * cz) (cy * cx))
            (some EulerOrder.YXZ) = ⟨atan2 sx (cx * cz), 0, 0⟩ := by
          simp only [Basis.get_euler, Option.getD, Basis.new_from_floats]
          rw [if_pos h1, if_pos h2, if_pos h3]
          simp only [neg_neg]
        obtain ⟨h31, h32, h33, h34, h35⟩ := h3
        rw [hget]
        have hrv : cx * cz * (cx * cz) + sx * sx = 1 := by
          linear_combination hpx + (cx * cx) * hpz - (cx * sz) * h31
        have hSpos : 0 < cx * cz * (cx * cz) + sx * sx := by rw [hrv]; norm_num
        obtain ⟨hcY, hsY⟩ := cos_sin_atan2 sx (cx * cz) hSpos
        have hrone : Real.sqrt (cx * cz * (cx * cz) + sx * sx) = 1 := by
          rw [hrv, Real.sqrt_one]
        rw [hrone, div_one] at hcY
        rw [hrone, div_one] at hsY
        have hrv' : cx * cz * (cx * cz) + -sx * -sx = 1 := by linear_combination hrv
        have hdot : cx * cz * (sy * sz + cy * sx * cz) + -sx * (cy * cx) = 0 := by
          linear_combination (-(cx * sz)) * h34 + (cy * sx * cx) * hpz
        have hdet1 : cx * cz * (cy * cx) - -sx * (sy * sz + cy * sx * cz) = 1 := by
          linear_combination h35 + (cy * cz) * hpx
        obtain ⟨hq0, hp0⟩ := pure_mid_completion (cx * cz) (-sx) (sy * sz + cy * sx * cz)
          (cy * cx) hrv' hdot hdet1
        have hBB : Basis.set_euler ⟨atan2 sx (cx * cz), 0, 0⟩ EulerOrder.YXZ =
            Basis.new_from_floats (cy * cz + sy * sx * sz) (sy * sx * cz - cy * sz) (sy * cx)
              (cx * sz) (cx * cz) (-sx)
              (cy * sx * sz - sy * cz) (sy * sz + cy * sx * cz) (cy * cx) := by
          rw [set_euler_YXZ_eq, hcY, hsY, Real.cos_zero, Real.sin_zero]
          simp only [Basis.new_from_floats, Basis.mk.injEq, Vector3.mk.injEq]
          refine ⟨⟨?_, ?_, ?_⟩, ⟨?_, ?_, ?_⟩, ?_, ?_, ?_⟩
          · linear_combination -h35
          · linear_combination -h32
          · linear_combination -h33
          · linear_combination -h31
          · ring
          · ring
          · linear_combination -h34
          · linear_combination -hp0
          · linear_combination -hq0
        rw [hBB]
        exact ⟨by rw [sub_self_length_squared]; norm_num,
          by rw [sub_self_length_squared]; norm_num,
          by rw [sub_self_length_squared]; norm_num⟩
      · -- generic regular branch
        have hget : Basis.get_euler (Basis.new_from_floats (cy * cz + sy * sx * sz)
            (sy * sx * cz - cy * sz) (sy * cx) (cx * sz) (cx * cz) (-sx)
            (cy * sx * sz - sy * cz) (sy * sz + cy * sx * cz) (cy * cx))
            (some EulerOrder.YXZ) =
            ⟨Real.arcsin sx, atan2 (sy * cx) (cy * cx), atan2 (cx * sz) (cx * cz)⟩ := by
          simp only [Basis.get_euler, Option.getD, Basis.new_from_floats]
          rw [if_pos h1, if_pos h2, if_neg h3]
          simp only [neg_neg]
        rw [hget]
        have hBB : Basis.set_euler ⟨Real.arcsin sx, atan2 (sy * cx) (cy * cx),
            atan2 (cx * sz) (cx * cz)⟩ EulerOrder.YXZ =
            Basis.new_from_floats (cy * cz + sy * sx * sz) (sy * sx * cz - cy * sz) (sy * cx)
              (cx * sz) (cx * cz) (-sx)
              (cy * sx * sz - sy * cz) (sy * sz + cy * sx * cz) (cy * cx) := by
          rw [set_euler_YXZ_eq, hca, hsa, hcg, hsg, hmidc, hmids]
          simp only [Basis.new_from_floats, Basis.mk.injEq, Vector3.mk.injEq]
          refine ⟨⟨?_, ?_, ?_⟩, ⟨?_, ?_, ?_⟩, ?_, ?_, ?_⟩
          · linear_combination (cy * cz + sy * sx * sz) * hq13
          · linear_combination (sy * sx * cz - cy * sz) * hq13
          · linear_combination (sy * cx) * hq1
          · linear_combination (cx * sz) * hq13
          · linear_combination (cx * cz) * hq13
          · ring
          · linear_combination (cy * sx * sz - sy * cz) * hq13
          · linear_combination (sy * sz + cy * sx * cz) * hq13
          · linear_combination (cy * cx) * hq1
        rw [hBB]
        exact ⟨by rw [sub_self_length_squared]; norm_num,
          by rw [sub_self_length_squared]; norm_num,
          by rw [sub_self_length_squared]; norm_num⟩
    · -- lock with sx close to 1
      have h2' : -sx ≤ -(1 - CMP_EPSILON) := not_lt.mp h2
      have ha1 : 1 - sx ≤ 1 / 100000 := by linarith only [h2', heps]
      have ha3 : 0 ≤ 1 - sx := by linarith only [hsx1]
      have hprod : (1 - sx) * (1 + sx) ≤ (1 / 100000) * 2 :=
        mul_le_mul ha1 (by linarith only [hsx1]) (by linarith only [hsxn]) (by norm_num)
      have hcx2 : cx * cx ≤ 2 / 100000 := by linarith only [hprod, hpx]
      have hSv : (cy * cz + sy * sx * sz) * (cy * cz + sy * sx * sz) +
          (sy * sx * cz - cy * sz) * (sy * sx * cz - cy * sz) = 1 - sy * sy * (cx * cx) := by
        linear_combination (cy * cy + sy * sy * (sx * sx)) * hpz + (sy * sy) * hpx + hpy
      have hsycx : sy * sy * (cx * cx) ≤ cx * cx := by
        linarith only [mul_nonneg (by linarith only [hsy2] : (0:ℝ) ≤ 1 - sy * sy)
          (mul_self_nonneg cx)]
      have hSpos : 0 < (cy * cz + sy * sx * sz) * (cy * cz + sy * sx * sz) +
          (sy * sx * cz - cy * sz) * (sy * sx * cz - cy * sz) := by
        rw [hSv]; linarith only [hsycx, hcx2]
      obtain ⟨hcl, hsl⟩ := cos_sin_atan2 (sy * sx * cz - cy * sz) (cy * cz + sy * sx * sz) hSpos
      set rr := Real.sqrt ((cy * cz + sy * sx * sz) * (cy * cz + sy * sx * sz) +
          (sy * sx * cz - cy * sz) * (sy * sx * cz - cy * sz)) with hrrd
      have hrrsq : rr * rr = (cy * cz + sy * sx * sz) * (cy * cz + sy * sx * sz) +
          (sy * sx * cz - cy * sz) * (sy * sx * cz - cy * sz) := by
        rw [hrrd]; exact Real.mul_self_sqrt hSpos.le
      have hrrpos : 0 < rr := by rw [hrrd]; exact Real.sqrt_pos.mpr hSpos
      have hrr2 : rr * rr = 1 - sy * sy * (cx * cx) := by rw [hrrsq]; exact hSv
      have hrlow : 1 - cx * cx ≤ rr * rr := by rw [hrr2]; linarith only [hsycx]
      have hrr1a : rr * rr ≤ 1 := by
        rw [hrr2]; linarith only [mul_nonneg (mul_self_nonneg sy) (mul_self_nonneg cx)]
      have hrle1 : rr ≤ 1 := by linarith only [hrr1a, sq_nonneg (rr - 1)]
      have hget : Basis.get_euler (Basis.new_from_floats (cy * cz + sy * sx * sz)
          (sy * sx * cz - cy * sz) (sy * cx) (cx * sz) (cx * cz) (-sx)
          (cy * sx * sz - sy * cz) (sy * sz + cy * sx * cz) (cy * cx))
          (some EulerOrder.YXZ) =
          ⟨Real.pi / 2, atan2 (sy * sx * cz - cy * sz) (cy * cz + sy * sx * sz), 0⟩ := by
        simp only [Basis.get_euler, Option.getD, Basis.new_from_floats]
        rw [if_pos h1, if_neg h2]
      rw [hget, set_euler_YXZ_eq, hcl, hsl, Real.cos_pi_div_two, Real.sin_pi_div_two,
        Real.cos_zero, Real.sin_zero]
      have hcs1 : (sy * cz + cy * sz) * (sy * cz + cy * sz) ≤ 1 := by
        have hid0 : (sy * cz + cy * sz) * (sy * cz + cy * sz) +
            (sy * sz - cy * cz) * (sy * sz - cy * cz) =
            (sy * sy + cy * cy) * (sz * sz + cz * cz) := by ring
        have hprod2 : (sy * sy + cy * cy) * (sz * sz + cz * cz) = 1 := by
          rw [hpy, hpz]; norm_num
        linarith only [hid0, hprod2, mul_self_nonneg (sy * sz - cy * cz)]
      have hcs2 : (cy * cz - sy * sz) * (cy * cz - sy * sz) ≤ 1 := by
        have hid0 : (cy * cz - sy * sz) * (cy * cz - sy * sz) +
            (cy * sz + sy * cz) * (cy * sz + sy * cz) =
            (sy * sy + cy * cy) * (sz * sz + cz * cz) := by ring
        have hprod2 : (sy * sy + cy * cy) * (sz * sz + cz * cz) = 1 := by
          rw [hpy, hpz]; norm_num
        linarith only [hid0, hprod2, mul_self_nonneg (cy * sz + sy * cz)]
      refine ⟨?_, ?_, ?_⟩
      · simp only [Basis.get_column, Basis.new_from_floats, Vector3.sub_def,
          Vector3.length_squared]
        have hu0 : ((cy * cz + sy * sx * sz) - (cy * cz + sy * sx * sz)) *
            ((cy * cz + sy * sx * sz) - (cy * cz + sy * sx * sz)) ≤
            (2 / 100000) * (2 / 100000) := by
          have hz : ((cy * cz + sy * sx * sz) - (cy * cz + sy * sx * sz)) *
              ((cy * cz + sy * sx * sz) - (cy * cz + sy * sx * sz)) = 0 := by ring
          rw [hz]; norm_num
        have hv2 : ((sy * sx * cz - cy * sz) - (-(cy * sx * sz - sy * cz))) *
            ((sy * sx * cz - cy * sz) - (-(cy * sx * sz - sy * cz))) ≤
            (2 / 100000) * (2 / 100000) := by
          have hfac : (sy * sx * cz - cy * sz) - (-(cy * sx * sz - sy * cz)) =
              -((1 - sx) * (sy * cz + cy * sz)) := by ring
          rw [hfac]
          calc -((1 - sx) * (sy * cz + cy * sz)) * -((1 - sx) * (sy * cz + cy * sz)) =
              ((1 - sx) * (1 - sx)) * ((sy * cz + cy * sz) * (sy * cz + cy * sz)) := by ring
            _ ≤ ((1 / 100000) * (1 / 100000)) * 1 :=
              mul_le_mul (mul_self_le_mul_self ha3 ha1) hcs1 (mul_self_nonneg _) (by norm_num)
            _ ≤ (2 / 100000) * (2 / 100000) := by norm_num
        have hlock := lock_col_bound (cx * cx) (cy * cz + sy * sx * sz)
          (sy * sx * cz - cy * sz) (cy * cz + sy * sx * sz) (-(cy * sx * sz - sy * cz)) rr sz
          (mul_self_nonneg cx) hcx2 hrrsq hrlow hrle1 hrrpos
          (by linarith only [hpz, mul_self_nonneg cz] : sz * sz ≤ 1) hu0 hv2
        refine le_trans (le_of_eq ?_) hlock
        ring
      · simp only [Basis.get_column, Basis.new_from_floats, Vector3.sub_def,
          Vector3.length_squared]
        have hv0 : ((sy * sx * cz - cy * sz) - (sy * sx * cz - cy * sz)) *
            ((sy * sx * cz - cy * sz) - (sy * sx * cz - cy * sz)) ≤
            (2 / 100000) * (2 / 100000) := by
          have hz : ((sy * sx * cz - cy * sz) - (sy * sx * cz - cy * sz)) *
              ((sy * sx * cz - cy * sz) - (sy * sx * cz - cy * sz)) = 0 := by ring
          rw [hz]; norm_num
        have hu2 : ((cy * cz + sy * sx * sz) - (sy * sz + cy * sx * cz)) *
            ((cy * cz + sy * sx * sz) - (sy * sz + cy * sx * cz)) ≤
            (2 / 100000) * (2 / 100000) := by
          have hfac : (cy * cz + sy * sx * sz) - (sy * sz + cy * sx * cz) =
              (1 - sx) * (cy * cz - sy * sz) := by ring
          rw [hfac]
          calc (1 - sx) * (cy * cz - sy * sz) * ((1 - sx) * (cy * cz - sy * sz)) =
              ((1 - sx) * (1 - sx)) * ((cy * cz - sy * sz) * (cy * cz - sy * sz)) := by ring
            _ ≤ ((1 / 100000) * (1 / 100000)) * 1 :=
              mul_le_mul (mul_self_le_mul_self ha3 ha1) hcs2 (mul_self_nonneg _) (by norm_num)
            _ ≤ (2 / 100000) * (2 / 100000) := by norm_num
        have hlock := lock_col_bound (cx * cx) (cy * cz + sy * sx * sz)
          (sy * sx * cz - cy * sz) (sy * sz + cy * sx * cz) (sy * sx * cz - cy * sz) rr cz
          (mul_self_nonneg cx) hcx2 hrrsq hrlow hrle1 hrrpos
          (by linarith only [hpz, mul_self_nonneg sz] : cz * cz ≤ 1) hu2 hv0
        refine le_trans (le_of_eq ?_) hlock
        ring
      · simp only [Basis.get_column, Basis.new_from_floats, Vector3.sub_def,
          Vector3.length_squared]
        have hd2 : (1 - sx) * (1 - sx) ≤ (1 / 100000) * (1 / 100000) :=
          mul_self_le_mul_self ha3 ha1
        have hxx : sy * cx * (sy * cx) + cy * cx * (cy * cx) = cx * cx := by
          linear_combination (cx * cx) * hpy
        linarith only [hd2, hxx, hcx2]
  · -- lock with sx close to -1
    have h1' : 1 - CMP_EPSILON ≤ -sx := not_lt.mp h1
    have ha1 : 1 + sx ≤ 1 / 100000 := by linarith only [h1', heps]
    have ha3 : 0 ≤ 1 + sx := by linarith only [hsxn]
    have hprod : (1 + sx) * (1 - sx) ≤ (1 / 100000) * 2 :=
      mul_le_mul ha1 (by linarith only [hsxn]) (by linarith only [hsx1]) (by norm_num)
    have hcx2 : cx * cx ≤ 2 / 100000 := by linarith only [hprod, hpx]
    have hSv : (cy * cz + sy * sx * sz) * (cy * cz + sy * sx * sz) +
        (sy * sx * cz - cy * sz) * (sy * sx * cz - cy * sz) = 1 - sy * sy * (cx * cx) := by
      linear_combination (cy * cy + sy * sy * (sx * sx)) * hpz + (sy * sy) * hpx + hpy
    have hsycx : sy * sy * (cx * cx) ≤ cx * cx := by
      linarith only [mul_nonneg (by linarith only [hsy2] : (0:ℝ) ≤ 1 - sy * sy)
        (mul_self_nonneg cx)]
    have hSpos : 0 < (cy * cz + sy * sx * sz) * (cy * cz + sy * sx * sz) +
        (sy * sx * cz - cy * sz) * (sy * sx * cz - cy * sz) := by
      rw [hSv]; linarith only [hsycx, hcx2]
    obtain ⟨hcl, hsl⟩ := cos_sin_atan2 (sy * sx * cz - cy * sz) (cy * cz + sy * sx * sz) hSpos
    set rr := Real.sqrt ((cy * cz + sy * sx * sz) * (cy * cz + sy * sx * sz) +
        (sy * sx * cz - cy * sz) * (sy * sx * cz - cy * sz)) with hrrd
    have hrrsq : rr * rr = (cy * cz + sy * sx * sz) * (cy * cz + sy * sx * sz) +
        (sy * sx * cz - cy * sz) * (sy * sx * cz - cy * sz) := by
      rw [hrrd]; exact Real.mul_self_sqrt hSpos.le
    have hrrpos : 0 < rr := by rw [hrrd]; exact Real.sqrt_pos.mpr hSpos
    have hrr2 : rr * rr = 1 - sy * sy * (cx * cx) := by rw [hrrsq]; exact hSv
    have hrlow : 1 - cx * cx ≤ rr * rr := by rw [hrr2]; linarith only [hsycx]
    have hrr1a : rr * rr ≤ 1 := by
      rw [hrr2]; linarith only [mul_nonneg (mul_self_nonneg sy) (mul_self_nonneg cx)]
    have hrle1 : rr ≤ 1 := by linarith only [hrr1a, sq_nonneg (rr - 1)]
    have hget : Basis.get_euler (Basis.new_from_floats (cy * cz + sy * sx * sz)
        (sy * sx * cz - cy * sz) (sy * cx) (cx * sz) (cx * cz) (-sx)
        (cy * sx * sz - sy * cz) (sy * sz + cy * sx * cz) (cy * cx))
        (some EulerOrder.YXZ) =
        ⟨-(Real.pi / 2), -(atan2 (sy * sx * cz - cy * sz) (cy * cz + sy * sx * sz)), 0⟩ := by
      simp only [Basis.get_euler, Option.getD, Basis.new_from_floats]
      rw [if_neg h1]
    rw [hget, set_euler_YXZ_eq]
    simp only [Real.cos_neg, Real.sin_neg]
    rw [hcl, hsl, Real.cos_pi_div_two, Real.sin_pi_div_two, Real.cos_zero, Real.sin_zero]
    have hcs1 : (sy * cz - cy * sz) * (sy * cz - cy * sz) ≤ 1 := by
      have hid0 : (sy * cz - cy * sz) * (sy * cz - cy * sz) +
          (sy * sz + cy * cz) * (sy * sz + cy * cz) =
          (sy * sy + cy * cy) * (sz * sz + cz * cz) := by ring
      have hprod2 : (sy * sy + cy * cy) * (sz * sz + cz * cz) = 1 := by
        rw [hpy, hpz]; norm_num
      linarith only [hid0, hprod2, mul_self_nonneg (sy * sz + cy * cz)]
    have hcs2 : (cy * cz + sy * sz) * (cy * cz + sy * sz) ≤ 1 := by
      have hid0 : (cy * cz + sy * sz) * (cy * cz + sy * sz) +
          (cy * sz - sy * cz) * (cy * sz - sy * cz) =
          (sy * sy + cy * cy) * (sz * sz + cz * cz) := by ring
      have hprod2 : (sy * sy + cy * cy) * (sz * sz + cz * cz) = 1 := by
        rw [hpy, hpz]; norm_num
      linarith only [hid0, hprod2, mul_self_nonneg (cy * sz - sy * cz)]
    refine ⟨?_, ?_, ?_⟩
    · simp only [Basis.get_column, Basis.new_from_floats, Vector3.sub_def,
        Vector3.length_squared]
      have hu0 : ((cy * cz + sy * sx * sz) - (cy * cz + sy * sx * sz)) *
          ((cy * cz + sy * sx * sz) - (cy * cz + sy * sx * sz)) ≤
          (2 / 100000) * (2 / 100000) := by
        have hz : ((cy * cz + sy * sx * sz) - (cy * cz + sy * sx * sz)) *
            ((cy * cz + sy * sx * sz) - (cy * cz + sy * sx * sz)) = 0 := by ring
        rw [hz]; norm_num
      have hv2 : ((sy * sx * cz - cy * sz) - (cy * sx * sz - sy * cz)) *
          ((sy * sx * cz - cy * sz) - (cy * sx * sz - sy * cz)) ≤
          (2 / 100000) * (2 / 100000) := by
        have hfac : (sy * sx * cz - cy * sz) - (cy * sx * sz - sy * cz) =
            (1 + sx) * (sy * cz - cy * sz) := by ring
        rw [hfac]
        calc (1 + sx) * (sy * cz - cy * sz) * ((1 + sx) * (sy * cz - cy * sz)) =
            ((1 + sx) * (1 + sx)) * ((sy * cz - cy * sz) * (sy * cz - cy * sz)) := by ring
          _ ≤ ((1 / 100000) * (1 / 100000)) * 1 :=
            mul_le_mul (mul_self_le_mul_self ha3 ha1) hcs1 (mul_self_nonneg _) (by norm_num)
          _ ≤ (2 / 100000) * (2 / 100000) := by norm_num
      have hlock := lock_col_bound (cx * cx) (cy * cz + sy * sx * sz)
        (sy * sx * cz - cy * sz) (cy * cz + sy * sx * sz) (cy * sx * sz - sy * cz) rr sz
        (mul_self_nonneg cx) hcx2 hrrsq hrlow hrle1 hrrpos
        (by linarith only [hpz, mul_self_nonneg cz] : sz * sz ≤ 1) hu0 hv2
      refine le_trans (le_of_eq ?_) hlock
      ring
    · simp only [Basis.get_column, Basis.new_from_floats, Vector3.sub_def,
        Vector3.length_squared]
      have hv0 : ((sy * sx * cz - cy * sz) - (sy * sx * cz - cy * sz)) *
          ((sy * sx * cz - cy * sz) - (sy * sx * cz - cy * sz)) ≤
          (2 / 100000) * (2 / 100000) := by
        have hz : ((sy * sx * cz - cy * sz) - (sy * sx * cz - cy * sz)) *
            ((sy * sx * cz - cy * sz) - (sy * sx * cz - cy * sz)) = 0 := by ring
        rw [hz]; norm_num
      have hu2 : ((cy * cz + sy * sx * sz) - (-(sy * sz + cy * sx * cz))) *
          ((cy * cz + sy * sx * sz) - (-(sy * sz + cy * sx * cz))) ≤
          (2 / 100000) * (2 / 100000) := by
        have hfac : (cy * cz + sy * sx * sz) - (-(sy * sz + cy * sx * cz)) =
            (1 + sx) * (cy * cz + sy * sz) := by ring
        rw [hfac]
        calc (1 + sx) * (cy * cz + sy * sz) * ((1 + sx) * (cy * cz + sy * sz)) =
            ((1 + sx) * (1 + sx)) * ((cy * cz + sy * sz) * (cy * cz + sy * sz)) := by ring
          _ ≤ ((1 / 100000) * (1 / 100000)) * 1 :=
            mul_le_mul (mul_self_le_mul_self ha3 ha1) hcs2 (mul_self_nonneg _) (by norm_num)
          _ ≤ (2 / 100000) * (2 / 100000) := by norm_num
      have hlock := lock_col_bound (cx * cx) (cy * cz + sy * sx * sz)
        (sy * sx * cz - cy * sz) (-(sy * sz + cy * sx * cz)) (sy * sx * cz - cy * sz) rr cz
        (mul_self_nonneg cx) hcx2 hrrsq hrlow hrle1 hrrpos
        (by linarith only [hpz, mul_self_nonneg sz] : cz * cz ≤ 1) hu2 hv0
      refine le_trans (le_of_eq ?_) hlock
      ring
    · simp only [Basis.get_column, Basis.new_from_floats, Vector3.sub_def,
        Vector3.length_squared]
      have hd2 : (1 + sx) * (1 + sx) ≤ (1 / 100000) * (1 / 100000) :=
        mul_self_le_mul_self ha3 ha1
      have hxx : sy * cx * (sy * cx) + cy * cx * (cy * cx) = cx * cx := by
        linear_combination (cx * cx) * hpy
      linarith only [hd2, hxx, hcx2]

set_option maxHeartbeats 2000000 in
/-- Euler round-trip column bounds for the YZX order. -/
theorem roundtrip_cols_YZX (cx sx cy sy cz sz : ℝ) (B : Basis)
    (hB : B = Basis.new_from_floats (cy * cz) (sy * sx - cy * cx * sz) (cy * sz * sx + sy * cx)
      sz (cz * cx) (-(cz * sx))
      (-(sy * cz)) (cy * sx + cx * sy * sz) (cy * cx - sx * sy * sz))
    (hpx : sx * sx + cx * cx = 1) (hpy : sy * sy + cy * cy = 1)
    (hpz : sz * sz + cz * cz = 1) :
    ((Basis.set_euler (B.get_euler (some EulerOrder.YZX)) EulerOrder.YZX).get_column 0 -
        B.get_column 0).length_squared ≤ 1 / 100 ∧
      ((Basis.set_euler (B.get_euler (some EulerOrder.YZX)) EulerOrder.YZX).get_column 1 -
        B.get_column 1).length_squared ≤ 1 / 100 ∧
      ((Basis.set_euler (B.get_euler (some EulerOrder.YZX)) EulerOrder.YZX).get_column 2 -
        B.get_column 2).length_squared ≤ 1 / 100 := by
  subst hB
  have heps : CMP_EPSILON = 1 / 100000 := rfl
  have heps2 : CMP_EPSILON * CMP_EPSILON = 1 / 10000000000 := by rw [heps]; norm_num
  have hsz1 : sz ≤ 1 := by nlinarith [mul_self_nonneg cz, mul_self_nonneg (sz - 1)]
  have hszn : -1 ≤ sz := by nlinarith [mul_self_nonneg cz, mul_self_nonneg (sz + 1)]
  have hsy2 : sy * sy ≤ 1 := by nlinarith [mul_self_nonneg cy]
  by_cases h1 : sz < 1 - CMP_EPSILON
  · by_cases h2 : -(1 - CMP_EPSILON) < sz
    · -- regular zone
      have hprod : 0 < (1 - CMP_EPSILON - sz) * (sz + (1 - CMP_EPSILON)) :=
        mul_pos (by linarith) (by linarith)
      have hczpos : 0 < cz * cz := by linarith only [hprod, heps, heps2, hpz]
      have hS1v : cz * cx * (cz * cx) + cz * sx * (cz * sx) = cz * cz := by
        linear_combination (cz * cz) * hpx
      have hS1pos : 0 < cz * cx * (cz * cx) + cz * sx * (cz * sx) := by
        rw [hS1v]; exact hczpos
      obtain ⟨hc1, hs1⟩ := cos_sin_atan2 (cz * sx) (cz * cx) hS1pos
      set r1 := Real.sqrt (cz * cx * (cz * cx) + cz * sx * (cz * sx)) with hr1d
      have hr1sq : r1 * r1 = cz * cz := by
        rw [hr1d, Real.mul_self_sqrt hS1pos.le]; exact hS1v
      have hr1pos : 0 < r1 := by rw [hr1d]; exact Real.sqrt_pos.mpr hS1pos
      have hq1 : cz / r1 * (cz / r1) = 1 := by
        rw [div_mul_div_comm, ← hr1sq]
        exact div_self (by positivity)
      have hca : Real.cos (atan2 (cz * sx) (cz * cx)) = cx * (cz / r1) := by
        rw [hc1]; ring
      have hsa : Real.sin (atan2 (cz * sx) (cz * cx)) = sx * (cz / r1) := by
        rw [hs1]; ring
      have hS3v : cy * cz * (cy * cz) + sy * cz * (sy * cz) = cz * cz := by
        linear_combination (cz * cz) * hpy
      have hS3pos : 0 < cy * cz * (cy * cz) + sy * cz * (sy * cz) := by
        rw [hS3v]; exact hczpos
      obtain ⟨hc3, hs3⟩ := cos_sin_atan2 (sy * cz) (cy * cz) hS3pos
      set r3 := Real.sqrt (cy * cz * (cy * cz) + sy * cz * (sy * cz)) with hr3d
      have hr3sq : r3 * r3 = cz * cz := by
        rw [hr3d, Real.mul_self_sqrt hS3pos.le]; exact hS3v
      have hr3pos : 0 < r3 := by rw [hr3d]; exact Real.sqrt_pos.mpr hS3pos
      have hcg : Real.cos (atan2 (sy * cz) (cy * cz)) = cy * (cz / r3) := by
        rw [hc3]; ring
      have hsg : Real.sin (atan2 (sy * cz) (cy * cz)) = sy * (cz / r3) := by
        rw [hs3]; ring
      have hr13 : r1 * r3 = cz * cz := by
        have hsq : r1 * r3 * (r1 * r3) = cz * cz * (cz * cz) := by
          calc r1 * r3 * (r1 * r3) = (r1 * r1) * (r3 * r3) := by ring
            _ = cz * cz * (cz * cz) := by rw [hr1sq, hr3sq]
        exact eq_of_mul_self_eq _ _ (by positivity) (mul_self_nonneg cz) hsq
      have hq13 : cz / r1 * (cz / r3) = 1 := by
        rw [div_mul_div_comm, ← hr13]
        exact div_self (by positivity)
      have hmids : Real.sin (Real.arcsin sz) = sz := Real.sin_arcsin hszn hsz1
      have hmidc : Real.cos (Real.arcsin sz) = cz * (cz / r1) := by
        rw [Real.cos_arcsin]
        have hnn : 0 ≤ cz * (cz / r1) := by
          have hh : cz * (cz / r1) = cz * cz / r1 := by ring
          rw [hh]; positivity
        refine eq_of_mul_self_eq _ _ (Real.sqrt_nonneg _) hnn ?_
        rw [Real.mul_self_sqrt (by linarith only [hpz, mul_self_nonneg cz] : (0:ℝ) ≤ 1 - sz ^ 2)]
        linear_combination (-(cz * cz)) * hq1 - hpz
      have hget : Basis.get_euler (Basis.new_from_floats (cy * cz)
          (sy * sx - cy * cx * sz) (cy * sz * sx + sy * cx) sz (cz * cx) (-(cz * sx))
          (-(sy * cz)) (cy * sx + cx * sy * sz) (cy * cx - sx * sy * sz))
          (some EulerOrder.YZX) =
          ⟨atan2 (cz * sx) (cz * cx), atan2 (sy * cz) (cy * cz), Real.arcsin sz⟩ := by
        simp only [Basis.get_euler, Option.getD, Basis.new_from_floats]
        rw [if_pos h1, if_pos h2]
        simp only [neg_neg]
      rw [hget]
      have hBB : Basis.set_euler ⟨atan2 (cz * sx) (cz * cx), atan2 (sy * cz) (cy * cz),
          Real.arcsin sz⟩ EulerOrder.YZX =
          Basis.new_from_floats (cy * cz) (sy * sx - cy * cx * sz) (cy * sz * sx + sy * cx)
            sz (cz * cx) (-(cz * sx))
            (-(sy * cz)) (cy * sx + cx * sy * sz) (cy * cx - sx * sy * sz) := by
        rw [set_euler_YZX_eq, hca, hsa, hcg, hsg, hmidc, hmids]
        simp only [Basis.new_from_floats, Basis.mk.injEq, Vector3.mk.injEq]
        refine ⟨⟨?_, ?_, ?_⟩, ⟨?_, ?_, ?_⟩, ?_, ?_, ?_⟩
        · linear_combination (cy * cz) * hq13
        · linear_combination (sy * sx - cy * cx * sz) * hq13
        · linear_combination (cy * sz * sx + sy * cx) * hq13
        · ring
        · linear_combination (cz * cx) * hq1
        · linear_combination (-(cz * sx)) * hq1
        · linear_combination (-(sy * cz)) * hq13
        · linear_combination (cy * sx + cx * sy * sz) * hq13
        · linear_combination (cy * cx - sx * sy * sz) * hq13
      rw [hBB]
      exact ⟨by rw [sub_self_length_squared]; norm_num,
        by rw [sub_self_length_squared]; norm_num,
        by rw [sub_self_length_squared]; norm_num⟩
    · -- lock with sz close to -1
      have h2' : sz ≤ -(1 - CMP_EPSILON) := not_lt.mp h2
      have ha1 : 1 + sz ≤ 1 / 100000 := by linarith only [h2', heps]
      have ha3 : 0 ≤ 1 + sz := by linarith only [hszn]
      have hprod : (1 + sz) * (1 - sz) ≤ (1 / 100000) * 2 :=
        mul_le_mul ha1 (by linarith only [hszn]) (by linarith only [hsz1]) (by norm_num)
      have hcz2 : cz * cz ≤ 2 / 100000 := by linarith only [hprod, hpz]
      have hSv : (cy * cx - sx * sy * sz) * (cy * cx - sx * sy * sz) +
          (cy * sx + cx * sy * sz) * (cy * sx + cx * sy * sz) = 1 - sy * sy * (cz * cz) := by
        linear_combination (cy * cy + sy * sy * (sz * sz)) * hpx + (sy * sy) * hpz + hpy
      have hsycz : sy * sy * (cz * cz) ≤ cz * cz := by
        linarith only [mul_nonneg (by linarith only [hsy2] : (0:ℝ) ≤ 1 - sy * sy)
          (mul_self_nonneg cz)]
      have hSpos : 0 < (cy * cx - sx * sy * sz) * (cy * cx - sx * sy * sz) +
          (cy * sx + cx * sy * sz) * (cy * sx + cx * sy * sz) := by
        rw [hSv]; linarith only [hsycz, hcz2]
      obtain ⟨hcl, hsl⟩ := cos_sin_atan2 (cy * sx + cx * sy * sz) (cy * cx - sx * sy * sz) hSpos
      set rr := Real.sqrt ((cy * cx - sx * sy * sz) * (cy * cx - sx * sy * sz) +
          (cy * sx + cx * sy * sz) * (cy * sx + cx * sy * sz)) with hrrd
      have hrrsq : rr * rr = (cy * cx - sx * sy * sz) * (cy * cx - sx * sy * sz) +
          (cy * sx + cx * sy * sz) * (cy * sx + cx * sy * sz) := by
        rw [hrrd]; exact Real.mul_self_sqrt hSpos.le
      have hrrpos : 0 < rr := by rw [hrrd]; exact Real.sqrt_pos.mpr hSpos
      have hrr2 : rr * rr = 1 - sy * sy * (cz * cz) := by rw [hrrsq]; exact hSv
      have hrlow : 1 - cz * cz ≤ rr * rr := by rw [hrr2]; linarith only [hsycz]
      have hrr1a : rr * rr ≤ 1 := by
        rw [hrr2]; linarith only [mul_nonneg (mul_self_nonneg sy) (mul_self_nonneg cz)]
      have hrle1 : rr ≤ 1 := by linarith only [hrr1a, sq_nonneg (rr - 1)]
      have hget : Basis.get_euler (Basis.new_from_floats (cy * cz)
          (sy * sx - cy * cx * sz) (cy * sz * sx + sy * cx) sz (cz * cx) (-(cz * sx))
          (-(sy * cz)) (cy * sx + cx * sy * sz) (cy * cx - sx * sy * sz))
          (some EulerOrder.YZX) =
          ⟨atan2 (cy * sx + cx * sy * sz) (cy * cx - sx * sy * sz), 0, -(Real.pi / 2)⟩ := by
        simp only [Basis.get_euler, Option.getD, Basis.new_from_floats]
        rw [if_pos h1, if_neg h2]
      rw [hget, set_euler_YZX_eq]
      simp only [Real.cos_neg, Real.sin_neg]
      rw [hcl, hsl, Real.cos_pi_div_two, Real.sin_pi_div_two, Real.cos_zero, Real.sin_zero]
      have hcs1 : (cy * cx - sy * sx) * (cy * cx - sy * sx) ≤ 1 := by
        have hid0 : (cy * cx - sy * sx) * (cy * cx - sy * sx) +
            (cy * sx + sy * cx) * (cy * sx + sy * cx) =
            (sy * sy + cy * cy) * (sx * sx + cx * cx) := by ring
        have hprod2 : (sy * sy + cy * cy) * (sx * sx + cx * cx) = 1 := by
          rw [hpy, hpx]; norm_num
        linarith only [hid0, hprod2, mul_self_nonneg (cy * sx + sy * cx)]
      have hcs2 : (cy * sx + sy * cx) * (cy * sx + sy * cx) ≤ 1 := by
        have hid0 : (cy * sx + sy * cx) * (cy * sx + sy * cx) +
            (cy * cx - sy * sx) * (cy * cx - sy * sx) =
            (sy * sy + cy * cy) * (sx * sx + cx * cx) := by ring
        have hprod2 : (sy * sy + cy * cy) * (sx * sx + cx * cx) = 1 := by
          rw [hpy, hpx]; norm_num
        linarith only [hid0, hprod2, mul_self_nonneg (cy * cx - sy * sx)]
      refine ⟨?_, ?_, ?_⟩
      · simp only [Basis.get_column, Basis.new_from_floats, Vector3.sub_def,
          Vector3.length_squared]
        have hd2 : (1 + sz) * (1 + sz) ≤ (1 / 100000) * (1 / 100000) :=
          mul_self_le_mul_self ha3 ha1
        have hxx : cy * cz * (cy * cz) + sy * cz * (sy * cz) = cz * cz := by
          linear_combination (cz * cz) * hpy
        linarith only [hd2, hxx, hcz2]
      · simp only [Basis.get_column, Basis.new_from_floats, Vector3.sub_def,
          Vector3.length_squared]
        have hu2 : ((cy * cx - sx * sy * sz) - (sy * sx - cy * cx * sz)) *
            ((cy * cx - sx * sy * sz) - (sy * sx - cy * cx * sz)) ≤
            (2 / 100000) * (2 / 100000) := by
          have hfac : (cy * cx - sx * sy * sz) - (sy * sx - cy * cx * sz) =
              (1 + sz) * (cy * cx - sy * sx) := by ring
          rw [hfac]
          calc (1 + sz) * (cy * cx - sy * sx) * ((1 + sz) * (cy * cx - sy * sx)) =
              ((1 + sz) * (1 + sz)) * ((cy * cx - sy * sx) * (cy * cx - sy * sx)) := by ring
            _ ≤ ((1 / 100000) * (1 / 100000)) * 1 :=
              mul_le_mul (mul_self_le_mul_self ha3 ha1) hcs1 (mul_self_nonneg _) (by norm_num)
            _ ≤ (2 / 100000) * (2 / 100000) := by norm_num
        have hv0 : ((cy * sx + cx * sy * sz) - (cy * sx + cx * sy * sz)) *
            ((cy * sx + cx * sy * sz) - (cy * sx + cx * sy * sz)) ≤
            (2 / 100000) * (2 / 100000) := by
          have hz : ((cy * sx + cx * sy * sz) - (cy * sx + cx * sy * sz)) *
              ((cy * sx + cx * sy * sz) - (cy * sx + cx * sy * sz)) = 0 := by ring
          rw [hz]; norm_num
        have hlock := lock_col_bound (cz * cz) (cy * cx - sx * sy * sz)
          (cy * sx + cx * sy * sz) (sy * sx - cy * cx * sz) (cy * sx + cx * sy * sz) rr cx
          (mul_self_nonneg cz) hcz2 hrrsq hrlow hrle1 hrrpos
          (by linarith only [hpx, mul_self_nonneg sx] : cx * cx ≤ 1) hu2 hv0
        refine le_trans (le_of_eq ?_) hlock
        ring
      · simp only [Basis.get_column, Basis.new_from_floats, Vector3.sub_def,
          Vector3.length_squared]
        have hu0 : ((cy * cx - sx * sy * sz) - (cy * cx - sx * sy * sz)) *
            ((cy * cx - sx * sy * sz) - (cy * cx - sx * sy * sz)) ≤
            (2 / 100000) * (2 / 100000) := by
          have hz : ((cy * cx - sx * sy * sz) - (cy * cx - sx * sy * sz)) *
              ((cy * cx - sx * sy * sz) - (cy * cx - sx * sy * sz)) = 0 := by ring
          rw [hz]; norm_num
        have hv2 : ((cy * sx + cx * sy * sz) - (-(cy * sz * sx + sy * cx))) *
            ((cy * sx + cx * sy * sz) - (-(cy * sz * sx + sy * cx))) ≤
            (2 / 100000) * (2 / 100000) := by
          have hfac : (cy * sx + cx * sy * sz) - (-(cy * sz * sx + sy * cx)) =
              (1 + sz) * (cy * sx + sy * cx) := by ring
          rw [hfac]
          calc (1 + sz) * (cy * sx + sy * cx) * ((1 + sz) * (cy * sx + sy * cx)) =
              ((1 + sz) * (1 + sz)) * ((cy * sx + sy * cx) * (cy * sx + sy * cx)) := by ring
            _ ≤ ((1 / 100000) * (1 / 100000)) * 1 :=
              mul_le_mul (mul_self_le_mul_self ha3 ha1) hcs2 (mul_self_nonneg _) (by norm_num)
            _ ≤ (2 / 100000) * (2 / 100000) := by norm_num
        have hlock := lock_col_bound (cz * cz) (cy * cx - sx * sy * sz)
          (cy * sx + cx * sy * sz) (cy * cx - sx * sy * sz) (-(cy * sz * sx + sy * cx)) rr sx
          (mul_self_nonneg cz) hcz2 hrrsq hrlow hrle1 hrrpos
          (by linarith only [hpx, mul_self_nonneg cx] : sx * sx ≤ 1) hu0 hv2
        refine le_trans (le_of_eq ?_) hlock
        ring
  · -- lock with sz close to 1
    have h1' : 1 - CMP_EPSILON ≤ sz := not_lt.mp h1
    have ha1 : 1 - sz ≤ 1 / 100000 := by linarith only [h1', heps]
    have ha3 : 0 ≤ 1 - sz := by linarith only [hsz1]
    have hprod : (1 - sz) * (1 + sz) ≤ (1 / 100000) * 2 :=
      mul_le_mul ha1 (by linarith only [hsz1]) (by linarith only [hszn]) (by norm_num)
    have hcz2 : cz * cz ≤ 2 / 100000 := by linarith only [hprod, hpz]
    have hSv : (cy * cx - sx * sy * sz) * (cy * cx - sx * sy * sz) +
        (cy * sx + cx * sy * sz) * (cy * sx + cx * sy * sz) = 1 - sy * sy * (cz * cz) := by
      linear_combination (cy * cy + sy * sy * (sz * sz)) * hpx + (sy * sy) * hpz + hpy
    have hsycz : sy * sy * (cz * cz) ≤ cz * cz := by
      linarith only [mul_nonneg (by linarith only [hsy2] : (0:ℝ) ≤ 1 - sy * sy)
        (mul_self_nonneg cz)]
    have hSpos : 0 < (cy * cx - sx * sy * sz) * (cy * cx - sx * sy * sz) +
        (cy * sx + cx * sy * sz) * (cy * sx + cx * sy * sz) := by
      rw [hSv]; linarith only [hsycz, hcz2]
    obtain ⟨hcl, hsl⟩ := cos_sin_atan2 (cy * sx + cx * sy * sz) (cy * cx - sx * sy * sz) hSpos
    set rr := Real.sqrt ((cy * cx - sx * sy * sz) * (cy * cx - sx * sy * sz) +
        (cy * sx + cx * sy * sz) * (cy * sx + cx * sy * sz)) with hrrd
    have hrrsq : rr * rr = (cy * cx - sx * sy * sz) * (cy * cx - sx * sy * sz) +
        (cy * sx + cx * sy * sz) * (cy * sx + cx * sy * sz) := by
      rw [hrrd]; exact Real.mul_self_sqrt hSpos.le
    have hrrpos : 0 < rr := by rw [hrrd]; exact Real.sqrt_pos.mpr hSpos
    have hrr2 : rr * rr = 1 - sy * sy * (cz * cz) := by rw [hrrsq]; exact hSv
    have hrlow : 1 - cz * cz ≤ rr * rr := by rw [hrr2]; linarith only [hsycz]
    have hrr1a : rr * rr ≤ 1 := by
      rw [hrr2]; linarith only [mul_nonneg (mul_self_nonneg sy) (mul_self_nonneg cz)]
    have hrle1 : rr ≤ 1 := by linarith only [hrr1a, sq_nonneg (rr - 1)]
    have hget : Basis.get_euler (Basis.new_from_floats (cy * cz)
        (sy * sx - cy * cx * sz) (cy * sz * sx + sy * cx) sz (cz * cx) (-(cz * sx))
        (-(sy * cz)) (cy * sx + cx * sy * sz) (cy * cx - sx * sy * sz))
        (some EulerOrder.YZX) =
        ⟨atan2 (cy * sx + cx * sy * sz) (cy * cx - sx * sy * sz), 0, Real.pi / 2⟩ := by
      simp only [Basis.get_euler, Option.getD, Basis.new_from_floats]
      rw [if_neg h1]
    rw [hget, set_euler_YZX_eq, hcl, hsl, Real.cos_pi_div_two, Real.sin_pi_div_two,
      Real.cos_zero, Real.sin_zero]
    have hcs1 : (cy * cx + sy * sx) * (cy * cx + sy * sx) ≤ 1 := by
      have hid0 : (cy * cx + sy * sx) * (cy * cx + sy * sx) +
          (cy * sx - sy * cx) * (cy * sx - sy * cx) =
          (sy * sy + cy * cy) * (sx * sx + cx * cx) := by ring
      have hprod2 : (sy * sy + cy * cy) * (sx * sx + cx * cx) = 1 := by
        rw [hpy, hpx]; norm_num
      linarith only [hid0, hprod2, mul_self_nonneg (cy * sx - sy * cx)]
    have hcs2 : (cy * sx - sy * cx) * (cy * sx - sy * cx) ≤ 1 := by
      have hid0 : (cy * sx - sy * cx) * (cy * sx - sy * cx) +
          (cy * cx + sy * sx) * (cy * cx + sy * sx) =
          (sy * sy + cy * cy) * (sx * sx + cx * cx) := by ring
      have hprod2 : (sy * sy + cy * cy) * (sx * sx + cx * cx) = 1 := by
        rw [hpy, hpx]; norm_num
      linarith only [hid0, hprod2, mul_self_nonneg (cy * cx + sy * sx)]
    refine ⟨?_, ?_, ?_⟩
    · simp only [Basis.get_column, Basis.new_from_floats, Vector3.sub_def,
        Vector3.length_squared]
      have hd2 : (1 - sz) * (1 - sz) ≤ (1 / 100000) * (1 / 100000) :=
        mul_self_le_mul_self ha3 ha1
      have hxx : cy * cz * (cy * cz) + sy * cz * (sy * cz) = cz * cz := by
        linear_combination (cz * cz) * hpy
      linarith only [hd2, hxx, hcz2]
    · simp only [Basis.get_column, Basis.new_from_floats, Vector3.sub_def,
        Vector3.length_squared]
      have hu2 : ((cy * cx - sx * sy * sz) - (-(sy * sx - cy * cx * sz))) *
          ((cy * cx - sx * sy * sz) - (-(sy * sx - cy * cx * sz))) ≤
          (2 / 100000) * (2 / 100000) := by
        have hfac : (cy * cx - sx * sy * sz) - (-(sy * sx - cy * cx * sz)) =
            (1 - sz) * (cy * cx + sy * sx) := by ring
        rw [hfac]
        calc (1 - sz) * (cy * cx + sy * sx) * ((1 - sz) * (cy * cx + sy * sx)) =
            ((1 - sz) * (1 - sz)) * ((cy * cx + sy * sx) * (cy * cx + sy * sx)) := by ring
          _ ≤ ((1 / 100000) * (1 / 100000)) * 1 :=
            mul_le_mul (mul_self_le_mul_self ha3 ha1) hcs1 (mul_self_nonneg _) (by norm_num)
          _ ≤ (2 / 100000) * (2 / 100000) := by norm_num
      have hv0 : ((cy * sx + cx * sy * sz) - (cy * sx + cx * sy * sz)) *
          ((cy * sx + cx * sy * sz) - (cy * sx + cx * sy * sz)) ≤
          (2 / 100000) * (2 / 100000) := by
        have hz : ((cy * sx + cx * sy * sz) - (cy * sx + cx * sy * sz)) *
            ((cy * sx + cx * sy * sz) - (cy * sx + cx * sy * sz)) = 0 := by ring
        rw [hz]; norm_num
      have hlock := lock_col_bound (cz * cz) (cy * cx - sx * sy * sz)
        (cy * sx + cx * sy * sz) (-(sy * sx - cy * cx * sz)) (cy * sx + cx * sy * sz) rr cx
        (mul_self_nonneg cz) hcz2 hrrsq hrlow hrle1 hrrpos
        (by linarith only [hpx, mul_self_nonneg sx] : cx * cx ≤ 1) hu2 hv0
      refine le_trans (le_of_eq ?_) hlock
      ring
    · simp only [Basis.get_column, Basis.new_from_floats, Vector3.sub_def,
        Vector3.length_squared]
      have hu0 : ((cy * cx - sx * sy * sz) - (cy * cx - sx * sy * sz)) *
          ((cy * cx - sx * sy * sz) - (cy * cx - sx * sy * sz)) ≤
          (2 / 100000) * (2 / 100000) := by
        have hz : ((cy * cx - sx * sy * sz) - (cy * cx - sx * sy * sz)) *
            ((cy * cx - sx * sy * sz) - (cy * cx - sx * sy * sz)) = 0 := by ring
        rw [hz]; norm_num
      have hv2 : ((cy * sx + cx * sy * sz) - (cy * sz * sx + sy * cx)) *
          ((cy * sx + cx * sy * sz) - (cy * sz * sx + sy * cx)) ≤
          (2 / 100000) * (2 / 100000) := by
        have hfac : (cy * sx + cx * sy * sz) - (cy * sz * sx + sy * cx) =
            (1 - sz) * (cy * sx - sy * cx) := by ring
        rw [hfac]
        calc (1 - sz) * (cy * sx - sy * cx) * ((1 - sz) * (cy * sx - sy * cx)) =
            ((1 - sz) * (1 - sz)) * ((cy * sx - sy * cx) * (cy * sx - sy * cx)) := by ring
          _ ≤ ((1 / 100000) * (1 / 100000)) * 1 :=
            mul_le_mul (mul_self_le_mul_self ha3 ha1) hcs2 (mul_self_nonneg _) (by norm_num)
          _ ≤ (2 / 100000) * (2 / 100000) := by norm_num
      have hlock := lock_col_bound (cz * cz) (cy * cx - sx * sy * sz)
        (cy * sx + cx * sy * sz) (cy * cx - sx * sy * sz) (cy * sz * sx + sy * cx) rr sx
        (mul_self_nonneg cz) hcz2 hrrsq hrlow hrle1 hrrpos
        (by linarith only [hpx, mul_self_nonneg cx] : sx * sx ≤ 1) hu0 hv2
      refine le_trans (le_of_eq ?_) hlock
      ring

set_option maxHeartbeats 2000000 in
/-- Euler round-trip column bounds for the ZXY order. -/
theorem roundtrip_cols_ZXY (cx sx cy sy cz sz : ℝ) (B : Basis)
    (hB : B = Basis.new_from_floats (cz * cy - sz * sx * sy) (-(sz * cx)) (cz * sy + sz * sx * cy)
      (sz * cy + cz * sx * sy) (cz * cx) (sz * sy - cz * sx * cy)
      (-(cx * sy)) sx (cx * cy))
    (hpx : sx * sx + cx * cx = 1) (hpy : sy * sy + cy * cy = 1)
    (hpz : sz * sz + cz * cz = 1) :
    ((Basis.set_euler (B.get_euler (some EulerOrder.ZXY)) EulerOrder.ZXY).get_column 0 -
        B.get_column 0).length_squared ≤ 1 / 100 ∧
      ((Basis.set_euler (B.get_euler (some EulerOrder.ZXY)) EulerOrder.ZXY).get_column 1 -
        B.get_column 1).length_squared ≤ 1 / 100 ∧
      ((Basis.set_euler (B.get_euler (some EulerOrder.ZXY)) EulerOrder.ZXY).get_column 2 -
        B.get_column 2).length_squared ≤ 1 / 100 := by
  subst hB
  have heps : CMP_EPSILON = 1 / 100000 := rfl
  have heps2 : CMP_EPSILON * CMP_EPSILON = 1 / 10000000000 := by rw [heps]; norm_num
  have hsx1 : sx ≤ 1 := by nlinarith [mul_self_nonneg cx, mul_self_nonneg (sx - 1)]
  have hsxn : -1 ≤ sx := by nlinarith [mul_self_nonneg cx, mul_self_nonneg (sx + 1)]
  have hsz2 : sz * sz ≤ 1 := by nlinarith [mul_self_nonneg cz]
  by_cases h1 : sx < 1 - CMP_EPSILON
  · by_cases h2 : -(1 - CMP_EPSILON) < sx
    · -- regular zone
      have hprod : 0 < (1 - CMP_EPSILON - sx) * (sx + (1 - CMP_EPSILON)) :=
        mul_pos (by linarith) (by linarith)
      have hcxpos : 0 < cx * cx := by linarith only [hprod, heps, heps2, hpx]
      have hS1v : cx * cy * (cx * cy) + cx * sy * (cx * sy) = cx * cx := by
        linear_combination (cx * cx) * hpy
      have hS1pos : 0 < cx * cy * (cx * cy) + cx * sy * (cx * sy) := by
        rw [hS1v]; exact hcxpos
      obtain ⟨hc1, hs1⟩ := cos_sin_atan2 (cx * sy) (cx * cy) hS1pos
      set r1 := Real.sqrt (cx * cy * (cx * cy) + cx * sy * (cx * sy)) with hr1d
      have hr1sq : r1 * r1 = cx * cx := by
        rw [hr1d, Real.mul_self_sqrt hS1pos.le]; exact hS1v
      have hr1pos : 0 < r1 := by rw [hr1d]; exact Real.sqrt_pos.mpr hS1pos
      have hq1 : cx / r1 * (cx / r1) = 1 := by
        rw [div_mul_div_comm, ← hr1sq]
        exact div_self (by positivity)
      have hca : Real.cos (atan2 (cx * sy) (cx * cy)) = cy * (cx / r1) := by
        rw [hc1]; ring
      have hsa : Real.sin (atan2 (cx * sy) (cx * cy)) = sy * (cx / r1) := by
        rw [hs1]; ring
      have hS3v : cz * cx * (cz * cx) + sz * cx * (sz * cx) = cx * cx := by
        linear_combination (cx * cx) * hpz
      have hS3pos : 0 < cz * cx * (cz * cx) + sz * cx * (sz * cx) := by
        rw [hS3v]; exact hcxpos
      obtain ⟨hc3, hs3⟩ := cos_sin_atan2 (sz * cx) (cz * cx) hS3pos
      set r3 := Real.sqrt (cz * cx * (cz * cx) + sz * cx * (sz * cx)) with hr3d
      have hr3sq : r3 * r3 = cx * cx := by
        rw [hr3d, Real.mul_self_sqrt hS3pos.le]; exact hS3v
      have hr3pos : 0 < r3 := by rw [hr3d]; exact Real.sqrt_pos.mpr hS3pos
      have hcg : Real.cos (atan2 (sz * cx) (cz * cx)) = cz * (cx / r3) := by
        rw [hc3]; ring
      have hsg : Real.sin (atan2 (sz * cx) (cz * cx)) = sz * (cx / r3) := by
        rw [hs3]; ring
      have hr13 : r1 * r3 = cx * cx := by
        have hsq : r1 * r3 * (r1 * r3) = cx * cx * (cx * cx) := by
          calc r1 * r3 * (r1 * r3) = (r1 * r1) * (r3 * r3) := by ring
            _ = cx * cx * (cx * cx) := by rw [hr1sq, hr3sq]
        exact eq_of_mul_self_eq _ _ (by positivity) (mul_self_nonneg cx) hsq
      have hq13 : cx / r1 * (cx / r3) = 1 := by
        rw [div_mul_div_comm, ← hr13]
        exact div_self (by positivity)
      have hmids : Real.sin (Real.arcsin sx) = sx := Real.sin_arcsin hsxn hsx1
      have hmidc : Real.cos (Real.arcsin sx) = cx * (cx / r1) := by
        rw [Real.cos_arcsin]
        have hnn : 0 ≤ cx * (cx / r1) := by
          have hh : cx * (cx / r1) = cx * cx / r1 := by ring
          rw [hh]; positivity
        refine eq_of_mul_self_eq _ _ (Real.sqrt_nonneg _) hnn ?_
        rw [Real.mul_self_sqrt (by linarith only [hpx, mul_self_nonneg cx] : (0:ℝ) ≤ 1 - sx ^ 2)]
        linear_combination (-(cx * cx)) * hq1 - hpx
      have hget : Basis.get_euler (Basis.new_from_floats (cz * cy - sz * sx * sy)
          (-(sz * cx)) (cz * sy + sz * sx * cy) (sz * cy + cz * sx * sy) (cz * cx)
          (sz * sy - cz * sx * cy) (-(cx * sy)) sx (cx * cy))
          (some EulerOrder.ZXY) =
          ⟨Real.arcsin sx, atan2 (cx * sy) (cx * cy), atan2 (sz * cx) (cz * cx)⟩ := by
        simp only [Basis.get_euler, Option.getD, Basis.new_from_floats]
        rw [if_pos h1, if_pos h2]
        simp only [neg_neg]
      rw [hget]
      have hBB : Basis.set_euler ⟨Real.arcsin sx, atan2 (cx * sy) (cx * cy),
          atan2 (sz * cx) (cz * cx)⟩ EulerOrder.ZXY =
          Basis.new_from_floats (cz * cy - sz * sx * sy) (-(sz * cx)) (cz * sy + sz * sx * cy)
            (sz * cy + cz * sx * sy) (cz * cx) (sz * sy - cz * sx * cy)
            (-(cx * sy)) sx (cx * cy) := by
        rw [set_euler_ZXY_eq, hca, hsa, hcg, hsg, hmidc, hmids]
        simp only [Basis.new_from_floats, Basis.mk.injEq, Vector3.mk.injEq]
        refine ⟨⟨?_, ?_, ?_⟩, ⟨?_, ?_, ?_⟩, ?_, ?_, ?_⟩
        · linear_combination (cz * cy - sz * sx * sy) * hq13
        · linear_combination (-(sz * cx)) * hq13
        · linear_combination (cz * sy + sz * sx * cy) * hq13
        · linear_combination (sz * cy + cz * sx * sy) * hq13
        · linear_combination (cz * cx) * hq13
        · linear_combination (sz * sy - cz * sx * cy) * hq13
        · linear_combination (-(cx * sy)) * hq1
        · ring
        · linear_combination (cx * cy) * hq1
      rw [hBB]
      exact ⟨by rw [sub_self_length_squared]; norm_num,
        by rw [sub_self_length_squared]; norm_num,
        by rw [sub_self_length_squared]; norm_num⟩
    · -- lock with sx close to -1
      have h2' : sx ≤ -(1 - CMP_EPSILON) := not_lt.mp h2
      have ha1 : 1 + sx ≤ 1 / 100000 := by linarith only [h2', heps]
      have ha3 : 0 ≤ 1 + sx := by linarith only [hsxn]
      have hprod : (1 + sx) * (1 - sx) ≤ (1 / 100000) * 2 :=
        mul_le_mul ha1 (by linarith only [hsxn]) (by linarith only [hsx1]) (by norm_num)
      have hcx2 : cx * cx ≤ 2 / 100000 := by linarith only [hprod, hpx]
      have hSv : (cz * cy - sz * sx * sy) * (cz * cy - sz * sx * sy) +
          (cz * sy + sz * sx * cy) * (cz * sy + sz * sx * cy) = 1 - sz * sz * (cx * cx) := by
        linear_combination (cz * cz + sz * sz * (sx * sx)) * hpy + (sz * sz) * hpx + hpz
      have hszcx : sz * sz * (cx * cx) ≤ cx * cx := by
        linarith only [mul_nonneg (by linarith only [hsz2] : (0:ℝ) ≤ 1 - sz * sz)
          (mul_self_nonneg cx)]
      have hSpos : 0 < (cz * cy - sz * sx * sy) * (cz * cy - sz * sx * sy) +
          (cz * sy + sz * sx * cy) * (cz * sy + sz * sx * cy) := by
        rw [hSv]; linarith only [hszcx, hcx2]
      obtain ⟨hcl, hsl⟩ := cos_sin_atan2 (cz * sy + sz * sx * cy) (cz * cy - sz * sx * sy) hSpos
      set rr := Real.sqrt ((cz * cy - sz * sx * sy) * (cz * cy - sz * sx * sy) +
          (cz * sy + sz * sx * cy) * (cz * sy + sz * sx * cy)) with hrrd
      have hrrsq : rr * rr = (cz * cy - sz * sx * sy) * (cz * cy - sz * sx * sy) +
          (cz * sy + sz * sx * cy) * (cz * sy + sz * sx * cy) := by
        rw [hrrd]; exact Real.mul_self_sqrt hSpos.le
      have hrrpos : 0 < rr := by rw [hrrd]; exact Real.sqrt_pos.mpr hSpos
      have hrr2 : rr * rr = 1 - sz * sz * (cx * cx) := by rw [hrrsq]; exact hSv
      have hrlow : 1 - cx * cx ≤ rr * rr := by rw [hrr2]; linarith only [hszcx]
      have hrr1a : rr * rr ≤ 1 := by
        rw [hrr2]; linarith only [mul_nonneg (mul_self_nonneg sz) (mul_self_nonneg cx)]
      have hrle1 : rr ≤ 1 := by linarith only [hrr1a, sq_nonneg (rr - 1)]
      have hget : Basis.get_euler (Basis.new_from_floats (cz * cy - sz * sx * sy)
          (-(sz * cx)) (cz * sy + sz * sx * cy) (sz * cy + cz * sx * sy) (cz * cx)
          (sz * sy - cz * sx * cy) (-(cx * sy)) sx (cx * cy))
          (some EulerOrder.ZXY) =
          ⟨-(Real.pi / 2), atan2 (cz * sy + sz * sx * cy) (cz * cy - sz * sx * sy), 0⟩ := by
        simp only [Basis.get_euler, Option.getD, Basis.new_from_floats]
        rw [if_pos h1, if_neg h2]
      rw [hget, set_euler_ZXY_eq, Real.cos_neg, Real.sin_neg, hcl, hsl,
        Real.cos_pi_div_two, Real.sin_pi_div_two, Real.cos_zero, Real.sin_zero]
      have hcs1 : (cz * sy + sz * cy) * (cz * sy + sz * cy) ≤ 1 := by
        have hid0 : (cz * sy + sz * cy) * (cz * sy + sz * cy) +
            (cz * cy - sz * sy) * (cz * cy - sz * sy) =
            (sz * sz + cz * cz) * (sy * sy + cy * cy) := by ring
        have hprod2 : (sz * sz + cz * cz) * (sy * sy + cy * cy) = 1 := by
          rw [hpz, hpy]; norm_num
        linarith only [hid0, hprod2, mul_self_nonneg (cz * cy - sz * sy)]
      have hcs2 : (cz * cy - sz * sy) * (cz * cy - sz * sy) ≤ 1 := by
        have hid0 : (cz * cy - sz * sy) * (cz * cy - sz * sy) +
            (cz * sy + sz * cy) * (cz * sy + sz * cy) =
            (sz * sz + cz * cz) * (sy * sy + cy * cy) := by ring
        have hprod2 : (sz * sz + cz * cz) * (sy * sy + cy * cy) = 1 := by
          rw [hpz, hpy]; norm_num
        linarith only [hid0, hprod2, mul_self_nonneg (cz * sy + sz * cy)]
      refine ⟨?_, ?_, ?_⟩
      · simp only [Basis.get_column, Basis.new_from_floats, Vector3.sub_def,
          Vector3.length_squared]
        have hu0 : ((cz * cy - sz * sx * sy) - (cz * cy - sz * sx * sy)) *
            ((cz * cy - sz * sx * sy) - (cz * cy - sz * sx * sy)) ≤
            (2 / 100000) * (2 / 100000) := by
          have hz : ((cz * cy - sz * sx * sy) - (cz * cy - sz * sx * sy)) *
              ((cz * cy - sz * sx * sy) - (cz * cy - sz * sx * sy)) = 0 := by ring
          rw [hz]; norm_num
        have hv2 : ((cz * sy + sz * sx * cy) - (-(sz * cy + cz * sx * sy))) *
            ((cz * sy + sz * sx * cy) - (-(sz * cy + cz * sx * sy))) ≤
            (2 / 100000) * (2 / 100000) := by
          have hfac : (cz * sy + sz * sx * cy) - (-(sz * cy + cz * sx * sy)) =
              (1 + sx) * (cz * sy + sz * cy) := by ring
          rw [hfac]
          calc (1 + sx) * (cz * sy + sz * cy) * ((1 + sx) * (cz * sy + sz * cy)) =
              ((1 + sx) * (1 + sx)) * ((cz * sy + sz * cy) * (cz * sy + sz * cy)) := by ring
            _ ≤ ((1 / 100000) * (1 / 100000)) * 1 :=
              mul_le_mul (mul_self_le_mul_self ha3 ha1) hcs1 (mul_self_nonneg _) (by norm_num)
            _ ≤ (2 / 100000) * (2 / 100000) := by norm_num
        have hlock := lock_col_bound (cx * cx) (cz * cy - sz * sx * sy)
          (cz * sy + sz * sx * cy) (cz * cy - sz * sx * sy) (-(sz * cy + cz * sx * sy)) rr sy
          (mul_self_nonneg cx) hcx2 hrrsq hrlow hrle1 hrrpos
          (by linarith only [hpy, mul_self_nonneg cy] : sy * sy ≤ 1) hu0 hv2
        refine le_trans (le_of_eq ?_) hlock
        ring
      · simp only [Basis.get_column, Basis.new_from_floats, Vector3.sub_def,
          Vector3.length_squared]
        have hd2 : (1 + sx) * (1 + sx) ≤ (1 / 100000) * (1 / 100000) :=
          mul_self_le_mul_self ha3 ha1
        have hxx : sz * cx * (sz * cx) + cz * cx * (cz * cx) = cx * cx := by
          linear_combination (cx * cx) * hpz
        linarith only [hd2, hxx, hcx2]
      · simp only [Basis.get_column, Basis.new_from_floats, Vector3.sub_def,
          Vector3.length_squared]
        have hu2 : ((cz * cy - sz * sx * sy) - (sz * sy - cz * sx * cy)) *
            ((cz * cy - sz * sx * sy) - (sz * sy - cz * sx * cy)) ≤
            (2 / 100000) * (2 / 100000) := by
          have hfac : (cz * cy - sz * sx * sy) - (sz * sy - cz * sx * cy) =
              (1 + sx) * (cz * cy - sz * sy) := by ring
          rw [hfac]
          calc (1 + sx) * (cz * cy - sz * sy) * ((1 + sx) * (cz * cy - sz * sy)) =
              ((1 + sx) * (1 + sx)) * ((cz * cy - sz * sy) * (cz * cy - sz * sy)) := by ring
            _ ≤ ((1 / 100000) * (1 / 100000)) * 1 :=
              mul_le_mul (mul_self_le_mul_self ha3 ha1) hcs2 (mul_self_nonneg _) (by norm_num)
            _ ≤ (2 / 100000) * (2 / 100000) := by norm_num
        have hv0 : ((cz * sy + sz * sx * cy) - (cz * sy + sz * sx * cy)) *
            ((cz * sy + sz * sx * cy) - (cz * sy + sz * sx * cy)) ≤
            (2 / 100000) * (2 / 100000) := by
          have hz : ((cz * sy + sz * sx * cy) - (cz * sy + sz * sx * cy)) *
              ((cz * sy + sz * sx * cy) - (cz * sy + sz * sx * cy)) = 0 := by ring
          rw [hz]; norm_num
        have hlock := lock_col_bound (cx * cx) (cz * cy - sz * sx * sy)
          (cz * sy + sz * sx * cy) (sz * sy - cz * sx * cy) (cz * sy + sz * sx * cy) rr cy
          (mul_self_nonneg cx) hcx2 hrrsq hrlow hrle1 hrrpos
          (by linarith only [hpy, mul_self_nonneg sy] : cy * cy ≤ 1) hu2 hv0
        refine le_trans (le_of_eq ?_) hlock
        ring
  · -- lock with sx close to 1
    have h1' : 1 - CMP_EPSILON ≤ sx := not_lt.mp h1
    have ha1 : 1 - sx ≤ 1 / 100000 := by linarith only [h1', heps]
    have ha3 : 0 ≤ 1 - sx := by linarith only [hsx1]
    have hprod : (1 - sx) * (1 + sx) ≤ (1 / 100000) * 2 :=
      mul_le_mul ha1 (by linarith only [hsx1]) (by linarith only [hsxn]) (by norm_num)
    have hcx2 : cx * cx ≤ 2 / 100000 := by linarith only [hprod, hpx]
    have hSv : (cz * cy - sz * sx * sy) * (cz * cy - sz * sx * sy) +
        (cz * sy + sz * sx * cy) * (cz * sy + sz * sx * cy) = 1 - sz * sz * (cx * cx) := by
      linear_combination (cz * cz + sz * sz * (sx * sx)) * hpy + (sz * sz) * hpx + hpz
    have hszcx : sz * sz * (cx * cx) ≤ cx * cx := by
      linarith only [mul_nonneg (by linarith only [hsz2] : (0:ℝ) ≤ 1 - sz * sz)
        (mul_self_nonneg cx)]
    have hSpos : 0 < (cz * cy - sz * sx * sy) * (cz * cy - sz * sx * sy) +
        (cz * sy + sz * sx * cy) * (cz * sy + sz * sx * cy) := by
      rw [hSv]; linarith only [hszcx, hcx2]
    obtain ⟨hcl, hsl⟩ := cos_sin_atan2 (cz * sy + sz * sx * cy) (cz * cy - sz * sx * sy) hSpos
    set rr := Real.sqrt ((cz * cy - sz * sx * sy) * (cz * cy - sz * sx * sy) +
        (cz * sy + sz * sx * cy) * (cz * sy + sz * sx * cy)) with hrrd
    have hrrsq : rr * rr = (cz * cy - sz * sx * sy) * (cz * cy - sz * sx * sy) +
        (cz * sy + sz * sx * cy) * (cz * sy + sz * sx * cy) := by
      rw [hrrd]; exact Real.mul_self_sqrt hSpos.le
    have hrrpos : 0 < rr := by rw [hrrd]; exact Real.sqrt_pos.mpr hSpos
    have hrr2 : rr * rr = 1 - sz * sz * (cx * cx) := by rw [hrrsq]; exact hSv
    have hrlow : 1 - cx * cx ≤ rr * rr := by rw [hrr2]; linarith only [hszcx]
    have hrr1a : rr * rr ≤ 1 := by
      rw [hrr2]; linarith only [mul_nonneg (mul_self_nonneg sz) (mul_self_nonneg cx)]
    have hrle1 : rr ≤ 1 := by linarith only [hrr1a, sq_nonneg (rr - 1)]
    have hget : Basis.get_euler (Basis.new_from_floats (cz * cy - sz * sx * sy)
        (-(sz * cx)) (cz * sy + sz * sx * cy) (sz * cy + cz * sx * sy) (cz * cx)
        (sz * sy - cz * sx * cy) (-(cx * sy)) sx (cx * cy))
        (some EulerOrder.ZXY) =
        ⟨Real.pi / 2, atan2 (cz * sy + sz * sx * cy) (cz * cy - sz * sx * sy), 0⟩ := by
      simp only [Basis.get_euler, Option.getD, Basis.new_from_floats]
      rw [if_neg h1]
    rw [hget, set_euler_ZXY_eq, hcl, hsl, Real.cos_pi_div_two, Real.sin_pi_div_two,
      Real.cos_zero, Real.sin_zero]
    have hcs1 : (cz * sy - sz * cy) * (cz * sy - sz * cy) ≤ 1 := by
      have hid0 : (cz * sy - sz * cy) * (cz * sy - sz * cy) +
          (cz * cy + sz * sy) * (cz * cy + sz * sy) =
          (sz * sz + cz * cz) * (sy * sy + cy * cy) := by ring
      have hprod2 : (sz * sz + cz * cz) * (sy * sy + cy * cy) = 1 := by
        rw [hpz, hpy]; norm_num
      linarith only [hid0, hprod2, mul_self_nonneg (cz * cy + sz * sy)]
    have hcs2 : (cz * cy + sz * sy) * (cz * cy + sz * sy) ≤ 1 := by
      have hid0 : (cz * cy + sz * sy) * (cz * cy + sz * sy) +
          (cz * sy - sz * cy) * (cz * sy - sz * cy) =
          (sz * sz + cz * cz) * (sy * sy + cy * cy) := by ring
      have hprod2 : (sz * sz + cz * cz) * (sy * sy + cy * cy) = 1 := by
        rw [hpz, hpy]; norm_num
      linarith only [hid0, hprod2, mul_self_nonneg (cz * sy - sz * cy)]
    refine ⟨?_, ?_, ?_⟩
    · simp only [Basis.get_column, Basis.new_from_floats, Vector3.sub_def,
        Vector3.length_squared]
      have hu0 : ((cz * cy - sz * sx * sy) - (cz * cy - sz * sx * sy)) *
          ((cz * cy - sz * sx * sy) - (cz * cy - sz * sx * sy)) ≤
          (2 / 100000) * (2 / 100000) := by
        have hz : ((cz * cy - sz * sx * sy) - (cz * cy - sz * sx * sy)) *
            ((cz * cy - sz * sx * sy) - (cz * cy - sz * sx * sy)) = 0 := by ring
        rw [hz]; norm_num
      have hv2 : ((cz * sy + sz * sx * cy) - (sz * cy + cz * sx * sy)) *
          ((cz * sy + sz * sx * cy) - (sz * cy + cz * sx * sy)) ≤
          (2 / 100000) * (2 / 100000) := by
        have hfac : (cz * sy + sz * sx * cy) - (sz * cy + cz * sx * sy) =
            (1 - sx) * (cz * sy - sz * cy) := by ring
        rw [hfac]
        calc (1 - sx) * (cz * sy - sz * cy) * ((1 - sx) * (cz * sy - sz * cy)) =
            ((1 - sx) * (1 - sx)) * ((cz * sy - sz * cy) * (cz * sy - sz * cy)) := by ring
          _ ≤ ((1 / 100000) * (1 / 100000)) * 1 :=
            mul_le_mul (mul_self_le_mul_self ha3 ha1) hcs1 (mul_self_nonneg _) (by norm_num)
          _ ≤ (2 / 100000) * (2 / 100000) := by norm_num
      have hlock := lock_col_bound (cx * cx) (cz * cy - sz * sx * sy)
        (cz * sy + sz * sx * cy) (cz * cy - sz * sx * sy) (sz * cy + cz * sx * sy) rr sy
        (mul_self_nonneg cx) hcx2 hrrsq hrlow hrle1 hrrpos
        (by linarith only [hpy, mul_self_nonneg cy] : sy * sy ≤ 1) hu0 hv2
      refine le_trans (le_of_eq ?_) hlock
      ring
    · simp only [Basis.get_column, Basis.new_from_floats, Vector3.sub_def,
        Vector3.length_squared]
      have hd2 : (1 - sx) * (1 - sx) ≤ (1 / 100000) * (1 / 100000) :=
        mul_self_le_mul_self ha3 ha1
      have hxx : sz * cx * (sz * cx) + cz * cx * (cz * cx) = cx * cx := by
        linear_combination (cx * cx) * hpz
      linarith only [hd2, hxx, hcx2]
    · simp only [Basis.get_column, Basis.new_from_floats, Vector3.sub_def,
        Vector3.length_squared]
      have hu2 : ((cz * cy - sz * sx * sy) - (-(sz * sy - cz * sx * cy))) *
          ((cz * cy - sz * sx * sy) - (-(sz * sy - cz * sx * cy))) ≤
          (2 / 100000) * (2 / 100000) := by
        have hfac : (cz * cy - sz * sx * sy) - (-(sz * sy - cz * sx * cy)) =
            (1 - sx) * (cz * cy + sz * sy) := by ring
        rw [hfac]
        calc (1 - sx) * (cz * cy + sz * sy) * ((1 - sx) * (cz * cy + sz * sy)) =
            ((1 - sx) * (1 - sx)) * ((cz * cy + sz * sy) * (cz * cy + sz * sy)) := by ring
          _ ≤ ((1 / 100000) * (1 / 100000)) * 1 :=
            mul_le_mul (mul_self_le_mul_self ha3 ha1) hcs2 (mul_self_nonneg _) (by norm_num)
          _ ≤ (2 / 100000) * (2 / 100000) := by norm_num
      have hv0 : ((cz * sy + sz * sx * cy) - (cz * sy + sz * sx * cy)) *
          ((cz * sy + sz * sx * cy) - (cz * sy + sz * sx * cy)) ≤
          (2 / 100000) * (2 / 100000) := by
        have hz : ((cz * sy + sz * sx * cy) - (cz * sy + sz * sx * cy)) *
            ((cz * sy + sz * sx * cy) - (cz * sy + sz * sx * cy)) = 0 := by ring
        rw [hz]; norm_num
      have hlock := lock_col_bound (cx * cx) (cz * cy - sz * sx * sy)
        (cz * sy + sz * sx * cy) (-(sz * sy - cz * sx * cy)) (cz * sy + sz * sx * cy) rr cy
        (mul_self_nonneg cx) hcx2 hrrsq hrlow hrle1 hrrpos
        (by linarith only [hpy, mul_self_nonneg sy] : cy * cy ≤ 1) hu2 hv0
      refine le_trans (le_of_eq ?_) hlock
      ring

set_option maxHeartbeats 2000000 in
/-- Euler round-trip column bounds for the ZYX order. -/
theorem roundtrip_cols_ZYX (cx sx cy sy cz sz : ℝ) (B : Basis)
    (hB : B = Basis.new_from_floats (cz * cy) (cz * sy * sx - sz * cx) (sz * sx + cz * sy * cx)
      (sz * cy) (cz * cx + sz * sy * sx) (sz * sy * cx - cz * sx)
      (-sy) (cy * sx) (cy * cx))
    (hpx : sx * sx + cx * cx = 1) (hpy : sy * sy + cy * cy = 1)
    (hpz : sz * sz + cz * cz = 1) :
    ((Basis.set_euler (B.get_euler (some EulerOrder.ZYX)) EulerOrder.ZYX).get_column 0 -
        B.get_column 0).length_squared ≤ 1 / 100 ∧
      ((Basis.set_euler (B.get_euler (some EulerOrder.ZYX)) EulerOrder.ZYX).get_column 1 -
        B.get_column 1).length_squared ≤ 1 / 100 ∧
      ((Basis.set_euler (B.get_euler (some EulerOrder.ZYX)) EulerOrder.ZYX).get_column 2 -
        B.get_column 2).length_squared ≤ 1 / 100 := by
  subst hB
  have heps : CMP_EPSILON = 1 / 100000 := rfl
  have heps2 : CMP_EPSILON * CMP_EPSILON = 1 / 10000000000 := by rw [heps]; norm_num
  have hsy1 : sy ≤ 1 := by nlinarith [mul_self_nonneg cy, mul_self_nonneg (sy - 1)]
  have hsyn : -1 ≤ sy := by nlinarith [mul_self_nonneg cy, mul_self_nonneg (sy + 1)]
  have hsx2 : sx * sx ≤ 1 := by linarith only [hpx, mul_self_nonneg cx]
  have hcx2a : cx * cx ≤ 1 := by linarith only [hpx, mul_self_nonneg sx]
  by_cases h1 : -sy < 1 - CMP_EPSILON
  · by_cases h2 : -(1 - CMP_EPSILON) < -sy
    · -- regular zone
      have hprod : 0 < (1 - CMP_EPSILON - -sy) * (-sy + (1 - CMP_EPSILON)) :=
        mul_pos (by linarith) (by linarith)
      have hcypos : 0 < cy * cy := by linarith only [hprod, heps, heps2, hpy]
      have hS1v : cy * cx * (cy * cx) + cy * sx * (cy * sx) = cy * cy := by
        linear_combination (cy * cy) * hpx
      have hS1pos : 0 < cy * cx * (cy * cx) + cy * sx * (cy * sx) := by
        rw [hS1v]; exact hcypos
      obtain ⟨hc1, hs1⟩ := cos_sin_atan2 (cy * sx) (cy * cx) hS1pos
      set r1 := Real.sqrt (cy * cx * (cy * cx) + cy * sx * (cy * sx)) with hr1d
      have hr1sq : r1 * r1 = cy * cy := by
        rw [hr1d, Real.mul_self_sqrt hS1pos.le]; exact hS1v
      have hr1pos : 0 < r1 := by rw [hr1d]; exact Real.sqrt_pos.mpr hS1pos
      have hq1 : cy / r1 * (cy / r1) = 1 := by
        rw [div_mul_div_comm, ← hr1sq]
        exact div_self (by positivity)
      have hca : Real.cos (atan2 (cy * sx) (cy * cx)) = cx * (cy / r1) := by
        rw [hc1]; ring
      have hsa : Real.sin (atan2 (cy * sx) (cy * cx)) = sx * (cy / r1) := by
        rw [hs1]; ring
      have hS3v : cz * cy * (cz * cy) + sz * cy * (sz * cy) = cy * cy := by
        linear_combination (cy * cy) * hpz
      have hS3pos : 0 < cz * cy * (cz * cy) + sz * cy * (sz * cy) := by
        rw [hS3v]; exact hcypos
      obtain ⟨hc3, hs3⟩ := cos_sin_atan2 (sz * cy) (cz * cy) hS3pos
      set r3 := Real.sqrt (cz * cy * (cz * cy) + sz * cy * (sz * cy)) with hr3d
      have hr3sq : r3 * r3 = cy * cy := by
        rw [hr3d, Real.mul_self_sqrt hS3pos.le]; exact hS3v
      have hr3pos : 0 < r3 := by rw [hr3d]; exact Real.sqrt_pos.mpr hS3pos
      have hcg : Real.cos (atan2 (sz * cy) (cz * cy)) = cz * (cy / r3) := by
        rw [hc3]; ring
      have hsg : Real.sin (atan2 (sz * cy) (cz * cy)) = sz * (cy / r3) := by
        rw [hs3]; ring
      have hr13 : r1 * r3 = cy * cy := by
        have hsq : r1 * r3 * (r1 * r3) = cy * cy * (cy * cy) := by
          calc r1 * r3 * (r1 * r3) = (r1 * r1) * (r3 * r3) := by ring
            _ = cy * cy * (cy * cy) := by rw [hr1sq, hr3sq]
        exact eq_of_mul_self_eq _ _ (by positivity) (mul_self_nonneg cy) hsq
      have hq13 : cy / r1 * (cy / r3) = 1 := by
        rw [div_mul_div_comm, ← hr13]
        exact div_self (by positivity)
      have hmids : Real.sin (Real.arcsin sy) = sy := Real.sin_arcsin hsyn hsy1
      have hmidc : Real.cos (Real.arcsin sy) = cy * (cy / r1) := by
        rw [Real.cos_arcsin]
        have hnn : 0 ≤ cy * (cy / r1) := by
          have hh : cy * (cy / r1) = cy * cy / r1 := by ring
          rw [hh]; positivity
        refine eq_of_mul_self_eq _ _ (Real.sqrt_nonneg _) hnn ?_
        rw [Real.mul_self_sqrt (by linarith only [hpy, mul_self_nonneg cy] : (0:ℝ) ≤ 1 - sy ^ 2)]
        linear_combination (-(cy * cy)) * hq1 - hpy
      have hget : Basis.get_euler (Basis.new_from_floats (cz * cy)
          (cz * sy * sx - sz * cx) (sz * sx + cz * sy * cx) (sz * cy)
          (cz * cx + sz * sy * sx) (sz * sy * cx - cz * sx) (-sy) (cy * sx) (cy * cx))
          (some EulerOrder.ZYX) =
          ⟨atan2 (cy * sx) (cy * cx), Real.arcsin sy, atan2 (sz * cy) (cz * cy)⟩ := by
        simp only [Basis.get_euler, Option.getD, Basis.new_from_floats]
        rw [if_pos h1, if_pos h2]
        simp only [neg_neg]
      rw [hget]
      have hBB : Basis.set_euler ⟨atan2 (cy * sx) (cy * cx), Real.arcsin sy,
          atan2 (sz * cy) (cz * cy)⟩ EulerOrder.ZYX =
          Basis.new_from_floats (cz * cy) (cz * sy * sx - sz * cx) (sz * sx + cz * sy * cx)
            (sz * cy) (cz * cx + sz * sy * sx) (sz * sy * cx - cz * sx)
            (-sy) (cy * sx) (cy * cx) := by
        rw [set_euler_ZYX_eq, hca, hsa, hcg, hsg, hmidc, hmids]
        simp only [Basis.new_from_floats, Basis.mk.injEq, Vector3.mk.injEq]
        refine ⟨⟨?_, ?_, ?_⟩, ⟨?_, ?_, ?_⟩, ?_, ?_, ?_⟩
        · linear_combination (cz * cy) * hq13
        · linear_combination (cz * sy * sx - sz * cx) * hq13
        · linear_combination (sz * sx + cz * sy * cx) * hq13
        · linear_combination (sz * cy) * hq13
        · linear_combination (cz * cx + sz * sy * sx) * hq13
        · linear_combination (sz * sy * cx - cz * sx) * hq13
        · ring
        · linear_combination (cy * sx) * hq1
        · linear_combination (cy * cx) * hq1
      rw [hBB]
      exact ⟨by rw [sub_self_length_squared]; norm_num,
        by rw [sub_self_length_squared]; norm_num,
        by rw [sub_self_length_squared]; norm_num⟩
    · -- lock with sy close to 1
      have h2' : -sy ≤ -(1 - CMP_EPSILON) := not_lt.mp h2
      have ha1 : 1 - sy ≤ 1 / 100000 := by linarith only [h2', heps]
      have ha3 : 0 ≤ 1 - sy := by linarith only [hsy1]
      have hprod : (1 - sy) * (1 + sy) ≤ (1 / 100000) * 2 :=
        mul_le_mul ha1 (by linarith only [hsy1]) (by linarith only [hsyn]) (by norm_num)
      have hcy2 : cy * cy ≤ 2 / 100000 := by linarith only [hprod, hpy]
      have hSv : (cz * cx + sz * sy * sx) * (cz * cx + sz * sy * sx) +
          (cz * sy * sx - sz * cx) * (cz * sy * sx - sz * cx) = 1 - sx * sx * (cy * cy) := by
        linear_combination (cx * cx + sy * sy * (sx * sx)) * hpz + (sx * sx) * hpy + hpx
      have hsxcy : sx * sx * (cy * cy) ≤ cy * cy := by
        linarith only [mul_nonneg (by linarith only [hsx2] : (0:ℝ) ≤ 1 - sx * sx)
          (mul_self_nonneg cy)]
      have hSpos : 0 < (cz * cx + sz * sy * sx) * (cz * cx + sz * sy * sx) +
          (cz * sy * sx - sz * cx) * (cz * sy * sx - sz * cx) := by
        rw [hSv]; linarith only [hsxcy, hcy2]
      obtain ⟨hcl, hsl⟩ := cos_sin_atan2 (cz * sy * sx - sz * cx) (cz * cx + sz * sy * sx) hSpos
      set rr := Real.sqrt ((cz * cx + sz * sy * sx) * (cz * cx + sz * sy * sx) +
          (cz * sy * sx - sz * cx) * (cz * sy * sx - sz * cx)) with hrrd
      have hrrsq : rr * rr = (cz * cx + sz * sy * sx) * (cz * cx + sz * sy * sx) +
          (cz * sy * sx - sz * cx) * (cz * sy * sx - sz * cx) := by
        rw [hrrd]; exact Real.mul_self_sqrt hSpos.le
      have hrrpos : 0 < rr := by rw [hrrd]; exact Real.sqrt_pos.mpr hSpos
      have hrr2 : rr * rr = 1 - sx * sx * (cy * cy) := by rw [hrrsq]; exact hSv
      have hrlow : 1 - cy * cy ≤ rr * rr := by rw [hrr2]; linarith only [hsxcy]
      have hrr1a : rr * rr ≤ 1 := by
        rw [hrr2]; linarith only [mul_nonneg (mul_self_nonneg sx) (mul_self_nonneg cy)]
      have hrle1 : rr ≤ 1 := by linarith only [hrr1a, sq_nonneg (rr - 1)]
      have hget : Basis.get_euler (Basis.new_from_floats (cz * cy)
          (cz * sy * sx - sz * cx) (sz * sx + cz * sy * cx) (sz * cy)
          (cz * cx + sz * sy * sx) (sz * sy * cx - cz * sx) (-sy) (cy * sx) (cy * cx))
          (some EulerOrder.ZYX) =
          ⟨0, Real.pi / 2,
            -(atan2 (cz * sy * sx - sz * cx) (cz * cx + sz * sy * sx))⟩ := by
        simp only [Basis.get_euler, Option.getD, Basis.new_from_floats]
        rw [if_pos h1, if_neg h2]
      rw [hget, set_euler_ZYX_eq]
      simp only [Real.cos_neg, Real.sin_neg]
      rw [hcl, hsl, Real.cos_pi_div_two, Real.sin_pi_div_two, Real.cos_zero, Real.sin_zero]
      have hcs1 : (cz * cx - sz * sx) * (cz * cx - sz * sx) ≤ 1 := by
        have hid0 : (cz * cx - sz * sx) * (cz * cx - sz * sx) +
            (cz * sx + sz * cx) * (cz * sx + sz * cx) =
            (sz * sz + cz * cz) * (sx * sx + cx * cx) := by ring
        have hprod2 : (sz * sz + cz * cz) * (sx * sx + cx * cx) = 1 := by
          rw [hpz, hpx]; norm_num
        linarith only [hid0, hprod2, mul_self_nonneg (cz * sx + sz * cx)]
      have hcs2 : (cz * sx + sz * cx) * (cz * sx + sz * cx) ≤ 1 := by
        have hid0 : (cz * sx + sz * cx) * (cz * sx + sz * cx) +
            (cz * cx - sz * sx) * (cz * cx - sz * sx) =
            (sz * sz + cz * cz) * (sx * sx + cx * cx) := by ring
        have hprod2 : (sz * sz + cz * cz) * (sx * sx + cx * cx) = 1 := by
          rw [hpz, hpx]; norm_num
        linarith only [hid0, hprod2, mul_self_nonneg (cz * cx - sz * sx)]
      refine ⟨?_, ?_, ?_⟩
      · simp only [Basis.get_column, Basis.new_from_floats, Vector3.sub_def,
          Vector3.length_squared]
        have hd2 : (1 - sy) * (1 - sy) ≤ (1 / 100000) * (1 / 100000) :=
          mul_self_le_mul_self ha3 ha1
        have hxx : cz * cy * (cz * cy) + sz * cy * (sz * cy) = cy * cy := by
          linear_combination (cy * cy) * hpz
        linarith only [hd2, hxx, hcy2]
      · simp only [Basis.get_column, Basis.new_from_floats, Vector3.sub_def,
          Vector3.length_squared]
        have hu0 : ((cz * cx + sz * sy * sx) - (cz * cx + sz * sy * sx)) *
            ((cz * cx + sz * sy * sx) - (cz * cx + sz * sy * sx)) ≤
            (2 / 100000) * (2 / 100000) := by
          have hz : ((cz * cx + sz * sy * sx) - (cz * cx + sz * sy * sx)) *
              ((cz * cx + sz * sy * sx) - (cz * cx + sz * sy * sx)) = 0 := by ring
          rw [hz]; norm_num
        have hv0 : ((cz * sy * sx - sz * cx) - (cz * sy * sx - sz * cx)) *
            ((cz * sy * sx - sz * cx) - (cz * sy * sx - sz * cx)) ≤
            (2 / 100000) * (2 / 100000) := by
          have hz : ((cz * sy * sx - sz * cx) - (cz * sy * sx - sz * cx)) *
              ((cz * sy * sx - sz * cx) - (cz * sy * sx - sz * cx)) = 0 := by ring
          rw [hz]; norm_num
        have hlock := lock_col_bound (cy * cy) (cz * cx + sz * sy * sx)
          (cz * sy * sx - sz * cx) (cz * cx + sz * sy * sx) (cz * sy * sx - sz * cx) rr sx
          (mul_self_nonneg cy) hcy2 hrrsq hrlow hrle1 hrrpos hsx2 hu0 hv0
        refine le_trans (le_of_eq ?_) hlock
        ring
      · simp only [Basis.get_column, Basis.new_from_floats, Vector3.sub_def,
          Vector3.length_squared]
        have hu2 : ((cz * cx + sz * sy * sx) - (sz * sx + cz * sy * cx)) *
            ((cz * cx + sz * sy * sx) - (sz * sx + cz * sy * cx)) ≤
            (2 / 100000) * (2 / 100000) := by
          have hfac : (cz * cx + sz * sy * sx) - (sz * sx + cz * sy * cx) =
              (1 - sy) * (cz * cx - sz * sx) := by ring
          rw [hfac]
          calc (1 - sy) * (cz * cx - sz * sx) * ((1 - sy) * (cz * cx - sz * sx)) =
              ((1 - sy) * (1 - sy)) * ((cz * cx - sz * sx) * (cz * cx - sz * sx)) := by ring
            _ ≤ ((1 / 100000) * (1 / 100000)) * 1 :=
              mul_le_mul (mul_self_le_mul_self ha3 ha1) hcs1 (mul_self_nonneg _) (by norm_num)
            _ ≤ (2 / 100000) * (2 / 100000) := by norm_num
        have hv2 : ((cz * sy * sx - sz * cx) - (-(sz * sy * cx - cz * sx))) *
            ((cz * sy * sx - sz * cx) - (-(sz * sy * cx - cz * sx))) ≤
            (2 / 100000) * (2 / 100000) := by
          have hfac : (cz * sy * sx - sz * cx) - (-(sz * sy * cx - cz * sx)) =
              (sy - 1) * (cz * sx + sz * cx) := by ring
          rw [hfac]
          calc (sy - 1) * (cz * sx + sz * cx) * ((sy - 1) * (cz * sx + sz * cx)) =
              ((1 - sy) * (1 - sy)) * ((cz * sx + sz * cx) * (cz * sx + sz * cx)) := by ring
            _ ≤ ((1 / 100000) * (1 / 100000)) * 1 :=
              mul_le_mul (mul_self_le_mul_self ha3 ha1) hcs2 (mul_self_nonneg _) (by norm_num)
            _ ≤ (2 / 100000) * (2 / 100000) := by norm_num
        have hlock := lock_col_bound (cy * cy) (cz * cx + sz * sy * sx)
          (cz * sy * sx - sz * cx) (sz * sx + cz * sy * cx) (-(sz * sy * cx - cz * sx)) rr cx
          (mul_self_nonneg cy) hcy2 hrrsq hrlow hrle1 hrrpos hcx2a hu2 hv2
        refine le_trans (le_of_eq ?_) hlock
        ring
  · -- lock with sy close to -1
    have h1' : 1 - CMP_EPSILON ≤ -sy := not_lt.mp h1
    have ha1 : 1 + sy ≤ 1 / 100000 := by linarith only [h1', heps]
    have ha3 : 0 ≤ 1 + sy := by linarith only [hsyn]
    have hprod : (1 + sy) * (1 - sy) ≤ (1 / 100000) * 2 :=
      mul_le_mul ha1 (by linarith only [hsyn]) (by linarith only [hsy1]) (by norm_num)
    have hcy2 : cy * cy ≤ 2 / 100000 := by linarith only [hprod, hpy]
    have hSv : (cz * cx + sz * sy * sx) * (cz * cx + sz * sy * sx) +
        (cz * sy * sx - sz * cx) * (cz * sy * sx - sz * cx) = 1 - sx * sx * (cy * cy) := by
      linear_combination (cx * cx + sy * sy * (sx * sx)) * hpz + (sx * sx) * hpy + hpx
    have hsxcy : sx * sx * (cy * cy) ≤ cy * cy := by
      linarith only [mul_nonneg (by linarith only [hsx2] : (0:ℝ) ≤ 1 - sx * sx)
        (mul_self_nonneg cy)]
    have hSpos : 0 < (cz * cx + sz * sy * sx) * (cz * cx + sz * sy * sx) +
        (cz * sy * sx - sz * cx) * (cz * sy * sx - sz * cx) := by
      rw [hSv]; linarith only [hsxcy, hcy2]
    obtain ⟨hcl, hsl⟩ := cos_sin_atan2 (cz * sy * sx - sz * cx) (cz * cx + sz * sy * sx) hSpos
    set rr := Real.sqrt ((cz * cx + sz * sy * sx) * (cz * cx + sz * sy * sx) +
        (cz * sy * sx - sz * cx) * (cz * sy * sx - sz * cx)) with hrrd
    have hrrsq : rr * rr = (cz * cx + sz * sy * sx) * (cz * cx + sz * sy * sx) +
        (cz * sy * sx - sz * cx) * (cz * sy * sx - sz * cx) := by
      rw [hrrd]; exact Real.mul_self_sqrt hSpos.le
    have hrrpos : 0 < rr := by rw [hrrd]; exact Real.sqrt_pos.mpr hSpos
    have hrr2 : rr * rr = 1 - sx * sx * (cy * cy) := by rw [hrrsq]; exact hSv
    have hrlow : 1 - cy * cy ≤ rr * rr := by rw [hrr2]; linarith only [hsxcy]
    have hrr1a : rr * rr ≤ 1 := by
      rw [hrr2]; linarith only [mul_nonneg (mul_self_nonneg sx) (mul_self_nonneg cy)]
    have hrle1 : rr ≤ 1 := by linarith only [hrr1a, sq_nonneg (rr - 1)]
    have hget : Basis.get_euler (Basis.new_from_floats (cz * cy)
        (cz * sy * sx - sz * cx) (sz * sx + cz * sy * cx) (sz * cy)
        (cz * cx + sz * sy * sx) (sz * sy * cx - cz * sx) (-sy) (cy * sx) (cy * cx))
        (some EulerOrder.ZYX) =
        ⟨0, -(Real.pi / 2),
          -(atan2 (cz * sy * sx - sz * cx) (cz * cx + sz * sy * sx))⟩ := by
      simp only [Basis.get_euler, Option.getD, Basis.new_from_floats]
      rw [if_neg h1]
    rw [hget, set_euler_ZYX_eq]
    simp only [Real.cos_neg, Real.sin_neg]
    rw [hcl, hsl, Real.cos_pi_div_two, Real.sin_pi_div_two, Real.cos_zero, Real.sin_zero]
    have hcs1 : (cz * cx + sz * sx) * (cz * cx + sz * sx) ≤ 1 := by
      have hid0 : (cz * cx + sz * sx) * (cz * cx + sz * sx) +
          (cz * sx - sz * cx) * (cz * sx - sz * cx) =
          (sz * sz + cz * cz) * (sx * sx + cx * cx) := by ring
      have hprod2 : (sz * sz + cz * cz) * (sx * sx + cx * cx) = 1 := by
        rw [hpz, hpx]; norm_num
      linarith only [hid0, hprod2, mul_self_nonneg (cz * sx - sz * cx)]
    have hcs2 : (cz * sx - sz * cx) * (cz * sx - sz * cx) ≤ 1 := by
      have hid0 : (cz * sx - sz * cx) * (cz * sx - sz * cx) +
          (cz * cx + sz * sx) * (cz * cx + sz * sx) =
          (sz * sz + cz * cz) * (sx * sx + cx * cx) := by ring
      have hprod2 : (sz * sz + cz * cz) * (sx * sx + cx * cx) = 1 := by
        rw [hpz, hpx]; norm_num
      linarith only [hid0, hprod2, mul_self_nonneg (cz * cx + sz * sx)]
    refine ⟨?_, ?_, ?_⟩
    · simp only [Basis.get_column, Basis.new_from_floats, Vector3.sub_def,
        Vector3.length_squared]
      have hd2 : (1 + sy) * (1 + sy) ≤ (1 / 100000) * (1 / 100000) :=
        mul_self_le_mul_self ha3 ha1
      have hxx : cz * cy * (cz * cy) + sz * cy * (sz * cy) = cy * cy := by
        linear_combination (cy * cy) * hpz
      linarith only [hd2, hxx, hcy2]
    · simp only [Basis.get_column, Basis.new_from_floats, Vector3.sub_def,
        Vector3.length_squared]
      have hu0 : ((cz * cx + sz * sy * sx) - (cz * cx + sz * sy * sx)) *
          ((cz * cx + sz * sy * sx) - (cz * cx + sz * sy * sx)) ≤
          (2 / 100000) * (2 / 100000) := by
        have hz : ((cz * cx + sz * sy * sx) - (cz * cx + sz * sy * sx)) *
            ((cz * cx + sz * sy * sx) - (cz * cx + sz * sy * sx)) = 0 := by ring
        rw [hz]; norm_num
      have hv0 : ((cz * sy * sx - sz * cx) - (cz * sy * sx - sz * cx)) *
          ((cz * sy * sx - sz * cx) - (cz * sy * sx - sz * cx)) ≤
          (2 / 100000) * (2 / 100000) := by
        have hz : ((cz * sy * sx - sz * cx) - (cz * sy * sx - sz * cx)) *
            ((cz * sy * sx - sz * cx) - (cz * sy * sx - sz * cx)) = 0 := by ring
        rw [hz]; norm_num
      have hlock := lock_col_bound (cy * cy) (cz * cx + sz * sy * sx)
        (cz * sy * sx - sz * cx) (cz * cx + sz * sy * sx) (cz * sy * sx - sz * cx) rr sx
        (mul_self_nonneg cy) hcy2 hrrsq hrlow hrle1 hrrpos hsx2 hu0 hv0
      refine le_trans (le_of_eq ?_) hlock
      ring
    · simp only [Basis.get_column, Basis.new_from_floats, Vector3.sub_def,
        Vector3.length_squared]
      have hu2 : ((cz * cx + sz * sy * sx) - (-(sz * sx + cz * sy * cx))) *
          ((cz * cx + sz * sy * sx) - (-(sz * sx + cz * sy * cx))) ≤
          (2 / 100000) * (2 / 100000) := by
        have hfac : (cz * cx + sz * sy * sx) - (-(sz * sx + cz * sy * cx)) =
            (1 + sy) * (cz * cx + sz * sx) := by ring
        rw [hfac]
        calc (1 + sy) * (cz * cx + sz * sx) * ((1 + sy) * (cz * cx + sz * sx)) =
            ((1 + sy) * (1 + sy)) * ((cz * cx + sz * sx) * (cz * cx + sz * sx)) := by ring
          _ ≤ ((1 / 100000) * (1 / 100000)) * 1 :=
            mul_le_mul (mul_self_le_mul_self ha3 ha1) hcs1 (mul_self_nonneg _) (by norm_num)
          _ ≤ (2 / 100000) * (2 / 100000) := by norm_num
      have hv2 : ((cz * sy * sx - sz * cx) - (sz * sy * cx - cz * sx)) *
          ((cz * sy * sx - sz * cx) - (sz * sy * cx - cz * sx)) ≤
          (2 / 100000) * (2 / 100000) := by
        have hfac : (cz * sy * sx - sz * cx) - (sz * sy * cx - cz * sx) =
            (1 + sy) * (cz * sx - sz * cx) := by ring
        rw [hfac]
        calc (1 + sy) * (cz * sx - sz * cx) * ((1 + sy) * (cz * sx - sz * cx)) =
            ((1 + sy) * (1 + sy)) * ((cz * sx - sz * cx) * (cz * sx - sz * cx)) := by ring
          _ ≤ ((1 / 100000) * (1 / 100000)) * 1 :=
            mul_le_mul (mul_self_le_mul_self ha3 ha1) hcs2 (mul_self_nonneg _) (by norm_num)
          _ ≤ (2 / 100000) * (2 / 100000) := by norm_num
      have hlock := lock_col_bound (cy * cy) (cz * cx + sz * sy * sx)
        (cz * sy * sx - sz * cx) (-(sz * sx + cz * sy * cx)) (sz * sy * cx - cz * sx) rr cx
        (mul_self_nonneg cy) hcy2 hrrsq hrlow hrle1 hrrpos hcx2a hu2 hv2
      refine le_trans (le_of_eq ?_) hlock
      ring

/-- C1: for every `Vector3` of Euler angles and each of the six `EulerOrder`
values, `from_euler(v, order).inverse() * from_euler(get_euler(from_euler(v,
order), order), order)` has each column within 0.1 (vector length) of the
corresponding column of the identity basis: decoding a basis to an Euler
triple and re-encoding reproduces the basis up to rounding-level error. -/
theorem C1_euler_roundtrip (v : Vector3) (order : EulerOrder) :
    (((Basis.from_euler v (some order)).inverse *
        Basis.from_euler ((Basis.from_euler v (some order)).get_euler (some order))
          (some order)).get_column 0 - Basis.IDENTITY.get_column 0).length ≤ 1 / 10 ∧
      (((Basis.from_euler v (some order)).inverse *
        Basis.from_euler ((Basis.from_euler v (some order)).get_euler (some order))
          (some order)).get_column 1 - Basis.IDENTITY.get_column 1).length ≤ 1 / 10 ∧
      (((Basis.from_euler v (some order)).inverse *
        Basis.from_euler ((Basis.from_euler v (some order)).get_euler (some order))
          (some order)).get_column 2 - Basis.IDENTITY.get_column 2).length ≤ 1 / 10 := by
  obtain ⟨a, b, c⟩ := v
  have hpx : Real.sin a * Real.sin a + Real.cos a * Real.cos a = 1 := by
    linear_combination Real.sin_sq_add_cos_sq a
  have hpy : Real.sin b * Real.sin b + Real.cos b * Real.cos b = 1 := by
    linear_combination Real.sin_sq_add_cos_sq b
  have hpz : Real.sin c * Real.sin c + Real.cos c * Real.cos c = 1 := by
    linear_combination Real.sin_sq_add_cos_sq c
  cases order
  case XYZ =>
    simp only [Basis.from_euler_some]
    obtain ⟨g1, g2, g3⟩ := roundtrip_cols_XYZ (Real.cos a) (Real.sin a) (Real.cos b)
      (Real.sin b) (Real.cos c) (Real.sin c) (Basis.set_euler ⟨a, b, c⟩ EulerOrder.XYZ)
      (set_euler_XYZ_eq a b c) hpx hpy hpz
    exact roundtrip_metric _ _ (rows_orthonormal_set_euler _ _) (det_set_euler _ _) g1 g2 g3
  case XZY =>
    simp only [Basis.from_euler_some]
    obtain ⟨g1, g2, g3⟩ := roundtrip_cols_XZY (Real.cos a) (Real.sin a) (Real.cos b)
      (Real.sin b) (Real.cos c) (Real.sin c) (Basis.set_euler ⟨a, b, c⟩ EulerOrder.XZY)
      (set_euler_XZY_eq a b c) hpx hpy hpz
    exact roundtrip_metric _ _ (rows_orthonormal_set_euler _ _) (det_set_euler _ _) g1 g2 g3
  case YXZ =>
    simp only [Basis.from_euler_some]
    obtain ⟨g1, g2, g3⟩ := roundtrip_cols_YXZ (Real.cos a) (Real.sin a) (Real.cos b)
      (Real.sin b) (Real.cos c) (Real.sin c) (Basis.set_euler ⟨a, b, c⟩ EulerOrder.YXZ)
      (set_euler_YXZ_eq a b c) hpx hpy hpz
    exact roundtrip_metric _ _ (rows_orthonormal_set_euler _ _) (det_set_euler _ _) g1 g2 g3
  case YZX =>
    simp only [Basis.from_euler_some]
    obtain ⟨g1, g2, g3⟩ := roundtrip_cols_YZX (Real.cos a) (Real.sin a) (Real.cos b)
      (Real.sin b) (Real.cos c) (Real.sin c) (Basis.set_euler ⟨a, b, c⟩ EulerOrder.YZX)
      (set_euler_YZX_eq a b c) hpx hpy hpz
    exact roundtrip_metric _ _ (rows_orthonormal_set_euler _ _) (det_set_euler _ _) g1 g2 g3
  case ZXY =>
    simp only [Basis.from_euler_some]
    obtain ⟨g1, g2, g3⟩ := roundtrip_cols_ZXY (Real.cos a) (Real.sin a) (Real.cos b)
      (Real.sin b) (Real.cos c) (Real.sin c) (Basis.set_euler ⟨a, b, c⟩ EulerOrder.ZXY)
      (set_euler_ZXY_eq a b c) hpx hpy hpz
    exact roundtrip_metric _ _ (rows_orthonormal_set_euler _ _) (det_set_euler _ _) g1 g2 g3
  case ZYX =>
    simp only [Basis.from_euler_some]
    obtain ⟨g1, g2, g3⟩ := roundtrip_cols_ZYX (Real.cos a) (Real.sin a) (Real.cos b)
      (Real.sin b) (Real.cos c) (Real.sin c) (Basis.set_euler ⟨a, b, c⟩ EulerOrder.ZYX)
      (set_euler_ZYX_eq a b c) hpx hpy hpz
    exact roundtrip_metric _ _ (rows_orthonormal_set_euler _ _) (det_set_euler _ _) g1 g2 g3

end Huginn
